import Mathlib

/-!
Verification model of the tgx 3D renderer core (src/Renderer3D.h).

The renderer is shallowly embedded over exact rational arithmetic: every
C++ float becomes a rational number, so the claims are settled for the
ideal-arithmetic semantics of the code.  The linear-algebra primitives
(Vec2/Vec3/Vec4/Mat4) are external collaborators of this file (they live
in Vec*.h / Mat4.h, outside src/); they are modelled here with their
standard documented semantics.  The square root used by the external
normalize and norm operations is abstracted as an arbitrary function
parameter so that no theorem depends on its value.

Buffers are modelled observationally: the external rasterizer backend is
the only component that writes the color and depth buffers, so a draw
call is represented as a function returning its status, the new renderer
state, and the list of rasterizer submissions (or mesh-walk events) it
performed.  An empty submission list is the formal counterpart of the
color and depth buffers being left untouched.
-/

namespace Tgx

/-- Two dimensional float vector (external collaborator fVec2, modelled
with exact rationals). -/
structure fVec2 where
  x : ℚ
  y : ℚ
deriving DecidableEq

/-- Three dimensional float vector (external collaborator fVec3). -/
structure fVec3 where
  x : ℚ
  y : ℚ
  z : ℚ
deriving DecidableEq

/-- Four dimensional float vector (external collaborator fVec4). -/
structure fVec4 where
  x : ℚ
  y : ℚ
  z : ℚ
  w : ℚ
deriving DecidableEq

/-- The xyz part of a 4-vector (tgx fVec4 derives from fVec3, so a Vec4
passed where a Vec3 is expected is sliced to its first three
components). -/
def fVec4.xyz (v : fVec4) : fVec3 := ⟨v.x, v.y, v.z⟩

/-- Difference of two 4-vectors. -/
def vsub4 (a b : fVec4) : fVec4 := ⟨a.x - b.x, a.y - b.y, a.z - b.z, a.w - b.w⟩

/-- Cross product of the xyz parts of two 4-vectors (the code calls
crossProduct on fVec4 differences; the overload slices to fVec3). -/
def crossProduct (a b : fVec4) : fVec3 :=
  ⟨a.y * b.z - a.z * b.y, a.z * b.x - a.x * b.z, a.x * b.y - a.y * b.x⟩

/-- Dot product of two 3-vectors. -/
def dotProduct (a b : fVec3) : ℚ := a.x * b.x + a.y * b.y + a.z * b.z

/-- Squared euclidean norm of a 3-vector. -/
def fVec3.norm2 (v : fVec3) : ℚ := v.x * v.x + v.y * v.y + v.z * v.z

/-- Vector negation. -/
def fVec3.neg (v : fVec3) : fVec3 := ⟨-v.x, -v.y, -v.z⟩

/-- Componentwise addition. -/
def fVec3.add (a b : fVec3) : fVec3 := ⟨a.x + b.x, a.y + b.y, a.z + b.z⟩

/-- Scalar multiple of a 3-vector. -/
def fVec3.smul (t : ℚ) (v : fVec3) : fVec3 := ⟨t * v.x, t * v.y, t * v.z⟩

/-- Normalisation of a 3-vector (external collaborator: divides by the
euclidean norm).  The square-root function of the float library is
abstracted as the parameter sqrtq; no claim in this file depends on its
values. -/
def fVec3.normalize (sqrtq : ℚ → ℚ) (v : fVec3) : fVec3 :=
  fVec3.smul (1 / sqrtq v.norm2) v

/-- Euclidean norm of a 3-vector, through the abstract square root. -/
def fVec3.norm (sqrtq : ℚ → ℚ) (v : fVec3) : ℚ := sqrtq v.norm2

/-- 4x4 float matrix (external collaborator fMat4), row-major: mRC is the
entry in row R, column C of the linear map. -/
structure fMat4 where
  m00 : ℚ
  m01 : ℚ
  m02 : ℚ
  m03 : ℚ
  m10 : ℚ
  m11 : ℚ
  m12 : ℚ
  m13 : ℚ
  m20 : ℚ
  m21 : ℚ
  m22 : ℚ
  m23 : ℚ
  m30 : ℚ
  m31 : ℚ
  m32 : ℚ
  m33 : ℚ
deriving DecidableEq

/-- Identity matrix. -/
def fMat4.id : fMat4 := ⟨1,0,0,0, 0,1,0,0, 0,0,1,0, 0,0,0,1⟩

/-- Matrix times 4-vector. -/
def fMat4.mulVec (M : fMat4) (v : fVec4) : fVec4 :=
  ⟨M.m00 * v.x + M.m01 * v.y + M.m02 * v.z + M.m03 * v.w,
   M.m10 * v.x + M.m11 * v.y + M.m12 * v.z + M.m13 * v.w,
   M.m20 * v.x + M.m21 * v.y + M.m22 * v.z + M.m23 * v.w,
   M.m30 * v.x + M.m31 * v.y + M.m32 * v.z + M.m33 * v.w⟩

/-- Apply the matrix to a point: mult1 treats the 3-vector as having
homogeneous coordinate 1 and returns the full 4-vector. -/
def fMat4.mult1 (M : fMat4) (v : fVec3) : fVec4 := M.mulVec ⟨v.x, v.y, v.z, 1⟩

/-- Apply the matrix to a direction: mult0 treats the 3-vector as having
homogeneous coordinate 0 and returns the xyz part (translation is
ignored). -/
def fMat4.mult0 (M : fMat4) (v : fVec3) : fVec3 :=
  ⟨M.m00 * v.x + M.m01 * v.y + M.m02 * v.z,
   M.m10 * v.x + M.m11 * v.y + M.m12 * v.z,
   M.m20 * v.x + M.m21 * v.y + M.m22 * v.z⟩

/-- Matrix product. -/
def fMat4.mul (A B : fMat4) : fMat4 :=
  ⟨A.m00 * B.m00 + A.m01 * B.m10 + A.m02 * B.m20 + A.m03 * B.m30,
   A.m00 * B.m01 + A.m01 * B.m11 + A.m02 * B.m21 + A.m03 * B.m31,
   A.m00 * B.m02 + A.m01 * B.m12 + A.m02 * B.m22 + A.m03 * B.m32,
   A.m00 * B.m03 + A.m01 * B.m13 + A.m02 * B.m23 + A.m03 * B.m33,
   A.m10 * B.m00 + A.m11 * B.m10 + A.m12 * B.m20 + A.m13 * B.m30,
   A.m10 * B.m01 + A.m11 * B.m11 + A.m12 * B.m21 + A.m13 * B.m31,
   A.m10 * B.m02 + A.m11 * B.m12 + A.m12 * B.m22 + A.m13 * B.m32,
   A.m10 * B.m03 + A.m11 * B.m13 + A.m12 * B.m23 + A.m13 * B.m33,
   A.m20 * B.m00 + A.m21 * B.m10 + A.m22 * B.m20 + A.m23 * B.m30,
   A.m20 * B.m01 + A.m21 * B.m11 + A.m22 * B.m21 + A.m23 * B.m31,
   A.m20 * B.m02 + A.m21 * B.m12 + A.m22 * B.m22 + A.m23 * B.m32,
   A.m20 * B.m03 + A.m21 * B.m13 + A.m22 * B.m23 + A.m23 * B.m33,
   A.m30 * B.m00 + A.m31 * B.m10 + A.m32 * B.m20 + A.m33 * B.m30,
   A.m30 * B.m01 + A.m31 * B.m11 + A.m32 * B.m21 + A.m33 * B.m31,
   A.m30 * B.m02 + A.m31 * B.m12 + A.m32 * B.m22 + A.m33 * B.m32,
   A.m30 * B.m03 + A.m31 * B.m13 + A.m32 * B.m23 + A.m33 * B.m33⟩

/-- Modelled from the spec: Mat4::invertYaxis (external Mat4 collaborator
not under src/) negates the second (Y) row of the matrix, so that the
projection Y axis is inverted internally on both store and retrieve
(spec section 4.1). -/
def fMat4.invertYaxis (M : fMat4) : fMat4 :=
  { M with m10 := -M.m10, m11 := -M.m11, m12 := -M.m12, m13 := -M.m13 }

/-- Perspective divide: divides x, y and z by the w component (external
collaborator fVec4::zdivide; w itself is left unchanged). -/
def fVec4.zdivide (v : fVec4) : fVec4 := ⟨v.x / v.w, v.y / v.w, v.z / v.w, v.w⟩

/-- RGB color with float channels (external collaborator RGBf). -/
structure RGBf where
  r : ℚ
  g : ℚ
  b : ℚ
deriving DecidableEq

/-- Color scaled by a scalar. -/
def RGBf.smul (c : RGBf) (t : ℚ) : RGBf := ⟨c.r * t, c.g * t, c.b * t⟩

/-- Componentwise color sum. -/
def RGBf.add (a b : RGBf) : RGBf := ⟨a.r + b.r, a.g + b.g, a.b + b.b⟩

/-- Componentwise color product. -/
def RGBf.mul (a b : RGBf) : RGBf := ⟨a.r * b.r, a.g * b.g, a.b * b.b⟩

/-- Clamp every channel into the unit interval (RGBf::clamp). -/
def RGBf.clamp (c : RGBf) : RGBf :=
  ⟨max 0 (min 1 c.r), max 0 (min 1 c.g), max 0 (min 1 c.b)⟩

/-- Shader flag combination: SHADER_FLAT is the base mode, SHADER_GOURAUD
and SHADER_TEXTURE are the two independent option bits the renderer
tests with bitwise and. -/
structure SFlags where
  gouraud : Bool
  texture : Bool
deriving DecidableEq

/-- Template parameters of Renderer3D: viewport size LX and LY, the
ZBUFFER depth-testing flag and the ORTHO projection-mode flag. -/
structure Config where
  LX : Int
  LY : Int
  zbuffer : Bool
  ortho : Bool
deriving DecidableEq

/-- The target image: only its dimensions and validity are observable in
the renderer core (Image<color_t> is an external collaborator). -/
structure ImageT where
  width : Int
  height : Int
  valid : Bool
deriving DecidableEq

/-- Maximum viewport dimension (MAXVIEWPORTDIMENSION). -/
def MAXVIEWPORTDIMENSION : Int := 2048

/-- Integer clamp (tgx::clamp). -/
def clampI (v lo hi : Int) : Int := max lo (min hi v)

/-- Rational clamp (tgx::clamp on floats). -/
def clampQ (v lo hi : ℚ) : ℚ := max lo (min hi v)

/-- Truncation of a rational toward zero, the semantics of the C cast
from float to int. -/
def truncQ (q : ℚ) : Int := if 0 ≤ q then ⌊q⌋ else -⌊-q⌋

/-- Number of entries of the precomputed specular power table
(_POWTABSIZE). -/
def POWTABSIZE : Int := 16

/-- Renderer state: all member variables of Renderer3D.  The zbuffer
pointer is modelled by whether it is null plus its declared length; the
texture pointer by an abstract handle. -/
structure RState where
  ox : Int
  oy : Int
  im : Option ImageT
  projM : fMat4
  zbuffer_len : Int
  uni_zbuf : Bool
  uni_facecolor : RGBf
  uni_tex : Option Nat
  culling_dir : ℚ
  viewM : fMat4
  light : fVec3
  ambiantColor : RGBf
  diffuseColor : RGBf
  specularColor : RGBf
  modelM : fMat4
  color : RGBf
  ambiantStrength : ℚ
  diffuseStrength : ℚ
  specularStrength : ℚ
  specularExponent : Int
  r_modelViewM : fMat4
  r_inorm : ℚ
  r_light : fVec3
  r_light_inorm : fVec3
  r_H : fVec3
  r_H_inorm : fVec3
  r_ambiantColor : RGBf
  r_diffuseColor : RGBf
  r_specularColor : RGBf
  r_objectColor : RGBf
  currentpow : Int
  powfact : ℚ
  fastpowtab : Fin 16 → ℚ

/-- Table lookup at an integer index.  Inside the renderer the index is
always in range; an out-of-range access would be undefined behaviour in
the C code and is modelled as 0. -/
def tabAt (t : Fin 16 → ℚ) (i : Int) : ℚ :=
  if h : 0 ≤ i ∧ i < 16 then t ⟨i.toNat, by omega⟩ else 0

/-- Entry k of the specular power table built for a positive exponent:
powf evaluated exactly (the exponent is an integer, so powf computes the
integer power). -/
def specTabEntry (e : Int) (k : Nat) : ℚ :=
  let se : ℚ := (e : ℚ)
  let bbsp : ℚ := if se < 8 then se else 8
  (1 - (bbsp * (k : ℚ)) / (se * 16)) ^ e.toNat

/-- Pre-compute the power table for the specular light component
(_precomputeSpecularTable): returns immediately when the table was
already built for this exponent. -/
def _precomputeSpecularTable (s : RState) (exponent : Int) : RState :=
  if s.currentpow = exponent then s
  else
    let se : ℚ := (exponent : ℚ)
    let bbsp : ℚ := if se < 8 then se else 8
    if exponent > 0 then
      { s with currentpow := exponent,
               powfact := se * 16 / bbsp,
               fastpowtab := fun k => specTabEntry exponent (k : Nat) }
    else
      { s with currentpow := exponent,
               powfact := 0,
               fastpowtab := fun _ => 0 }

/-- Compute pow(x, exponent) by linear interpolation from the
pre-computed table (_powSpecular). -/
def _powSpecular (s : RState) (x : ℚ) : ℚ :=
  let indf := (1 - x) * s.powfact
  let indi := truncQ indf
  if indi ≥ POWTABSIZE - 1 then 0
  else
    tabAt s.fastpowtab indi
      + (indf - (indi : ℚ)) * (tabAt s.fastpowtab (indi + 1) - tabAt s.fastpowtab indi)

/-- Compute a color according to the Phong lighting model (_phong). -/
def _phong (texture : Bool) (s : RState) (v_diffuse v_specular : ℚ) : RGBf :=
  let col := s.r_ambiantColor
  let col := col.add (s.r_diffuseColor.smul (max v_diffuse 0))
  let col := col.add (s.r_specularColor.smul (_powSpecular s (max v_specular 0)))
  let col := if texture then col else col.mul s.r_objectColor
  col.clamp

/-! State mutators (the public setter surface of Renderer3D).  Every
setter eagerly recomputes the derived cached values exactly as the
source does. -/

/-- Bind the target image (setImage). -/
def setImage (s : RState) (im : Option ImageT) : RState := { s with im := im }

/-- Set the image offset inside the viewport (setOffset): both
components are clamped into the range 0 .. MAXVIEWPORTDIMENSION. -/
def setOffset (s : RState) (ox oy : Int) : RState :=
  { s with ox := clampI ox 0 MAXVIEWPORTDIMENSION,
           oy := clampI oy 0 MAXVIEWPORTDIMENSION }

/-- Set the projection matrix (setProjectionMatrix): the Y axis of the
stored matrix is inverted. -/
def setProjectionMatrix (s : RState) (M : fMat4) : RState :=
  { s with projM := M.invertYaxis }

/-- Retrieve a copy of the projection matrix (getProjectionMatrix): the
Y axis inversion is undone on the way out. -/
def getProjectionMatrix (s : RState) : fMat4 := s.projM.invertYaxis

/-- Set the face-culling strategy (setCulling). -/
def setCulling (s : RState) (w : Int) : RState :=
  { s with culling_dir := if w > 0 then (1 : ℚ) else if w < 0 then -1 else 0 }

/-- Bind the depth buffer (setZbuffer): records whether the pointer is
null, and the declared length. -/
def setZbuffer (s : RState) (present : Bool) (len : Int) : RState :=
  { s with uni_zbuf := present, zbuffer_len := len }

/-- Set the view matrix (setViewMatrix) and recompute every cached
derived value: combined model-view matrix, inverse norm, light and
halfway vectors. -/
def setViewMatrix (sqrtq : ℚ → ℚ) (s : RState) (M : fMat4) : RState :=
  let r_modelViewM := M.mul s.modelM
  let r_inorm := 1 / fVec3.norm sqrtq (r_modelViewM.mult0 ⟨0, 0, 1⟩)
  let r_light := fVec3.normalize sqrtq (fVec3.neg (M.mult0 s.light))
  let r_H := fVec3.normalize sqrtq (fVec3.add ⟨0, 0, 1⟩ r_light)
  { s with viewM := M,
           r_modelViewM := r_modelViewM,
           r_inorm := r_inorm,
           r_light := r_light,
           r_light_inorm := fVec3.smul r_inorm r_light,
           r_H := r_H,
           r_H_inorm := fVec3.smul r_inorm r_H }

/-- Set the light direction (setLightDirection) and recompute the cached
light and halfway vectors. -/
def setLightDirection (sqrtq : ℚ → ℚ) (s : RState) (d : fVec3) : RState :=
  let r_light := fVec3.normalize sqrtq (fVec3.neg (s.viewM.mult0 d))
  let r_H := fVec3.normalize sqrtq (fVec3.add ⟨0, 0, 1⟩ r_light)
  { s with light := d,
           r_light := r_light,
           r_light_inorm := fVec3.smul s.r_inorm r_light,
           r_H := r_H,
           r_H_inorm := fVec3.smul s.r_inorm r_H }

/-- Set the ambient light color (setLightAmbiant). -/
def setLightAmbiant (s : RState) (c : RGBf) : RState :=
  { s with ambiantColor := c, r_ambiantColor := c.smul s.ambiantStrength }

/-- Set the diffuse light color (setLightDiffuse). -/
def setLightDiffuse (s : RState) (c : RGBf) : RState :=
  { s with diffuseColor := c, r_diffuseColor := c.smul s.diffuseStrength }

/-- Set the specular light color (setLightSpecular). -/
def setLightSpecular (s : RState) (c : RGBf) : RState :=
  { s with specularColor := c, r_specularColor := c.smul s.specularStrength }

/-- Set all light parameters at once (setLight). -/
def setLight (sqrtq : ℚ → ℚ) (s : RState) (d : fVec3) (a b c : RGBf) : RState :=
  setLightSpecular (setLightDiffuse (setLightAmbiant (setLightDirection sqrtq s d) a) b) c

/-- Set the model matrix (setModelMatrix) and recompute the combined
model-view matrix, inverse norm and the inorm-scaled vectors. -/
def setModelMatrix (sqrtq : ℚ → ℚ) (s : RState) (M : fMat4) : RState :=
  let r_modelViewM := s.viewM.mul M
  let r_inorm := 1 / fVec3.norm sqrtq (r_modelViewM.mult0 ⟨0, 0, 1⟩)
  { s with modelM := M,
           r_modelViewM := r_modelViewM,
           r_inorm := r_inorm,
           r_light_inorm := fVec3.smul r_inorm s.r_light,
           r_H_inorm := fVec3.smul r_inorm s.r_H }

/-- Set the object material color (setMaterialColor). -/
def setMaterialColor (s : RState) (c : RGBf) : RState :=
  { s with color := c, r_objectColor := c }

/-- Set the ambient reflection strength (setMaterialAmbiantStrength):
clamped to 0 .. 10. -/
def setMaterialAmbiantStrength (s : RState) (q : ℚ) : RState :=
  let st := clampQ q 0 10
  { s with ambiantStrength := st, r_ambiantColor := s.ambiantColor.smul st }

/-- Set the diffuse reflection strength (setMaterialDiffuseStrength). -/
def setMaterialDiffuseStrength (s : RState) (q : ℚ) : RState :=
  let st := clampQ q 0 10
  { s with diffuseStrength := st, r_diffuseColor := s.diffuseColor.smul st }

/-- Set the specular reflection strength (setMaterialSpecularStrength). -/
def setMaterialSpecularStrength (s : RState) (q : ℚ) : RState :=
  let st := clampQ q 0 10
  { s with specularStrength := st, r_specularColor := s.specularColor.smul st }

/-- Set the specular exponent (setMaterialSpecularExponent): clamped to
0 .. 100. -/
def setMaterialSpecularExponent (s : RState) (e : Int) : RState :=
  { s with specularExponent := clampI e 0 100 }

/-- Set all material properties at once (setMaterial). -/
def setMaterial (s : RState) (c : RGBf) (a b sp : ℚ) (e : Int) : RState :=
  setMaterialSpecularExponent
    (setMaterialSpecularStrength
      (setMaterialDiffuseStrength
        (setMaterialAmbiantStrength (setMaterialColor s c) a) b) sp) e

/-! Draw-call precondition predicates and the single-primitive
pipeline. -/

/-- Whether the bound image is missing or invalid: the condition of the
status -1 early return in every draw entry point. -/
def imageBad (s : RState) : Bool :=
  match s.im with
  | none => true
  | some im => !im.valid

/-- Whether depth testing is requested but the depth buffer is null or
shorter than the viewport area: the condition of the status -2 early
return in every draw entry point. -/
def zbufferBad (cfg : Config) (s : RState) : Bool :=
  cfg.zbuffer && (!s.uni_zbuf || decide (s.zbuffer_len < cfg.LX * cfg.LY))

/-- The symmetric screen-space clip bound: 2048 divided by the larger
viewport dimension, computed with integer division as in the source. -/
def clipboundXY (cfg : Config) : ℚ := ((2048 / max cfg.LX cfg.LY : Int) : ℚ)

/-- Projection of a view-space vertex into the rasterizer coordinates:
multiply by the projection matrix, then either the orthographic
pseudo-depth substitute w := 2 - z or the perspective divide. -/
def projectVert (ortho : Bool) (projM : fMat4) (P : fVec4) : fVec4 :=
  let S := projM.mulVec P
  if ortho then { S with w := 2 - S.z } else S.zdivide

/-- The per-vertex clip-test contribution of the draw pipelines: the
vertex is behind the eye (view-space z at least 0), or its projected
coordinates leave the symmetric screen bound, or its depth leaves
the -1 .. 1 range.  All comparisons are strict, as in the source. -/
def vertNeedsClip (ortho : Bool) (projM : fMat4) (cb : ℚ) (P : fVec4) : Bool :=
  let S := projectVert ortho projM P
  decide (P.z ≥ 0) || decide (S.x < -cb) || decide (S.x > cb) ||
    decide (S.y < -cb) || decide (S.y > cb) || decide (S.z < -1) || decide (S.z > 1)

/-- The signed culling test value cu of the face-culling step: the dot
product of the face normal with a fixed view axis (orthographic) or with
the view-space position of the first vertex (perspective). -/
def cullVal (ortho : Bool) (mv : fMat4) (P0 P1 P2 : fVec3) : ℚ :=
  let Q0 := mv.mult1 P0
  let Q1 := mv.mult1 P1
  let Q2 := mv.mult1 P2
  let faceN := crossProduct (vsub4 Q1 Q0) (vsub4 Q2 Q0)
  if ortho then dotProduct faceN ⟨0, 0, -1⟩ else dotProduct faceN Q0.xyz

/-- Whether the face-culling step discards the triangle: cu multiplied
by the culling direction is strictly positive. -/
def cullDiscard (ortho : Bool) (mv : fMat4) (cdir : ℚ) (P0 P1 P2 : fVec3) : Prop :=
  cullVal ortho mv P0 P1 P2 * cdir > 0

instance (o : Bool) (mv : fMat4) (d : ℚ) (P0 P1 P2 : fVec3) :
    Decidable (cullDiscard o mv d P0 P1 P2) :=
  inferInstanceAs (Decidable (_ > _))

/-- Vertex record handed to the rasterizer: projected position, color,
texture coordinates.  The view-space position P is carried along for
specification purposes (it is the slot value the record was produced
from). -/
structure SubVert where
  pos : fVec4
  color : RGBf
  T : fVec2
  P : fVec4
deriving DecidableEq

/-- One rasterizeTriangle call: the three vertex records in the order
they are passed, together with the shared per-draw parameters captured
at call time. -/
structure Submission where
  rt : SFlags
  a : SubVert
  b : SubVert
  c : SubVert
  facecolor : RGBf
  tex : Option Nat
  ox : Int
  oy : Int
deriving DecidableEq

/-- Draw a single triangle (_drawTriangle): transform, cull, clip-test,
shade, submit.  Null normal and texture-coordinate pointers are passed
as none; they are dereferenced only under the corresponding shader flag
(as in the call contexts of the source), so the getD defaults are never
observable.  Uninitialized record fields are modelled as zeros. -/
def _drawTriangle (cfg : Config) (sqrtq : ℚ → ℚ) (s : RState) (rt : SFlags)
    (P0 P1 P2 : fVec3) (N0 N1 N2 : Option fVec3) (T0 T1 T2 : Option fVec2) :
    RState × List Submission :=
  let Q0 := s.r_modelViewM.mult1 P0
  let Q1 := s.r_modelViewM.mult1 P1
  let Q2 := s.r_modelViewM.mult1 P2
  if cullDiscard cfg.ortho s.r_modelViewM s.culling_dir P0 P1 P2 then (s, [])
  else
    let cu := cullVal cfg.ortho s.r_modelViewM P0 P1 P2
    let faceN := crossProduct (vsub4 Q1 Q0) (vsub4 Q2 Q0)
    let cb := clipboundXY cfg
    let pc0 := projectVert cfg.ortho s.projM Q0
    let pc1 := projectVert cfg.ortho s.projM Q1
    let pc2 := projectVert cfg.ortho s.projM Q2
    if vertNeedsClip cfg.ortho s.projM cb Q0 || vertNeedsClip cfg.ortho s.projM cb Q1 ||
        vertNeedsClip cfg.ortho s.projM cb Q2 then (s, [])
    else
      let t0 : fVec2 := if rt.texture then (T0.getD ⟨0, 0⟩) else ⟨0, 0⟩
      let t1 : fVec2 := if rt.texture then (T1.getD ⟨0, 0⟩) else ⟨0, 0⟩
      let t2 : fVec2 := if rt.texture then (T2.getD ⟨0, 0⟩) else ⟨0, 0⟩
      if rt.gouraud then
        let icu : ℚ := if s.culling_dir ≠ 0 then 1 else if cu > 0 then -1 else 1
        let NN0 := s.r_modelViewM.mult0 (N0.getD ⟨0, 0, 0⟩)
        let NN1 := s.r_modelViewM.mult0 (N1.getD ⟨0, 0, 0⟩)
        let NN2 := s.r_modelViewM.mult0 (N2.getD ⟨0, 0, 0⟩)
        let c0 := _phong rt.texture s (icu * dotProduct NN0 s.r_light_inorm)
                    (icu * dotProduct NN0 s.r_H_inorm)
        let c1 := _phong rt.texture s (icu * dotProduct NN1 s.r_light_inorm)
                    (icu * dotProduct NN1 s.r_H_inorm)
        let c2 := _phong rt.texture s (icu * dotProduct NN2 s.r_light_inorm)
                    (icu * dotProduct NN2 s.r_H_inorm)
        (s, [⟨rt, ⟨pc0, c0, t0, Q0⟩, ⟨pc1, c1, t1, Q1⟩, ⟨pc2, c2, t2, Q2⟩,
              s.uni_facecolor, s.uni_tex, s.ox, s.oy⟩])
      else
        let icu : ℚ := if cu > 0 then -1 else 1
        let fn := fVec3.normalize sqrtq faceN
        let fc := _phong rt.texture s (icu * dotProduct fn s.r_light)
                    (icu * dotProduct fn s.r_H)
        let s1 := { s with uni_facecolor := fc }
        (s1, [⟨rt, ⟨pc0, ⟨0, 0, 0⟩, t0, Q0⟩, ⟨pc1, ⟨0, 0, 0⟩, t1, Q1⟩,
               ⟨pc2, ⟨0, 0, 0⟩, t2, Q2⟩, fc, s1.uni_tex, s1.ox, s1.oy⟩])

/-- Draw a single quad (_drawQuad): the four points are assumed
coplanar, culling uses the first three vertices, and the quad is split
along the diagonal through its first and third vertices into two
rasterizer submissions. -/
def _drawQuad (cfg : Config) (sqrtq : ℚ → ℚ) (s : RState) (rt : SFlags)
    (P0 P1 P2 P3 : fVec3) (N0 N1 N2 N3 : Option fVec3) (T0 T1 T2 T3 : Option fVec2) :
    RState × List Submission :=
  let Q0 := s.r_modelViewM.mult1 P0
  let Q1 := s.r_modelViewM.mult1 P1
  let Q2 := s.r_modelViewM.mult1 P2
  if cullDiscard cfg.ortho s.r_modelViewM s.culling_dir P0 P1 P2 then (s, [])
  else
    let cu := cullVal cfg.ortho s.r_modelViewM P0 P1 P2
    let faceN := crossProduct (vsub4 Q1 Q0) (vsub4 Q2 Q0)
    let Q3 := s.r_modelViewM.mult1 P3
    let cb := clipboundXY cfg
    let pc0 := projectVert cfg.ortho s.projM Q0
    let pc1 := projectVert cfg.ortho s.projM Q1
    let pc2 := projectVert cfg.ortho s.projM Q2
    let pc3 := projectVert cfg.ortho s.projM Q3
    if vertNeedsClip cfg.ortho s.projM cb Q0 || vertNeedsClip cfg.ortho s.projM cb Q1 ||
        vertNeedsClip cfg.ortho s.projM cb Q2 || vertNeedsClip cfg.ortho s.projM cb Q3 then
      (s, [])
    else
      let t0 : fVec2 := if rt.texture then (T0.getD ⟨0, 0⟩) else ⟨0, 0⟩
      let t1 : fVec2 := if rt.texture then (T1.getD ⟨0, 0⟩) else ⟨0, 0⟩
      let t2 : fVec2 := if rt.texture then (T2.getD ⟨0, 0⟩) else ⟨0, 0⟩
      let t3 : fVec2 := if rt.texture then (T3.getD ⟨0, 0⟩) else ⟨0, 0⟩
      if rt.gouraud then
        let icu : ℚ := if s.culling_dir ≠ 0 then 1 else if cu > 0 then -1 else 1
        let NN0 := s.r_modelViewM.mult0 (N0.getD ⟨0, 0, 0⟩)
        let NN1 := s.r_modelViewM.mult0 (N1.getD ⟨0, 0, 0⟩)
        let NN2 := s.r_modelViewM.mult0 (N2.getD ⟨0, 0, 0⟩)
        let NN3 := s.r_modelViewM.mult0 (N3.getD ⟨0, 0, 0⟩)
        let c0 := _phong rt.texture s (icu * dotProduct NN0 s.r_light_inorm)
                    (icu * dotProduct NN0 s.r_H_inorm)
        let c1 := _phong rt.texture s (icu * dotProduct NN1 s.r_light_inorm)
                    (icu * dotProduct NN1 s.r_H_inorm)
        let c2 := _phong rt.texture s (icu * dotProduct NN2 s.r_light_inorm)
                    (icu * dotProduct NN2 s.r_H_inorm)
        let c3 := _phong rt.texture s (icu * dotProduct NN3 s.r_light_inorm)
                    (icu * dotProduct NN3 s.r_H_inorm)
        let v0 : SubVert := ⟨pc0, c0, t0, Q0⟩
        let v1 : SubVert := ⟨pc1, c1, t1, Q1⟩
        let v2 : SubVert := ⟨pc2, c2, t2, Q2⟩
        let v3 : SubVert := ⟨pc3, c3, t3, Q3⟩
        (s, [⟨rt, v0, v1, v2, s.uni_facecolor, s.uni_tex, s.ox, s.oy⟩,
             ⟨rt, v0, v2, v3, s.uni_facecolor, s.uni_tex, s.ox, s.oy⟩])
      else
        let icu : ℚ := if cu > 0 then -1 else 1
        let fn := fVec3.normalize sqrtq faceN
        let fc := _phong rt.texture s (icu * dotProduct fn s.r_light)
                    (icu * dotProduct fn s.r_H)
        let s1 := { s with uni_facecolor := fc }
        let v0 : SubVert := ⟨pc0, ⟨0, 0, 0⟩, t0, Q0⟩
        let v1 : SubVert := ⟨pc1, ⟨0, 0, 0⟩, t1, Q1⟩
        let v2 : SubVert := ⟨pc2, ⟨0, 0, 0⟩, t2, Q2⟩
        let v3 : SubVert := ⟨pc3, ⟨0, 0, 0⟩, t3, Q3⟩
        (s1, [⟨rt, v0, v1, v2, fc, s1.uni_tex, s1.ox, s1.oy⟩,
              ⟨rt, v0, v2, v3, fc, s1.uni_tex, s1.ox, s1.oy⟩])

/-! Public single-primitive draw entry points.  Each returns the status
code, the new renderer state, and the list of rasterizer submissions the
call performed (empty for a rejected call: the color and depth buffers
are written only by the rasterizer backend). -/

/-- Draw a single triangle, positions only (the shader argument is
ignored and SHADER_FLAT is used). -/
def drawTriangle1 (cfg : Config) (sqrtq : ℚ → ℚ) (s : RState) (P1 P2 P3 : fVec3) :
    Int × RState × List Submission :=
  if imageBad s then (-1, s, [])
  else if zbufferBad cfg s then (-2, s, [])
  else
    let s1 := _precomputeSpecularTable s s.specularExponent
    let r := _drawTriangle cfg sqrtq s1 ⟨false, false⟩ P1 P2 P3 none none none none none none
    (0, r.1, r.2)

/-- Draw a single triangle with vertex normals (texturing is disabled
from the shader). -/
def drawTriangle2 (cfg : Config) (sqrtq : ℚ → ℚ) (s : RState) (shader : SFlags)
    (P1 P2 P3 N1 N2 N3 : fVec3) : Int × RState × List Submission :=
  if imageBad s then (-1, s, [])
  else if zbufferBad cfg s then (-2, s, [])
  else
    let s1 := _precomputeSpecularTable s s.specularExponent
    let r := _drawTriangle cfg sqrtq s1 ⟨shader.gouraud, false⟩ P1 P2 P3
               (some N1) (some N2) (some N3) none none none
    (0, r.1, r.2)

/-- Draw a single triangle with texture coordinates (gouraud is disabled
from the shader; a requested but null texture gives status -3). -/
def drawTriangle3 (cfg : Config) (sqrtq : ℚ → ℚ) (s : RState) (shader : SFlags)
    (P1 P2 P3 : fVec3) (T1 T2 T3 : fVec2) (texture : Option Nat) :
    Int × RState × List Submission :=
  if imageBad s then (-1, s, [])
  else if zbufferBad cfg s then (-2, s, [])
  else
    let s1 := _precomputeSpecularTable s s.specularExponent
    let rt : SFlags := ⟨false, shader.texture⟩
    if rt.texture ∧ texture = none then (-3, s1, [])
    else
      let s2 := if rt.texture then { s1 with uni_tex := texture } else s1
      let r := _drawTriangle cfg sqrtq s2 rt P1 P2 P3 none none none
                 (some T1) (some T2) (some T3)
      (0, r.1, r.2)

/-- Draw a single triangle with normals, texture coordinates and a
texture image. -/
def drawTriangle4 (cfg : Config) (sqrtq : ℚ → ℚ) (s : RState) (shader : SFlags)
    (P1 P2 P3 N1 N2 N3 : fVec3) (T1 T2 T3 : fVec2) (texture : Option Nat) :
    Int × RState × List Submission :=
  if imageBad s then (-1, s, [])
  else if zbufferBad cfg s then (-2, s, [])
  else
    let s1 := _precomputeSpecularTable s s.specularExponent
    if shader.texture ∧ texture = none then (-3, s1, [])
    else
      let s2 := if shader.texture then { s1 with uni_tex := texture } else s1
      let r := _drawTriangle cfg sqrtq s2 shader P1 P2 P3
                 (some N1) (some N2) (some N3) (some T1) (some T2) (some T3)
      (0, r.1, r.2)

/-- Draw a single quad, positions only (drawn with SHADER_FLAT). -/
def drawQuad1 (cfg : Config) (sqrtq : ℚ → ℚ) (s : RState) (P1 P2 P3 P4 : fVec3) :
    Int × RState × List Submission :=
  if imageBad s then (-1, s, [])
  else if zbufferBad cfg s then (-2, s, [])
  else
    let s1 := _precomputeSpecularTable s s.specularExponent
    let r := _drawQuad cfg sqrtq s1 ⟨false, false⟩ P1 P2 P3 P4
               none none none none none none none none
    (0, r.1, r.2)

/-- Draw a single quad with vertex normals (texturing disabled). -/
def drawQuad2 (cfg : Config) (sqrtq : ℚ → ℚ) (s : RState) (shader : SFlags)
    (P1 P2 P3 P4 N1 N2 N3 N4 : fVec3) : Int × RState × List Submission :=
  if imageBad s then (-1, s, [])
  else if zbufferBad cfg s then (-2, s, [])
  else
    let s1 := _precomputeSpecularTable s s.specularExponent
    let r := _drawQuad cfg sqrtq s1 ⟨shader.gouraud, false⟩ P1 P2 P3 P4
               (some N1) (some N2) (some N3) (some N4) none none none none
    (0, r.1, r.2)

/-- Draw a single quad with texture coordinates (gouraud disabled; a
requested but null texture gives status -3). -/
def drawQuad3 (cfg : Config) (sqrtq : ℚ → ℚ) (s : RState) (shader : SFlags)
    (P1 P2 P3 P4 : fVec3) (T1 T2 T3 T4 : fVec2) (texture : Option Nat) :
    Int × RState × List Submission :=
  if imageBad s then (-1, s, [])
  else if zbufferBad cfg s then (-2, s, [])
  else
    let s1 := _precomputeSpecularTable s s.specularExponent
    let rt : SFlags := ⟨false, shader.texture⟩
    if rt.texture ∧ texture = none then (-3, s1, [])
    else
      let s2 := if rt.texture then { s1 with uni_tex := texture } else s1
      let r := _drawQuad cfg sqrtq s2 rt P1 P2 P3 P4 none none none none
                 (some T1) (some T2) (some T3) (some T4)
      (0, r.1, r.2)

/-- Draw a single quad with normals, texture coordinates and a texture
image. -/
def drawQuad4 (cfg : Config) (sqrtq : ℚ → ℚ) (s : RState) (shader : SFlags)
    (P1 P2 P3 P4 N1 N2 N3 N4 : fVec3) (T1 T2 T3 T4 : fVec2) (texture : Option Nat) :
    Int × RState × List Submission :=
  if imageBad s then (-1, s, [])
  else if zbufferBad cfg s then (-2, s, [])
  else
    let s1 := _precomputeSpecularTable s s.specularExponent
    if shader.texture ∧ texture = none then (-3, s1, [])
    else
      let s2 := if shader.texture then { s1 with uni_tex := texture } else s1
      let r := _drawQuad cfg sqrtq s2 shader P1 P2 P3 P4
                 (some N1) (some N2) (some N3) (some N4)
                 (some T1) (some T2) (some T3) (some T4)
      (0, r.1, r.2)

/-- Sequential fold of a per-index draw step, accumulating the state and
concatenating the submissions, in index order. -/
def drawFold (f : RState → Nat → RState × List Submission) :
    RState → List Nat → RState × List Submission
  | s, [] => (s, [])
  | s, j :: rest =>
    let r := f s j
    let r2 := drawFold f r.1 rest
    (r2.1, r.2 ++ r2.2)

/-- Element of a vertex array at an index (pointer arithmetic
vertices + index in the source; an out-of-range access is undefined
behaviour in C and is modelled by the zero vector). -/
def vAt (l : List fVec3) (i : Nat) : fVec3 := l.getD i ⟨0, 0, 0⟩

/-- Element of a texture-coordinate array at an index. -/
def tAt (l : List fVec2) (i : Nat) : fVec2 := l.getD i ⟨0, 0⟩

/-- Element of an index array at an index. -/
def iAt (l : List Nat) (i : Nat) : Nat := l.getD i 0

/-- Draw an indexed list of triangles (drawTriangles).  The gouraud and
texture flags are cleared when the corresponding arrays or the texture
image are missing; the four source dispatch branches differ only in
which pointers they pass to _drawTriangle, which the conditional some
and none arguments reproduce. -/
def drawTriangles (cfg : Config) (sqrtq : ℚ → ℚ) (s : RState) (shader : SFlags)
    (nb_triangles : Int)
    (ind_vertices : Option (List Nat)) (vertices : Option (List fVec3))
    (ind_normals : Option (List Nat)) (normals : Option (List fVec3))
    (ind_texture : Option (List Nat)) (textures : Option (List fVec2))
    (texture_image : Option Nat) : Int × RState × List Submission :=
  if imageBad s then (-1, s, [])
  else if zbufferBad cfg s then (-2, s, [])
  else if ind_vertices = none ∨ vertices = none then (-3, s, [])
  else
    let g := shader.gouraud && !(ind_normals = none ∨ normals = none : Bool)
    let t := shader.texture && !(ind_texture = none ∨ textures = none ∨ texture_image = none : Bool)
    let sh : SFlags := ⟨g, t⟩
    let s1 := _precomputeSpecularTable s s.specularExponent
    let s2 := if sh.texture then { s1 with uni_tex := texture_image } else s1
    let iv := ind_vertices.getD []
    let vs := vertices.getD []
    let inl := ind_normals.getD []
    let nl := normals.getD []
    let itl := ind_texture.getD []
    let tl := textures.getD []
    let r := drawFold
      (fun st j =>
        let n := 3 * j
        _drawTriangle cfg sqrtq st sh
          (vAt vs (iAt iv n)) (vAt vs (iAt iv (n + 1))) (vAt vs (iAt iv (n + 2)))
          (if sh.gouraud then some (vAt nl (iAt inl n)) else none)
          (if sh.gouraud then some (vAt nl (iAt inl (n + 1))) else none)
          (if sh.gouraud then some (vAt nl (iAt inl (n + 2))) else none)
          (if sh.texture then some (tAt tl (iAt itl n)) else none)
          (if sh.texture then some (tAt tl (iAt itl (n + 1))) else none)
          (if sh.texture then some (tAt tl (iAt itl (n + 2))) else none))
      s2 (List.range nb_triangles.toNat)
    (0, r.1, r.2)

/-- Draw an indexed list of quads (drawQuads), analogous to
drawTriangles with four indices per primitive. -/
def drawQuads (cfg : Config) (sqrtq : ℚ → ℚ) (s : RState) (shader : SFlags)
    (nb_quads : Int)
    (ind_vertices : Option (List Nat)) (vertices : Option (List fVec3))
    (ind_normals : Option (List Nat)) (normals : Option (List fVec3))
    (ind_texture : Option (List Nat)) (textures : Option (List fVec2))
    (texture_image : Option Nat) : Int × RState × List Submission :=
  if imageBad s then (-1, s, [])
  else if zbufferBad cfg s then (-2, s, [])
  else if ind_vertices = none ∨ vertices = none then (-3, s, [])
  else
    let g := shader.gouraud && !(ind_normals = none ∨ normals = none : Bool)
    let t := shader.texture && !(ind_texture = none ∨ textures = none ∨ texture_image = none : Bool)
    let sh : SFlags := ⟨g, t⟩
    let s1 := _precomputeSpecularTable s s.specularExponent
    let s2 := if sh.texture then { s1 with uni_tex := texture_image } else s1
    let iv := ind_vertices.getD []
    let vs := vertices.getD []
    let inl := ind_normals.getD []
    let nl := normals.getD []
    let itl := ind_texture.getD []
    let tl := textures.getD []
    let r := drawFold
      (fun st j =>
        let n := 4 * j
        _drawQuad cfg sqrtq st sh
          (vAt vs (iAt iv n)) (vAt vs (iAt iv (n + 1)))
          (vAt vs (iAt iv (n + 2))) (vAt vs (iAt iv (n + 3)))
          (if sh.gouraud then some (vAt nl (iAt inl n)) else none)
          (if sh.gouraud then some (vAt nl (iAt inl (n + 1))) else none)
          (if sh.gouraud then some (vAt nl (iAt inl (n + 2))) else none)
          (if sh.gouraud then some (vAt nl (iAt inl (n + 3))) else none)
          (if sh.texture then some (tAt tl (iAt itl n)) else none)
          (if sh.texture then some (tAt tl (iAt itl (n + 1))) else none)
          (if sh.texture then some (tAt tl (iAt itl (n + 2))) else none)
          (if sh.texture then some (tAt tl (iAt itl (n + 3))) else none))
      s2 (List.range nb_quads.toNat)
    (0, r.1, r.2)

/-! Mesh data model and the mesh walker. -/

/-- Axis-aligned bounding box of a mesh. -/
structure Box3 where
  xmin : ℚ
  xmax : ℚ
  ymin : ℚ
  ymax : ℚ
  zmin : ℚ
  zmax : ℚ
deriving DecidableEq

/-- One mesh of a chain (Mesh3D): null array pointers are none; the
face-index stream is the raw uint16 sequence; the texture image pointer
is modelled by an abstract handle.  The next-mesh link is represented by
the position in the chain list handed to drawMesh. -/
structure MeshData where
  vertice : Option (List fVec3)
  normal : Option (List fVec3)
  texcoord : Option (List fVec2)
  face : List Nat
  bounding_box : Box3
  color : RGBf
  ambiant_strength : ℚ
  diffuse_strength : ℚ
  specular_strength : ℚ
  specular_exponent : Int
  texture : Option Nat
deriving DecidableEq

/-- Width of the bound image (only read after the image was checked
valid). -/
def imWidth (s : RState) : Int := (s.im.getD ⟨0, 0, false⟩).width

/-- Height of the bound image. -/
def imHeight (s : RState) : Int := (s.im.getD ⟨0, 0, false⟩).height

/-- Position of a point against the frustum planes, clearing the bits of
the planes the point does not violate (_clip, used by _discard). -/
def _clip (ortho : Bool) (fl : Nat) (P : fVec3) (M : fMat4) (bx Bx b_y B_y : ℚ) : Nat :=
  let S0 := M.mult1 P
  let S := if ortho then S0
           else
             let S1 := S0.zdivide
             if S1.w ≤ 0 then { S1 with z := -2 } else S1
  let fl := if S.x ≥ bx then fl &&& 62 else fl
  let fl := if S.x ≤ Bx then fl &&& 61 else fl
  let fl := if S.y ≥ b_y then fl &&& 59 else fl
  let fl := if S.y ≤ B_y then fl &&& 55 else fl
  let fl := if S.z ≥ -1 then fl &&& 47 else fl
  let fl := if S.z ≤ 1 then fl &&& 31 else fl
  fl

/-- Bounding-box rejection test (_discard): true when all 8 transformed
corners agree on violating one half-space of the image region.  The
source early-exits as soon as the flag word reaches 0; since bits are
only ever cleared, that is equivalent to testing the final flag word,
which is how it is written here.  An all-zero box means the bounding box
was not computed and is never discarded. -/
def _discard (cfg : Config) (s : RState) (bb : Box3) (M : fMat4) : Bool :=
  if bb.xmin = 0 ∧ bb.xmax = 0 ∧ bb.ymin = 0 ∧ bb.ymax = 0 ∧ bb.zmin = 0 ∧ bb.zmax = 0 then
    false
  else
    let ilx : ℚ := 2 / (cfg.LX : ℚ)
    let bx := ((s.ox : ℚ) - 1) * ilx - 1
    let Bx := ((s.ox : ℚ) + (imWidth s : ℚ) + 1) * ilx - 1
    let ily : ℚ := 2 / (cfg.LY : ℚ)
    let b_y := ((s.oy : ℚ) - 1) * ily - 1
    let B_y := ((s.oy : ℚ) + (imHeight s : ℚ) + 1) * ily - 1
    let fl := 63
    let fl := _clip cfg.ortho fl ⟨bb.xmin, bb.ymin, bb.zmin⟩ M bx Bx b_y B_y
    let fl := _clip cfg.ortho fl ⟨bb.xmin, bb.ymin, bb.zmax⟩ M bx Bx b_y B_y
    let fl := _clip cfg.ortho fl ⟨bb.xmin, bb.ymax, bb.zmin⟩ M bx Bx b_y B_y
    let fl := _clip cfg.ortho fl ⟨bb.xmin, bb.ymax, bb.zmax⟩ M bx Bx b_y B_y
    let fl := _clip cfg.ortho fl ⟨bb.xmax, bb.ymin, bb.zmin⟩ M bx Bx b_y B_y
    let fl := _clip cfg.ortho fl ⟨bb.xmax, bb.ymin, bb.zmax⟩ M bx Bx b_y B_y
    let fl := _clip cfg.ortho fl ⟨bb.xmax, bb.ymax, bb.zmin⟩ M bx Bx b_y B_y
    let fl := _clip cfg.ortho fl ⟨bb.xmax, bb.ymax, bb.zmax⟩ M bx Bx b_y B_y
    decide (fl ≠ 0)

/-- Conservative safe-region test for one point (_clip2, used by
_clipTestNeeded): true when the transformed point may leave the screen
bound or the depth range.  All comparisons are non-strict, one step more
conservative than the strict per-vertex clip test. -/
def _clip2 (ortho : Bool) (cb : ℚ) (P : fVec3) (M : fMat4) : Bool :=
  let S0 := M.mult1 P
  let S := if ortho then S0
           else
             let S1 := S0.zdivide
             if S1.w ≤ 0 then { S1 with z := -2 } else S1
  decide (S.x ≤ -cb) || decide (S.x ≥ cb) || decide (S.y ≤ -cb) || decide (S.y ≥ cb) ||
    decide (S.z ≤ -1) || decide (S.z ≥ 1)

/-- Whether the mesh may possibly need per-triangle clip testing
(_clipTestNeeded): the 8-corner bounding-box test against the
aspect-adjusted bound.  When it returns false the mesh walker skips the
per-triangle clip test. -/
def _clipTestNeeded (ortho : Bool) (cb : ℚ) (bb : Box3) (M : fMat4) : Bool :=
  _clip2 ortho cb ⟨bb.xmin, bb.ymin, bb.zmin⟩ M ||
  _clip2 ortho cb ⟨bb.xmin, bb.ymin, bb.zmax⟩ M ||
  _clip2 ortho cb ⟨bb.xmin, bb.ymax, bb.zmin⟩ M ||
  _clip2 ortho cb ⟨bb.xmin, bb.ymax, bb.zmax⟩ M ||
  _clip2 ortho cb ⟨bb.xmax, bb.ymin, bb.zmin⟩ M ||
  _clip2 ortho cb ⟨bb.xmax, bb.ymin, bb.zmax⟩ M ||
  _clip2 ortho cb ⟨bb.xmax, bb.ymax, bb.zmin⟩ M ||
  _clip2 ortho cb ⟨bb.xmax, bb.ymax, bb.zmax⟩ M

/-- Working vertex record of the mesh walker (ExtVec4): the rasterizer
vertex fields plus the view-space position, transformed normal, lazy
"missing" flag and the normal and texture indices. -/
structure ExtV where
  pos : fVec4
  color : RGBf
  T : fVec2
  P : fVec4
  N : fVec3
  missedP : Bool
  indn : Nat
  indt : Nat
deriving DecidableEq

/-- Initial (uninitialized in the C stack frame) working record,
modelled as zeros; every field is written before the walker reads it. -/
def ExtV.zero : ExtV := ⟨⟨0, 0, 0, 0⟩, ⟨0, 0, 0⟩, ⟨0, 0⟩, ⟨0, 0, 0, 0⟩, ⟨0, 0, 0⟩, false, 0, 0⟩

/-- The three persistent working slots QQA, QQB, QQC together with the
pointer assignment of PC0, PC1, PC2 to physical slots.  The rasterizer
is always handed the slots in physical order A, B, C while the pointers
rotate. -/
structure Slots where
  A : ExtV
  B : ExtV
  C : ExtV
  p0 : Fin 3
  p1 : Fin 3
  p2 : Fin 3
deriving DecidableEq

/-- Physical slot at an index. -/
def Slots.get (sl : Slots) (i : Fin 3) : ExtV :=
  match i with
  | ⟨0, _⟩ => sl.A
  | ⟨1, _⟩ => sl.B
  | ⟨2, _⟩ => sl.C

/-- Replace the physical slot at an index. -/
def Slots.set (sl : Slots) (i : Fin 3) (v : ExtV) : Slots :=
  match i with
  | ⟨0, _⟩ => { sl with A := v }
  | ⟨1, _⟩ => { sl with B := v }
  | ⟨2, _⟩ => { sl with C := v }

/-- The record PC0 points to. -/
def Slots.pc0 (sl : Slots) : ExtV := sl.get sl.p0

/-- The record PC1 points to. -/
def Slots.pc1 (sl : Slots) : ExtV := sl.get sl.p1

/-- The record PC2 points to. -/
def Slots.pc2 (sl : Slots) : ExtV := sl.get sl.p2

/-- Write through PC0. -/
def Slots.setPc0 (sl : Slots) (v : ExtV) : Slots := sl.set sl.p0 v

/-- Write through PC1. -/
def Slots.setPc1 (sl : Slots) (v : ExtV) : Slots := sl.set sl.p1 v

/-- Write through PC2. -/
def Slots.setPc2 (sl : Slots) (v : ExtV) : Slots := sl.set sl.p2 v

/-- Pointer swap of the chain step: swap(((nv2 & 32768) ? PC0 : PC1),
PC2) exchanges which physical slots the two pointers designate. -/
def Slots.swapWith2 (sl : Slots) (takeP0 : Bool) : Slots :=
  if takeP0 then { sl with p0 := sl.p2, p2 := sl.p0 }
  else { sl with p1 := sl.p2, p2 := sl.p1 }

/-- Initial slot bank of _drawMesh. -/
def initSlots : Slots := ⟨ExtV.zero, ExtV.zero, ExtV.zero, 0, 1, 2⟩

/-- Read one optional per-vertex index from the face stream: when the
shader uses it the value is read and kept; otherwise the entry is
skipped if the corresponding mesh array exists. -/
def readOpt (use has : Bool) (face : List Nat) : Nat × List Nat :=
  if use then (face.headD 0, face.tail)
  else if has then (0, face.tail)
  else (0, face)

/-- Rasterizer view of a working record. -/
def SubVert.ofExt (v : ExtV) : SubVert := ⟨v.pos, v.color, v.T, v.P⟩

/-- The rasterizeTriangle call of the mesh walker: the three physical
slots in fixed order A, B, C with the shared parameters.  Inside the
walk the only mutable shared parameter is the face color, threaded
explicitly as fc. -/
def submissionOf (rt : SFlags) (s : RState) (fc : RGBf) (sl : Slots) : Submission :=
  ⟨rt, SubVert.ofExt sl.A, SubVert.ofExt sl.B, SubVert.ofExt sl.C,
   fc, s.uni_tex, s.ox, s.oy⟩

/-- The per-triangle clip-test condition of the mesh walker: PC2 is
always tested, PC0 and PC1 only while their attributes are still
missing (a surviving earlier triangle already tested them). -/
def triNeedsClip (cfg : Config) (projM : fMat4) (sl : Slots) : Bool :=
  vertNeedsClip cfg.ortho projM (clipboundXY cfg) sl.pc2.P ||
    (sl.pc0.missedP && vertNeedsClip cfg.ortho projM (clipboundXY cfg) sl.pc0.P) ||
    (sl.pc1.missedP && vertNeedsClip cfg.ortho projM (clipboundXY cfg) sl.pc1.P)

/-- Body of the per-triangle step of the mesh walker: cull, project the
missing slots (PC2 always), clip-test when enabled, shade lazily, clear
the missing flags, submit.  The projections are computed identically in
the clip-tested and untested branches of the source, so they are hoisted
above the branch here; a culled or clipped triangle leaves the missing
flags untouched.  The walk mutates no renderer state other than the
shared face color, which is threaded as fc; s supplies the read-only
state. -/
def _meshTriangle (cfg : Config) (sqrtq : ℚ → ℚ) (rt : SFlags) (cliptest : Bool)
    (tab_norm : List fVec3) (tab_tex : List fVec2)
    (s : RState) (fc : RGBf) (sl : Slots) : RGBf × Slots × List Submission :=
  let q0 := sl.pc0
  let q1 := sl.pc1
  let q2 := sl.pc2
  let faceN := crossProduct (vsub4 q1.P q0.P) (vsub4 q2.P q0.P)
  let cu := if cfg.ortho then dotProduct faceN ⟨0, 0, -1⟩ else dotProduct faceN q0.P.xyz
  if cu * s.culling_dir > 0 then (fc, sl, [])
  else
    let p2w := { q2 with pos := projectVert cfg.ortho s.projM q2.P }
    let p0w := if q0.missedP then { q0 with pos := projectVert cfg.ortho s.projM q0.P } else q0
    let p1w := if q1.missedP then { q1 with pos := projectVert cfg.ortho s.projM q1.P } else q1
    if cliptest && triNeedsClip cfg s.projM sl then
      (fc, ((sl.setPc0 p0w).setPc1 p1w).setPc2 p2w, [])
    else
      let icuG : ℚ := if s.culling_dir ≠ 0 then 1 else if cu > 0 then -1 else 1
      let icuF : ℚ := if cu > 0 then -1 else 1
      let fn := fVec3.normalize sqrtq faceN
      let fc2 := if rt.gouraud then fc
                 else _phong rt.texture s (icuF * dotProduct fn s.r_light)
                        (icuF * dotProduct fn s.r_H)
      let gq := fun (q : ExtV) =>
        let N := s.r_modelViewM.mult0 (tab_norm.getD q.indn ⟨0, 0, 0⟩)
        { q with N := N,
                 color := _phong rt.texture s (icuG * dotProduct N s.r_light_inorm)
                            (icuG * dotProduct N s.r_H_inorm) }
      let f0 := if rt.gouraud && q0.missedP then gq p0w else p0w
      let f1 := if rt.gouraud && q1.missedP then gq p1w else p1w
      let f2 := if rt.gouraud then gq p2w else p2w
      let f0 := if rt.texture && q0.missedP then { f0 with T := tab_tex.getD f0.indt ⟨0, 0⟩ } else f0
      let f1 := if rt.texture && q1.missedP then { f1 with T := tab_tex.getD f1.indt ⟨0, 0⟩ } else f1
      let f2 := if rt.texture then { f2 with T := tab_tex.getD f2.indt ⟨0, 0⟩ } else f2
      let slF := ((sl.setPc0 { f0 with missedP := false }).setPc1
                    { f1 with missedP := false }).setPc2 { f2 with missedP := false }
      (fc2, slF, [submissionOf rt s fc2 slF])

/-- Load of the next chained triangle: read the packed vertex entry,
swap the reused pointer with PC2 as selected by the high bit, and load
the new vertex into PC2 with its missing flag set. -/
def _meshChainStep (rt : SFlags) (hasTex hasNorm : Bool) (mv : fMat4) (verts : List fVec3)
    (sl : Slots) (face : List Nat) : Slots × List Nat :=
  let nv2 := face.headD 0
  let face1 := face.tail
  let sl1 := sl.swapWith2 (decide ((nv2 &&& 32768) ≠ 0))
  let r1 := readOpt rt.texture hasTex face1
  let r2 := readOpt rt.gouraud hasNorm r1.2
  let q := sl1.pc2
  let q2 := { q with indt := if rt.texture then r1.1 else q.indt,
                     indn := if rt.gouraud then r2.1 else q.indn,
                     P := mv.mult1 (vAt verts (nv2 &&& 32767)),
                     missedP := true }
  (sl1.setPc2 q2, r2.2)

/-- Load of the three vertex entries that begin a chain: indices are
written through the current pointers, then the view-space positions are
computed and every missing flag is set. -/
def _meshHeader (rt : SFlags) (hasTex hasNorm : Bool) (mv : fMat4) (verts : List fVec3)
    (sl : Slots) (face : List Nat) : Slots × List Nat :=
  let v0 := face.headD 0
  let r01 := readOpt rt.texture hasTex face.tail
  let r02 := readOpt rt.gouraud hasNorm r01.2
  let v1 := r02.2.headD 0
  let r11 := readOpt rt.texture hasTex r02.2.tail
  let r12 := readOpt rt.gouraud hasNorm r11.2
  let v2 := r12.2.headD 0
  let r21 := readOpt rt.texture hasTex r12.2.tail
  let r22 := readOpt rt.gouraud hasNorm r21.2
  let q0 := sl.pc0
  let q1 := sl.pc1
  let q2 := sl.pc2
  let q0n := { q0 with indt := if rt.texture then r01.1 else q0.indt,
                       indn := if rt.gouraud then r02.1 else q0.indn,
                       P := mv.mult1 (vAt verts v0), missedP := true }
  let q1n := { q1 with indt := if rt.texture then r11.1 else q1.indt,
                       indn := if rt.gouraud then r12.1 else q1.indn,
                       P := mv.mult1 (vAt verts v1), missedP := true }
  let q2n := { q2 with indt := if rt.texture then r21.1 else q2.indt,
                       indn := if rt.gouraud then r22.1 else q2.indn,
                       P := mv.mult1 (vAt verts v2), missedP := true }
  (((sl.setPc0 q0n).setPc1 q1n).setPc2 q2n, r22.2)

/-- Inner loop over the nbt triangles of one chain. -/
def _meshChain (cfg : Config) (sqrtq : ℚ → ℚ) (rt : SFlags) (cliptest : Bool)
    (hasTex hasNorm : Bool) (verts : List fVec3) (tab_norm : List fVec3)
    (tab_tex : List fVec2) (s : RState) (fc : RGBf) (sl : Slots) (face : List Nat) :
    Nat → RGBf × Slots × List Nat × List Submission
  | 0 => (fc, sl, face, [])
  | 1 =>
    let r := _meshTriangle cfg sqrtq rt cliptest tab_norm tab_tex s fc sl
    (r.1, r.2.1, face, r.2.2)
  | n + 2 =>
    let r := _meshTriangle cfg sqrtq rt cliptest tab_norm tab_tex s fc sl
    let st := _meshChainStep rt hasTex hasNorm s.r_modelViewM verts r.2.1 face
    let rec2 := _meshChain cfg sqrtq rt cliptest hasTex hasNorm verts tab_norm tab_tex
                  s r.1 st.1 st.2 (n + 1)
    (rec2.1, rec2.2.1, rec2.2.2.1, r.2.2 ++ rec2.2.2.2)

/-- Outer loop over the chains of the face stream.  Every outer
iteration consumes at least the chain-length entry, so a fuel of one
more than the stream length never runs out before the stream does. -/
def _meshLoop (cfg : Config) (sqrtq : ℚ → ℚ) (rt : SFlags) (cliptest : Bool)
    (hasTex hasNorm : Bool) (verts : List fVec3) (tab_norm : List fVec3)
    (tab_tex : List fVec2) (s : RState) :
    Nat → RGBf → Slots → List Nat → RGBf × List Submission
  | 0, fc, _, _ => (fc, [])
  | fuel + 1, fc, sl, face =>
    let nbt := face.headD 0
    if nbt = 0 then (fc, [])
    else
      let hd := _meshHeader rt hasTex hasNorm s.r_modelViewM verts sl face.tail
      let ch := _meshChain cfg sqrtq rt cliptest hasTex hasNorm verts tab_norm tab_tex
                  s fc hd.1 hd.2 nbt
      let lp := _meshLoop cfg sqrtq rt cliptest hasTex hasNorm verts tab_norm tab_tex
                  s fuel ch.1 ch.2.1 ch.2.2.1
      (lp.1, ch.2.2.2 ++ lp.2)

/-- The walking part of _drawMesh once the discard test and the
clip-test decision are made: bind the mesh texture, start from fresh
slots, walk the face stream; the walk mutates only the shared face
color. -/
def _drawMeshBody (cfg : Config) (sqrtq : ℚ → ℚ) (rt : SFlags) (cliptest : Bool)
    (s : RState) (m : MeshData) : RState × List Submission :=
  let s1 := { s with uni_tex := m.texture }
  let r := _meshLoop cfg sqrtq rt cliptest m.texcoord.isSome m.normal.isSome
    (m.vertice.getD []) (m.normal.getD []) (m.texcoord.getD [])
    s1 (m.face.length + 1) s1.uni_facecolor initSlots m.face
  ({ s1 with uni_facecolor := r.1 }, r.2)

/-- Render one mesh (_drawMesh): bounding-box discard, then the single
8-corner decision whether per-triangle clip testing is needed, then the
face-stream walk. -/
def _drawMesh (cfg : Config) (sqrtq : ℚ → ℚ) (rt : SFlags) (s : RState) (m : MeshData) :
    RState × List Submission :=
  let M := s.projM.mul s.r_modelViewM
  if _discard cfg s m.bounding_box M then (s, [])
  else
    _drawMeshBody cfg sqrtq rt
      (_clipTestNeeded cfg.ortho (clipboundXY cfg) m.bounding_box M) s m

/-- Reference semantics for the clip-test optimization: identical to
_drawMesh except that the per-triangle clip test is always run,
regardless of the 8-corner bounding-box decision. -/
def _drawMeshAlwaysClip (cfg : Config) (sqrtq : ℚ → ℚ) (rt : SFlags) (s : RState)
    (m : MeshData) : RState × List Submission :=
  let M := s.projM.mul s.r_modelViewM
  if _discard cfg s m.bounding_box M then (s, [])
  else _drawMeshBody cfg sqrtq rt true s m

/-- Observable steps of a drawMesh call: the per-mesh material
substitution, the per-mesh dispatch into _drawMesh with its submissions,
and the final material restore. -/
inductive MEvent where
  | matSet (amb diff spec obj : RGBf)
  | draw (rt : SFlags) (m : MeshData) (subs : List Submission)
  | matRestore (amb diff spec obj : RGBf)
deriving DecidableEq

/-- The shader actually used for one mesh: gouraud is kept only when the
mesh has a normal array, texturing only when it has both a
texture-coordinate array and a texture image. -/
def effShader (shader : SFlags) (m : MeshData) : SFlags :=
  ⟨shader.gouraud && m.normal.isSome, shader.texture && (m.texcoord.isSome && m.texture.isSome)⟩

/-- The while loop of drawMesh over the chain: meshes with a null vertex
array are skipped entirely; for the others the material override is
applied when requested, the specular table refreshed, the shader
downgraded from this mesh alone, and the mesh drawn. -/
def drawMeshWalk (cfg : Config) (sqrtq : ℚ → ℚ) (shader : SFlags) (useMat : Bool) :
    RState → List MeshData → RState × List MEvent
  | s, [] => (s, [])
  | s, m :: rest =>
    if m.vertice.isSome then
      let s1 := if useMat then
          { s with r_ambiantColor := s.ambiantColor.smul m.ambiant_strength,
                   r_diffuseColor := s.diffuseColor.smul m.diffuse_strength,
                   r_specularColor := s.specularColor.smul m.specular_strength,
                   r_objectColor := m.color }
        else s
      let s2 := _precomputeSpecularTable s1
                  (if useMat then m.specular_exponent else s.specularExponent)
      let rt := effShader shader m
      let dr := _drawMesh cfg sqrtq rt s2 m
      let rec2 := drawMeshWalk cfg sqrtq shader useMat dr.1 rest
      (rec2.1,
       (if useMat then
          [MEvent.matSet (s.ambiantColor.smul m.ambiant_strength)
             (s.diffuseColor.smul m.diffuse_strength)
             (s.specularColor.smul m.specular_strength) m.color]
        else []) ++ MEvent.draw rt m dr.2 :: rec2.2)
    else drawMeshWalk cfg sqrtq shader useMat s rest

/-- Draw a mesh chain (drawMesh): precondition checks, the walk over the
chain (only the head when chaining is disabled), and the single material
restore after the entire chain when the per-mesh material was used. -/
def drawMesh (cfg : Config) (sqrtq : ℚ → ℚ) (s : RState) (shader : SFlags)
    (chain : List MeshData) (use_mesh_material draw_chained_meshes : Bool) :
    Int × RState × List MEvent :=
  if imageBad s then (-1, s, [])
  else if zbufferBad cfg s then (-2, s, [])
  else
    let eff := if draw_chained_meshes then chain else chain.take 1
    let w := drawMeshWalk cfg sqrtq shader use_mesh_material s eff
    if use_mesh_material then
      let a := w.1.ambiantColor.smul w.1.ambiantStrength
      let d := w.1.diffuseColor.smul w.1.diffuseStrength
      let sp := w.1.specularColor.smul w.1.specularStrength
      (0, { w.1 with r_ambiantColor := a, r_diffuseColor := d,
                     r_specularColor := sp, r_objectColor := w.1.color },
       w.2 ++ [MEvent.matRestore a d sp w.1.color])
    else (0, w.1, w.2)

/-- Submissions carried by one mesh-walk event. -/
def MEvent.subsOf : MEvent → List Submission
  | .draw _ _ subs => subs
  | _ => []

/-- All rasterizer submissions of a drawMesh call. -/
def eventsSubs (evs : List MEvent) : List Submission := (evs.map MEvent.subsOf).flatten

/-! The full public operation surface of a renderer instance, as one
step relation, and the constructor. -/

/-- One public operation on a Renderer3D instance.  The convenience
projection constructors (setOrtho, setFrustum, setPerspective) and
setLookAt build their matrix through external Mat4 collaborators; the
operation carries the built matrix, which the renderer then stores
exactly as the plain matrix setters do.  clearZbuffer writes the
externally owned depth-buffer memory and leaves the renderer state
unchanged. -/
inductive Op where
  | opSetImage (im : Option ImageT)
  | opSetOffset (ox oy : Int)
  | opSetOffsetVec (v : Int × Int)
  | opSetProjectionMatrix (M : fMat4)
  | opSetProjectionBuilt (M : fMat4)
  | opSetCulling (w : Int)
  | opSetZbuffer (present : Bool) (len : Int)
  | opClearZbuffer
  | opSetViewMatrix (M : fMat4)
  | opSetLookAt (M : fMat4)
  | opSetLightDirection (d : fVec3)
  | opSetLightAmbiant (c : RGBf)
  | opSetLightDiffuse (c : RGBf)
  | opSetLightSpecular (c : RGBf)
  | opSetLight (d : fVec3) (a b c : RGBf)
  | opSetModelMatrix (M : fMat4)
  | opSetMaterialColor (c : RGBf)
  | opSetMaterialAmbiantStrength (q : ℚ)
  | opSetMaterialDiffuseStrength (q : ℚ)
  | opSetMaterialSpecularStrength (q : ℚ)
  | opSetMaterialSpecularExponent (e : Int)
  | opSetMaterial (c : RGBf) (a b sp : ℚ) (e : Int)
  | opDrawTriangle1 (P1 P2 P3 : fVec3)
  | opDrawTriangle2 (sh : SFlags) (P1 P2 P3 N1 N2 N3 : fVec3)
  | opDrawTriangle3 (sh : SFlags) (P1 P2 P3 : fVec3) (T1 T2 T3 : fVec2) (tex : Option Nat)
  | opDrawTriangle4 (sh : SFlags) (P1 P2 P3 N1 N2 N3 : fVec3) (T1 T2 T3 : fVec2)
      (tex : Option Nat)
  | opDrawQuad1 (P1 P2 P3 P4 : fVec3)
  | opDrawQuad2 (sh : SFlags) (P1 P2 P3 P4 N1 N2 N3 N4 : fVec3)
  | opDrawQuad3 (sh : SFlags) (P1 P2 P3 P4 : fVec3) (T1 T2 T3 T4 : fVec2) (tex : Option Nat)
  | opDrawQuad4 (sh : SFlags) (P1 P2 P3 P4 N1 N2 N3 N4 : fVec3) (T1 T2 T3 T4 : fVec2)
      (tex : Option Nat)
  | opDrawTriangles (sh : SFlags) (nb : Int) (iv : Option (List Nat))
      (vs : Option (List fVec3)) (inl : Option (List Nat)) (nl : Option (List fVec3))
      (itl : Option (List Nat)) (tl : Option (List fVec2)) (tex : Option Nat)
  | opDrawQuads (sh : SFlags) (nb : Int) (iv : Option (List Nat))
      (vs : Option (List fVec3)) (inl : Option (List Nat)) (nl : Option (List fVec3))
      (itl : Option (List Nat)) (tl : Option (List fVec2)) (tex : Option Nat)
  | opDrawMesh (sh : SFlags) (chain : List MeshData) (um dc : Bool)

/-- Effect of one operation on the renderer state. -/
def runOp (cfg : Config) (sqrtq : ℚ → ℚ) (s : RState) : Op → RState
  | .opSetImage im => setImage s im
  | .opSetOffset ox oy => setOffset s ox oy
  | .opSetOffsetVec v => setOffset s v.1 v.2
  | .opSetProjectionMatrix M => setProjectionMatrix s M
  | .opSetProjectionBuilt M => setProjectionMatrix s M
  | .opSetCulling w => setCulling s w
  | .opSetZbuffer p len => setZbuffer s p len
  | .opClearZbuffer => s
  | .opSetViewMatrix M => setViewMatrix sqrtq s M
  | .opSetLookAt M => setViewMatrix sqrtq s M
  | .opSetLightDirection d => setLightDirection sqrtq s d
  | .opSetLightAmbiant c => setLightAmbiant s c
  | .opSetLightDiffuse c => setLightDiffuse s c
  | .opSetLightSpecular c => setLightSpecular s c
  | .opSetLight d a b c => setLight sqrtq s d a b c
  | .opSetModelMatrix M => setModelMatrix sqrtq s M
  | .opSetMaterialColor c => setMaterialColor s c
  | .opSetMaterialAmbiantStrength q => setMaterialAmbiantStrength s q
  | .opSetMaterialDiffuseStrength q => setMaterialDiffuseStrength s q
  | .opSetMaterialSpecularStrength q => setMaterialSpecularStrength s q
  | .opSetMaterialSpecularExponent e => setMaterialSpecularExponent s e
  | .opSetMaterial c a b sp e => setMaterial s c a b sp e
  | .opDrawTriangle1 P1 P2 P3 => (drawTriangle1 cfg sqrtq s P1 P2 P3).2.1
  | .opDrawTriangle2 sh P1 P2 P3 N1 N2 N3 =>
    (drawTriangle2 cfg sqrtq s sh P1 P2 P3 N1 N2 N3).2.1
  | .opDrawTriangle3 sh P1 P2 P3 T1 T2 T3 tex =>
    (drawTriangle3 cfg sqrtq s sh P1 P2 P3 T1 T2 T3 tex).2.1
  | .opDrawTriangle4 sh P1 P2 P3 N1 N2 N3 T1 T2 T3 tex =>
    (drawTriangle4 cfg sqrtq s sh P1 P2 P3 N1 N2 N3 T1 T2 T3 tex).2.1
  | .opDrawQuad1 P1 P2 P3 P4 => (drawQuad1 cfg sqrtq s P1 P2 P3 P4).2.1
  | .opDrawQuad2 sh P1 P2 P3 P4 N1 N2 N3 N4 =>
    (drawQuad2 cfg sqrtq s sh P1 P2 P3 P4 N1 N2 N3 N4).2.1
  | .opDrawQuad3 sh P1 P2 P3 P4 T1 T2 T3 T4 tex =>
    (drawQuad3 cfg sqrtq s sh P1 P2 P3 P4 T1 T2 T3 T4 tex).2.1
  | .opDrawQuad4 sh P1 P2 P3 P4 N1 N2 N3 N4 T1 T2 T3 T4 tex =>
    (drawQuad4 cfg sqrtq s sh P1 P2 P3 P4 N1 N2 N3 N4 T1 T2 T3 T4 tex).2.1
  | .opDrawTriangles sh nb iv vs inl nl itl tl tex =>
    (drawTriangles cfg sqrtq s sh nb iv vs inl nl itl tl tex).2.1
  | .opDrawQuads sh nb iv vs inl nl itl tl tex =>
    (drawQuads cfg sqrtq s sh nb iv vs inl nl itl tl tex).2.1
  | .opDrawMesh sh chain um dc => (drawMesh cfg sqrtq s sh chain um dc).2.1

/-- Run a sequence of operations. -/
def runOps (cfg : Config) (sqrtq : ℚ → ℚ) (s : RState) (ops : List Op) : RState :=
  ops.foldl (runOp cfg sqrtq) s

/-- State at the start of the constructor body: the fields of the C++
member-initializer list carry their listed values; every other field is
uninitialized junk at this point (modelled as zeros and identity
matrices) and is overwritten by the constructor body before any use
that could influence the final state. -/
def initBase : RState where
  ox := 0
  oy := 0
  im := none
  projM := fMat4.id
  zbuffer_len := 0
  uni_zbuf := false
  uni_facecolor := ⟨1, 1, 1⟩
  uni_tex := none
  culling_dir := 1
  viewM := fMat4.id
  light := ⟨0, 0, 0⟩
  ambiantColor := ⟨0, 0, 0⟩
  diffuseColor := ⟨0, 0, 0⟩
  specularColor := ⟨0, 0, 0⟩
  modelM := fMat4.id
  color := ⟨0, 0, 0⟩
  ambiantStrength := 0
  diffuseStrength := 0
  specularStrength := 0
  specularExponent := 0
  r_modelViewM := fMat4.id
  r_inorm := 0
  r_light := ⟨0, 0, 0⟩
  r_light_inorm := ⟨0, 0, 0⟩
  r_H := ⟨0, 0, 0⟩
  r_H_inorm := ⟨0, 0, 0⟩
  r_ambiantColor := ⟨0, 0, 0⟩
  r_diffuseColor := ⟨0, 0, 0⟩
  r_specularColor := ⟨0, 0, 0⟩
  r_objectColor := ⟨0, 0, 0⟩
  currentpow := -1
  powfact := 0
  fastpowtab := fun _ => 0

/-- The constructor (Renderer3D::Renderer3D): default projection (built
externally by setPerspective or setOrtho and passed in as Mproj),
look-at view matrix (built externally, the identity for the default
arguments, passed in as Mlook), default white light, identity model
matrix, default silver material, and the specular table for exponent
16. -/
def initState (sqrtq : ℚ → ℚ) (Mproj Mlook : fMat4) : RState :=
  let s := setProjectionMatrix initBase Mproj
  let s := setViewMatrix sqrtq s Mlook
  let s := setLight sqrtq s ⟨-1, -1, -1⟩ ⟨1, 1, 1⟩ ⟨1, 1, 1⟩ ⟨1, 1, 1⟩
  let s := setModelMatrix sqrtq s fMat4.id
  let s := setMaterial s ⟨3/4, 3/4, 3/4⟩ (3/20) (7/10) (1/2) 16
  _precomputeSpecularTable s 16

/-- The part of the renderer state that no draw call ever modifies: a
draw call only writes the cached face color, the bound texture, the
specular table triple and the cached material products. -/
def fixedPart (s : RState) :=
  (s.ox, s.oy, s.im, s.projM, s.zbuffer_len, s.uni_zbuf, s.culling_dir, s.viewM,
   s.light, s.ambiantColor, s.diffuseColor, s.specularColor, s.modelM, s.color,
   s.ambiantStrength, s.diffuseStrength, s.specularStrength, s.specularExponent,
   s.r_modelViewM, s.r_inorm, s.r_light, s.r_light_inorm, s.r_H, s.r_H_inorm)

theorem fixedPart_precompute (s : RState) (e : Int) :
    fixedPart (_precomputeSpecularTable s e) = fixedPart s := by
  unfold _precomputeSpecularTable
  split
  · rfl
  · dsimp only
    split <;> rfl

theorem fixedPart_drawTriangle (cfg : Config) (sqrtq : ℚ → ℚ) (s : RState) (rt : SFlags)
    (P0 P1 P2 : fVec3) (N0 N1 N2 : Option fVec3) (T0 T1 T2 : Option fVec2) :
    fixedPart (_drawTriangle cfg sqrtq s rt P0 P1 P2 N0 N1 N2 T0 T1 T2).1 = fixedPart s := by
  unfold _drawTriangle
  dsimp only
  split_ifs <;> rfl

theorem fixedPart_drawQuad (cfg : Config) (sqrtq : ℚ → ℚ) (s : RState) (rt : SFlags)
    (P0 P1 P2 P3 : fVec3) (N0 N1 N2 N3 : Option fVec3) (T0 T1 T2 T3 : Option fVec2) :
    fixedPart (_drawQuad cfg sqrtq s rt P0 P1 P2 P3 N0 N1 N2 N3 T0 T1 T2 T3).1 =
      fixedPart s := by
  unfold _drawQuad
  dsimp only
  split_ifs <;> rfl

theorem fixedPart_drawMeshBody (cfg : Config) (sqrtq : ℚ → ℚ) (rt : SFlags) (ct : Bool)
    (s : RState) (m : MeshData) :
    fixedPart (_drawMeshBody cfg sqrtq rt ct s m).1 = fixedPart s := rfl

theorem fixedPart_drawMesh (cfg : Config) (sqrtq : ℚ → ℚ) (rt : SFlags)
    (s : RState) (m : MeshData) :
    fixedPart (_drawMesh cfg sqrtq rt s m).1 = fixedPart s := by
  unfold _drawMesh
  dsimp only
  split
  · rfl
  · exact fixedPart_drawMeshBody ..

theorem fixedPart_drawMeshWalk (cfg : Config) (sqrtq : ℚ → ℚ) (shader : SFlags)
    (useMat : Bool) :
    ∀ (chain : List MeshData) (s : RState),
      fixedPart (drawMeshWalk cfg sqrtq shader useMat s chain).1 = fixedPart s := by
  intro chain
  induction chain with
  | nil => intro s; rfl
  | cons m rest ih =>
    intro s
    simp only [drawMeshWalk]
    split
    · dsimp only
      rw [ih, fixedPart_drawMesh, fixedPart_precompute]
      split <;> rfl
    · exact ih s

theorem fixedPart_drawFold (f : RState → Nat → RState × List Submission)
    (hf : ∀ s j, fixedPart (f s j).1 = fixedPart s) :
    ∀ (l : List Nat) (s : RState), fixedPart (drawFold f s l).1 = fixedPart s := by
  intro l
  induction l with
  | nil => intro s; rfl
  | cons j rest ih =>
    intro s
    simp only [drawFold]
    rw [ih, hf]

theorem fixedPart_drawTriangle1 (cfg : Config) (sqrtq : ℚ → ℚ) (s : RState)
    (P1 P2 P3 : fVec3) :
    fixedPart (drawTriangle1 cfg sqrtq s P1 P2 P3).2.1 = fixedPart s := by
  unfold drawTriangle1
  dsimp only
  split_ifs <;> try rfl
  rw [fixedPart_drawTriangle, fixedPart_precompute]

theorem fixedPart_drawTriangle2 (cfg : Config) (sqrtq : ℚ → ℚ) (s : RState) (sh : SFlags)
    (P1 P2 P3 N1 N2 N3 : fVec3) :
    fixedPart (drawTriangle2 cfg sqrtq s sh P1 P2 P3 N1 N2 N3).2.1 = fixedPart s := by
  unfold drawTriangle2
  dsimp only
  split_ifs <;> try rfl
  rw [fixedPart_drawTriangle, fixedPart_precompute]

theorem fixedPart_drawTriangle3 (cfg : Config) (sqrtq : ℚ → ℚ) (s : RState) (sh : SFlags)
    (P1 P2 P3 : fVec3) (T1 T2 T3 : fVec2) (tex : Option Nat) :
    fixedPart (drawTriangle3 cfg sqrtq s sh P1 P2 P3 T1 T2 T3 tex).2.1 = fixedPart s := by
  unfold drawTriangle3
  dsimp only
  split_ifs <;> try rfl
  · exact fixedPart_precompute ..
  · exact (fixedPart_drawTriangle ..).trans (fixedPart_precompute ..)
  · exact (fixedPart_drawTriangle ..).trans (fixedPart_precompute ..)

theorem fixedPart_drawTriangle4 (cfg : Config) (sqrtq : ℚ → ℚ) (s : RState) (sh : SFlags)
    (P1 P2 P3 N1 N2 N3 : fVec3) (T1 T2 T3 : fVec2) (tex : Option Nat) :
    fixedPart (drawTriangle4 cfg sqrtq s sh P1 P2 P3 N1 N2 N3 T1 T2 T3 tex).2.1 =
      fixedPart s := by
  unfold drawTriangle4
  dsimp only
  split_ifs <;> try rfl
  · exact fixedPart_precompute ..
  · exact (fixedPart_drawTriangle ..).trans (fixedPart_precompute ..)
  · exact (fixedPart_drawTriangle ..).trans (fixedPart_precompute ..)

theorem fixedPart_drawQuad1 (cfg : Config) (sqrtq : ℚ → ℚ) (s : RState)
    (P1 P2 P3 P4 : fVec3) :
    fixedPart (drawQuad1 cfg sqrtq s P1 P2 P3 P4).2.1 = fixedPart s := by
  unfold drawQuad1
  dsimp only
  split_ifs <;> try rfl
  rw [fixedPart_drawQuad, fixedPart_precompute]

theorem fixedPart_drawQuad2 (cfg : Config) (sqrtq : ℚ → ℚ) (s : RState) (sh : SFlags)
    (P1 P2 P3 P4 N1 N2 N3 N4 : fVec3) :
    fixedPart (drawQuad2 cfg sqrtq s sh P1 P2 P3 P4 N1 N2 N3 N4).2.1 = fixedPart s := by
  unfold drawQuad2
  dsimp only
  split_ifs <;> try rfl
  rw [fixedPart_drawQuad, fixedPart_precompute]

theorem fixedPart_drawQuad3 (cfg : Config) (sqrtq : ℚ → ℚ) (s : RState) (sh : SFlags)
    (P1 P2 P3 P4 : fVec3) (T1 T2 T3 T4 : fVec2) (tex : Option Nat) :
    fixedPart (drawQuad3 cfg sqrtq s sh P1 P2 P3 P4 T1 T2 T3 T4 tex).2.1 = fixedPart s := by
  unfold drawQuad3
  dsimp only
  split_ifs <;> try rfl
  · exact fixedPart_precompute ..
  · exact (fixedPart_drawQuad ..).trans (fixedPart_precompute ..)
  · exact (fixedPart_drawQuad ..).trans (fixedPart_precompute ..)

theorem fixedPart_drawQuad4 (cfg : Config) (sqrtq : ℚ → ℚ) (s : RState) (sh : SFlags)
    (P1 P2 P3 P4 N1 N2 N3 N4 : fVec3) (T1 T2 T3 T4 : fVec2) (tex : Option Nat) :
    fixedPart (drawQuad4 cfg sqrtq s sh P1 P2 P3 P4 N1 N2 N3 N4 T1 T2 T3 T4 tex).2.1 =
      fixedPart s := by
  unfold drawQuad4
  dsimp only
  split_ifs <;> try rfl
  · exact fixedPart_precompute ..
  · exact (fixedPart_drawQuad ..).trans (fixedPart_precompute ..)
  · exact (fixedPart_drawQuad ..).trans (fixedPart_precompute ..)

theorem fixedPart_drawTriangles (cfg : Config) (sqrtq : ℚ → ℚ) (s : RState) (sh : SFlags)
    (nb : Int) (iv : Option (List Nat)) (vs : Option (List fVec3)) (inl : Option (List Nat))
    (nl : Option (List fVec3)) (itl : Option (List Nat)) (tl : Option (List fVec2))
    (tex : Option Nat) :
    fixedPart (drawTriangles cfg sqrtq s sh nb iv vs inl nl itl tl tex).2.1 =
      fixedPart s := by
  unfold drawTriangles
  dsimp only
  split_ifs <;> try rfl
  all_goals
    exact (fixedPart_drawFold _ (fun st j => fixedPart_drawTriangle ..) _ _).trans
      (fixedPart_precompute ..)

theorem fixedPart_drawQuads (cfg : Config) (sqrtq : ℚ → ℚ) (s : RState) (sh : SFlags)
    (nb : Int) (iv : Option (List Nat)) (vs : Option (List fVec3)) (inl : Option (List Nat))
    (nl : Option (List fVec3)) (itl : Option (List Nat)) (tl : Option (List fVec2))
    (tex : Option Nat) :
    fixedPart (drawQuads cfg sqrtq s sh nb iv vs inl nl itl tl tex).2.1 = fixedPart s := by
  unfold drawQuads
  dsimp only
  split_ifs <;> try rfl
  all_goals
    exact (fixedPart_drawFold _ (fun st j => fixedPart_drawQuad ..) _ _).trans
      (fixedPart_precompute ..)

theorem fixedPart_drawMeshEntry (cfg : Config) (sqrtq : ℚ → ℚ) (s : RState) (sh : SFlags)
    (chain : List MeshData) (um dc : Bool) :
    fixedPart (drawMesh cfg sqrtq s sh chain um dc).2.1 = fixedPart s := by
  unfold drawMesh
  dsimp only
  split_ifs <;> try rfl
  all_goals exact fixedPart_drawMeshWalk ..

/-! Claim C8: storing back the retrieved projection matrix is the
identity on the renderer state. -/

theorem invertYaxis_invol (M : fMat4) : M.invertYaxis.invertYaxis = M := by
  cases M
  simp [fMat4.invertYaxis]

/-- C8: for every renderer state, setProjectionMatrix(getProjectionMatrix())
leaves the state (in particular the internally stored projection matrix)
unchanged: the Y-axis inversions applied on store and on retrieve cancel
exactly, so no subsequently rendered output can differ from omitting the
call. -/
theorem C8_projection_roundtrip (s : RState) :
    setProjectionMatrix s (getProjectionMatrix s) = s := by
  unfold setProjectionMatrix getProjectionMatrix
  rw [invertYaxis_invol]

/-! Claim C4: complementarity of face culling under winding reversal. -/

theorem cullVal_reverse (o : Bool) (mv : fMat4) (P0 P1 P2 : fVec3) :
    cullVal o mv P2 P1 P0 = -cullVal o mv P0 P1 P2 := by
  cases o <;>
    simp only [cullVal, fMat4.mult1, fMat4.mulVec, crossProduct, vsub4, dotProduct,
      fVec4.xyz, Bool.false_eq_true, if_false, if_true, ite_true, ite_false] <;>
    ring

/-- C4 counterexample: with culling direction +1 (set via setCulling)
and the degenerate triangle (0,0,0), (1,0,0), (2,0,0) under the identity
model-view matrix, the face-culling test value is 0, so neither the
triangle nor its winding-reversed counterpart is discarded: the claimed
"exactly one of the two is discarded when d is nonzero" fails. -/
theorem C4_counterexample :
    ¬ ((cullDiscard false fMat4.id (setCulling initBase 1).culling_dir
          ⟨0, 0, 0⟩ ⟨1, 0, 0⟩ ⟨2, 0, 0⟩ ∧
        ¬ cullDiscard false fMat4.id (setCulling initBase 1).culling_dir
          ⟨2, 0, 0⟩ ⟨1, 0, 0⟩ ⟨0, 0, 0⟩) ∨
       (¬ cullDiscard false fMat4.id (setCulling initBase 1).culling_dir
          ⟨0, 0, 0⟩ ⟨1, 0, 0⟩ ⟨2, 0, 0⟩ ∧
        cullDiscard false fMat4.id (setCulling initBase 1).culling_dir
          ⟨2, 0, 0⟩ ⟨1, 0, 0⟩ ⟨0, 0, 0⟩)) := by
  with_unfolding_all decide

/-- C4 (amended): reversing the winding negates the culling test value;
for a nonzero culling direction the triangle and its reverse produce
complementary outcomes at the face-culling step whenever the test value
is nonzero; when the test value is zero (degenerate or edge-on
triangles) neither is discarded; and with culling disabled (direction 0)
nothing is discarded. -/
theorem C4_culling_complementary (o : Bool) (mv : fMat4) (d : ℚ) (P0 P1 P2 : fVec3) :
    cullVal o mv P2 P1 P0 = -cullVal o mv P0 P1 P2 ∧
    (d ≠ 0 → cullVal o mv P0 P1 P2 ≠ 0 →
      (cullDiscard o mv d P0 P1 P2 ↔ ¬ cullDiscard o mv d P2 P1 P0)) ∧
    (cullVal o mv P0 P1 P2 = 0 →
      ¬ cullDiscard o mv d P0 P1 P2 ∧ ¬ cullDiscard o mv d P2 P1 P0) ∧
    ¬ cullDiscard o mv 0 P0 P1 P2 := by
  refine ⟨cullVal_reverse o mv P0 P1 P2, ?_, ?_, ?_⟩
  · intro hd hcu
    unfold cullDiscard
    rw [cullVal_reverse o mv P0 P1 P2]
    constructor
    · intro h h2
      nlinarith
    · intro h
      rcases (mul_ne_zero hcu hd).lt_or_lt with hlt | hgt
      · exact absurd (by nlinarith : -cullVal o mv P0 P1 P2 * d > 0) h
      · exact hgt
  · intro h0
    unfold cullDiscard
    rw [cullVal_reverse o mv P0 P1 P2, h0]
    norm_num
  · unfold cullDiscard
    simp

/-- Witness for C4: a concrete nondegenerate triangle with culling
direction 1, whose reversal produces the complementary culling
outcome. -/
theorem C4_witness :
    cullDiscard false fMat4.id 1 ⟨0, 0, -1⟩ ⟨1, 0, -1⟩ ⟨0, 1, -1⟩ ↔
      ¬ cullDiscard false fMat4.id 1 ⟨0, 1, -1⟩ ⟨1, 0, -1⟩ ⟨0, 0, -1⟩ :=
  (C4_culling_complementary false fMat4.id 1 ⟨0, 0, -1⟩ ⟨1, 0, -1⟩ ⟨0, 1, -1⟩).2.1
    (by norm_num) (by with_unfolding_all decide)

/-! Claim C9: the image offset always stays inside
0 .. MAXVIEWPORTDIMENSION in both coordinates. -/

/-- The offset invariant of claim C9. -/
def offsetOK (s : RState) : Prop :=
  0 ≤ s.ox ∧ s.ox ≤ 2048 ∧ 0 ≤ s.oy ∧ s.oy ≤ 2048

theorem offs_of_fixedPart {s t : RState} (h : fixedPart s = fixedPart t) :
    s.ox = t.ox ∧ s.oy = t.oy :=
  ⟨congrArg Prod.fst h, congrArg (fun p => p.2.1) h⟩

theorem offsetOK_congr {s t : RState} (h : fixedPart t = fixedPart s)
    (hs : offsetOK s) : offsetOK t := by
  obtain ⟨h1, h2⟩ := offs_of_fixedPart h
  unfold offsetOK at *
  omega

set_option maxHeartbeats 1600000 in
theorem runOp_offsetOK (cfg : Config) (sqrtq : ℚ → ℚ) (s : RState) (op : Op)
    (h : offsetOK s) : offsetOK (runOp cfg sqrtq s op) := by
  cases op with
  | opSetOffset ox oy =>
    show offsetOK (setOffset s ox oy)
    unfold offsetOK setOffset clampI MAXVIEWPORTDIMENSION
    refine ⟨?_, ?_, ?_, ?_⟩ <;> simp <;> omega
  | opSetOffsetVec v =>
    show offsetOK (setOffset s v.1 v.2)
    unfold offsetOK setOffset clampI MAXVIEWPORTDIMENSION
    refine ⟨?_, ?_, ?_, ?_⟩ <;> simp <;> omega
  | opDrawTriangle1 P1 P2 P3 => exact offsetOK_congr (fixedPart_drawTriangle1 ..) h
  | opDrawTriangle2 sh P1 P2 P3 N1 N2 N3 => exact offsetOK_congr (fixedPart_drawTriangle2 ..) h
  | opDrawTriangle3 sh P1 P2 P3 T1 T2 T3 tex =>
    exact offsetOK_congr (fixedPart_drawTriangle3 ..) h
  | opDrawTriangle4 sh P1 P2 P3 N1 N2 N3 T1 T2 T3 tex =>
    exact offsetOK_congr (fixedPart_drawTriangle4 ..) h
  | opDrawQuad1 P1 P2 P3 P4 => exact offsetOK_congr (fixedPart_drawQuad1 ..) h
  | opDrawQuad2 sh P1 P2 P3 P4 N1 N2 N3 N4 => exact offsetOK_congr (fixedPart_drawQuad2 ..) h
  | opDrawQuad3 sh P1 P2 P3 P4 T1 T2 T3 T4 tex =>
    exact offsetOK_congr (fixedPart_drawQuad3 ..) h
  | opDrawQuad4 sh P1 P2 P3 P4 N1 N2 N3 N4 T1 T2 T3 T4 tex =>
    exact offsetOK_congr (fixedPart_drawQuad4 ..) h
  | opDrawTriangles sh nb iv vs inl nl itl tl tex =>
    exact offsetOK_congr (fixedPart_drawTriangles ..) h
  | opDrawQuads sh nb iv vs inl nl itl tl tex =>
    exact offsetOK_congr (fixedPart_drawQuads ..) h
  | opDrawMesh sh chain um dc => exact offsetOK_congr (fixedPart_drawMeshEntry ..) h
  | _ => exact h

set_option maxHeartbeats 1600000 in
/-- C9: setOffset clamps each argument into 0 .. 2048, and after any
sequence of public operations starting from a freshly constructed
renderer the stored offset lies in the square 0 .. 2048 in both
coordinates (the constructor initializes it to (0,0) and no operation
other than setOffset modifies it). -/
theorem C9_offset_invariant :
    (∀ (s : RState) (ox oy : Int),
        (setOffset s ox oy).ox = max 0 (min 2048 ox) ∧
        (setOffset s ox oy).oy = max 0 (min 2048 oy)) ∧
    (∀ (cfg : Config) (sqrtq : ℚ → ℚ) (Mproj Mlook : fMat4) (ops : List Op),
        offsetOK (runOps cfg sqrtq (initState sqrtq Mproj Mlook) ops)) := by
  constructor
  · intro s ox oy
    exact ⟨rfl, rfl⟩
  · intro cfg sqrtq Mproj Mlook ops
    have hox : (initState sqrtq Mproj Mlook).ox = 0 := rfl
    have hoy : (initState sqrtq Mproj Mlook).oy = 0 := rfl
    have h0 : offsetOK (initState sqrtq Mproj Mlook) := by
      unfold offsetOK
      omega
    have main : ∀ (l : List Op) (t : RState), offsetOK t →
        offsetOK (runOps cfg sqrtq t l) := by
      intro l
      induction l with
      | nil => intro t ht; exact ht
      | cons op rest ih =>
        intro t ht
        exact ih _ (runOp_offsetOK cfg sqrtq t op ht)
    exact main ops _ h0

/-! Claim C1: precondition validation of every draw entry point. -/

/-- C1: every draw entry point validates its preconditions before
touching any buffer.  With no valid image bound every entry point
returns -1 with the state untouched and no rasterizer submission (hence
the color and depth buffers are strict no-ops); with a valid image but
depth testing enabled and the depth buffer null or shorter than the
viewport area, every entry point returns -2 the same way; and a
single-primitive call that requests texturing with a null texture
pointer returns -3 having mutated nothing beyond the specular table
refresh, again with no submission. -/
theorem C1_draw_preconditions (cfg : Config) (sqrtq : ℚ → ℚ) (s : RState) (sh : SFlags)
    (P1 P2 P3 P4 N1 N2 N3 N4 : fVec3) (T1 T2 T3 T4 : fVec2) (tex : Option Nat)
    (nb : Int) (iv : Option (List Nat)) (vs : Option (List fVec3))
    (inl : Option (List Nat)) (nl : Option (List fVec3)) (itl : Option (List Nat))
    (tl : Option (List fVec2)) (chain : List MeshData) (um dc : Bool) :
    (imageBad s = true →
      drawTriangle1 cfg sqrtq s P1 P2 P3 = (-1, s, []) ∧
      drawTriangle2 cfg sqrtq s sh P1 P2 P3 N1 N2 N3 = (-1, s, []) ∧
      drawTriangle3 cfg sqrtq s sh P1 P2 P3 T1 T2 T3 tex = (-1, s, []) ∧
      drawTriangle4 cfg sqrtq s sh P1 P2 P3 N1 N2 N3 T1 T2 T3 tex = (-1, s, []) ∧
      drawQuad1 cfg sqrtq s P1 P2 P3 P4 = (-1, s, []) ∧
      drawQuad2 cfg sqrtq s sh P1 P2 P3 P4 N1 N2 N3 N4 = (-1, s, []) ∧
      drawQuad3 cfg sqrtq s sh P1 P2 P3 P4 T1 T2 T3 T4 tex = (-1, s, []) ∧
      drawQuad4 cfg sqrtq s sh P1 P2 P3 P4 N1 N2 N3 N4 T1 T2 T3 T4 tex = (-1, s, []) ∧
      drawTriangles cfg sqrtq s sh nb iv vs inl nl itl tl tex = (-1, s, []) ∧
      drawQuads cfg sqrtq s sh nb iv vs inl nl itl tl tex = (-1, s, []) ∧
      drawMesh cfg sqrtq s sh chain um dc = (-1, s, [])) ∧
    (imageBad s = false → zbufferBad cfg s = true →
      drawTriangle1 cfg sqrtq s P1 P2 P3 = (-2, s, []) ∧
      drawTriangle2 cfg sqrtq s sh P1 P2 P3 N1 N2 N3 = (-2, s, []) ∧
      drawTriangle3 cfg sqrtq s sh P1 P2 P3 T1 T2 T3 tex = (-2, s, []) ∧
      drawTriangle4 cfg sqrtq s sh P1 P2 P3 N1 N2 N3 T1 T2 T3 tex = (-2, s, []) ∧
      drawQuad1 cfg sqrtq s P1 P2 P3 P4 = (-2, s, []) ∧
      drawQuad2 cfg sqrtq s sh P1 P2 P3 P4 N1 N2 N3 N4 = (-2, s, []) ∧
      drawQuad3 cfg sqrtq s sh P1 P2 P3 P4 T1 T2 T3 T4 tex = (-2, s, []) ∧
      drawQuad4 cfg sqrtq s sh P1 P2 P3 P4 N1 N2 N3 N4 T1 T2 T3 T4 tex = (-2, s, []) ∧
      drawTriangles cfg sqrtq s sh nb iv vs inl nl itl tl tex = (-2, s, []) ∧
      drawQuads cfg sqrtq s sh nb iv vs inl nl itl tl tex = (-2, s, []) ∧
      drawMesh cfg sqrtq s sh chain um dc = (-2, s, [])) ∧
    (imageBad s = false → zbufferBad cfg s = false → sh.texture = true → tex = none →
      drawTriangle3 cfg sqrtq s sh P1 P2 P3 T1 T2 T3 tex =
        (-3, _precomputeSpecularTable s s.specularExponent, []) ∧
      drawTriangle4 cfg sqrtq s sh P1 P2 P3 N1 N2 N3 T1 T2 T3 tex =
        (-3, _precomputeSpecularTable s s.specularExponent, []) ∧
      drawQuad3 cfg sqrtq s sh P1 P2 P3 P4 T1 T2 T3 T4 tex =
        (-3, _precomputeSpecularTable s s.specularExponent, []) ∧
      drawQuad4 cfg sqrtq s sh P1 P2 P3 P4 N1 N2 N3 N4 T1 T2 T3 T4 tex =
        (-3, _precomputeSpecularTable s s.specularExponent, [])) := by
  refine ⟨?_, ?_, ?_⟩
  · intro h1
    simp [drawTriangle1, drawTriangle2, drawTriangle3, drawTriangle4, drawQuad1,
      drawQuad2, drawQuad3, drawQuad4, drawTriangles, drawQuads, drawMesh, h1]
  · intro h1 h2
    simp [drawTriangle1, drawTriangle2, drawTriangle3, drawTriangle4, drawQuad1,
      drawQuad2, drawQuad3, drawQuad4, drawTriangles, drawQuads, drawMesh, h1, h2]
  · intro h1 h2 h3 h4
    simp [drawTriangle3, drawTriangle4, drawQuad3, drawQuad4, h1, h2, h3, h4]

/-! Concrete inputs shared by several witnesses. -/

/-- A concrete stand-in for the external square root. -/
def sq1 : ℚ → ℚ := fun _ => 1

/-- The zero 3-vector. -/
def vzero : fVec3 := ⟨0, 0, 0⟩

/-- The zero texture coordinate. -/
def t2zero : fVec2 := ⟨0, 0⟩

/-- A 4 by 4 viewport without depth testing, perspective mode. -/
def cfgNZ : Config := ⟨4, 4, false, false⟩

/-- A 4 by 4 viewport with depth testing, perspective mode. -/
def cfgZ : Config := ⟨4, 4, true, false⟩

/-- A valid 4 by 4 target image. -/
def imTest : ImageT := ⟨4, 4, true⟩

/-- A renderer state with a valid image bound and no depth buffer. -/
def sIm : RState := { initBase with im := some imTest }

/-- Witness for C1: a call with no image bound returns -1 and performs
no submission; with an image but no depth buffer (depth testing on) it
returns -2; and a textured single-triangle call with a null texture
returns -3. -/
theorem C1_witness :
    (drawTriangle1 cfgZ sq1 initBase vzero vzero vzero = (-1, initBase, []) ∧
     drawMesh cfgZ sq1 initBase ⟨false, false⟩ [] true true = (-1, initBase, [])) ∧
    drawTriangle1 cfgZ sq1 sIm vzero vzero vzero = (-2, sIm, []) ∧
    (drawTriangle3 cfgNZ sq1 sIm ⟨false, true⟩ vzero vzero vzero t2zero t2zero t2zero
        none).1 = -3 := by
  have hbad : imageBad initBase = true := rfl
  have hok : imageBad sIm = false := rfl
  have hz : zbufferBad cfgZ sIm = true := by
    with_unfolding_all decide
  have hnz : zbufferBad cfgNZ sIm = false := rfl
  refine ⟨⟨?_, ?_⟩, ?_, ?_⟩
  · exact ((C1_draw_preconditions cfgZ sq1 initBase ⟨false, false⟩ vzero vzero vzero vzero
      vzero vzero vzero vzero t2zero t2zero t2zero t2zero none 0 none none none none none
      none [] true true).1 hbad).1
  · exact ((C1_draw_preconditions cfgZ sq1 initBase ⟨false, false⟩ vzero vzero vzero vzero
      vzero vzero vzero vzero t2zero t2zero t2zero t2zero none 0 none none none none none
      none [] true true).1 hbad).2.2.2.2.2.2.2.2.2.2
  · exact ((C1_draw_preconditions cfgZ sq1 sIm ⟨false, false⟩ vzero vzero vzero vzero
      vzero vzero vzero vzero t2zero t2zero t2zero t2zero none 0 none none none none none
      none [] true true).2.1 hok hz).1
  · rw [((C1_draw_preconditions cfgNZ sq1 sIm ⟨false, true⟩ vzero vzero vzero vzero
      vzero vzero vzero vzero t2zero t2zero t2zero t2zero none 0 none none none none none
      none [] true true).2.2 hok hnz rfl rfl).1]

/-! Claims C5, C6, C10: the mesh-chain walk. -/

/-- Values of a material-substitution event. -/
def matSetOf : MEvent → Option (RGBf × RGBf × RGBf × RGBf)
  | .matSet a d sp o => some (a, d, sp, o)
  | _ => none

/-- Shader and mesh of a per-mesh draw event. -/
def drawOf : MEvent → Option (SFlags × MeshData)
  | .draw rt m _ => some (rt, m)
  | _ => none

/-- Whether an event is the material restore. -/
def isMatRestore : MEvent → Bool
  | .matRestore _ _ _ _ => true
  | _ => false

theorem matBase_of_fixedPart {s t : RState} (h : fixedPart s = fixedPart t) :
    s.ambiantColor = t.ambiantColor ∧ s.diffuseColor = t.diffuseColor ∧
    s.specularColor = t.specularColor ∧ s.color = t.color ∧
    s.ambiantStrength = t.ambiantStrength ∧ s.diffuseStrength = t.diffuseStrength ∧
    s.specularStrength = t.specularStrength := by
  simp only [fixedPart, Prod.mk.injEq] at h
  exact ⟨h.2.2.2.2.2.2.2.2.2.1, h.2.2.2.2.2.2.2.2.2.2.1, h.2.2.2.2.2.2.2.2.2.2.2.1,
    h.2.2.2.2.2.2.2.2.2.2.2.2.2.1, h.2.2.2.2.2.2.2.2.2.2.2.2.2.2.1,
    h.2.2.2.2.2.2.2.2.2.2.2.2.2.2.2.1, h.2.2.2.2.2.2.2.2.2.2.2.2.2.2.2.2.1⟩

theorem fixedPart_meshStep (cfg : Config) (sqrtq : ℚ → ℚ) (rt : SFlags) (s1 : RState)
    (e : Int) (m : MeshData) :
    fixedPart (_drawMesh cfg sqrtq rt (_precomputeSpecularTable s1 e) m).1 =
      fixedPart s1 :=
  (fixedPart_drawMesh ..).trans (fixedPart_precompute ..)

theorem meshStep_amb (cfg : Config) (sqrtq : ℚ → ℚ) (rt : SFlags) (s1 : RState)
    (e : Int) (m : MeshData) :
    (_drawMesh cfg sqrtq rt (_precomputeSpecularTable s1 e) m).1.ambiantColor =
      s1.ambiantColor :=
  (matBase_of_fixedPart (fixedPart_meshStep cfg sqrtq rt s1 e m)).1

theorem meshStep_dif (cfg : Config) (sqrtq : ℚ → ℚ) (rt : SFlags) (s1 : RState)
    (e : Int) (m : MeshData) :
    (_drawMesh cfg sqrtq rt (_precomputeSpecularTable s1 e) m).1.diffuseColor =
      s1.diffuseColor :=
  (matBase_of_fixedPart (fixedPart_meshStep cfg sqrtq rt s1 e m)).2.1

theorem meshStep_spec (cfg : Config) (sqrtq : ℚ → ℚ) (rt : SFlags) (s1 : RState)
    (e : Int) (m : MeshData) :
    (_drawMesh cfg sqrtq rt (_precomputeSpecularTable s1 e) m).1.specularColor =
      s1.specularColor :=
  (matBase_of_fixedPart (fixedPart_meshStep cfg sqrtq rt s1 e m)).2.2.1

theorem drawMeshWalk_matSets (cfg : Config) (sqrtq : ℚ → ℚ) (sh : SFlags) :
    ∀ (chain : List MeshData) (s : RState),
      (drawMeshWalk cfg sqrtq sh true s chain).2.filterMap matSetOf =
        (chain.filter (fun m => m.vertice.isSome)).map
          (fun m => (s.ambiantColor.smul m.ambiant_strength,
                     s.diffuseColor.smul m.diffuse_strength,
                     s.specularColor.smul m.specular_strength, m.color)) := by
  intro chain
  induction chain with
  | nil => intro s; rfl
  | cons m rest ih =>
    intro s
    by_cases hv : m.vertice.isSome
    · simp only [drawMeshWalk, hv, if_true, ite_true, List.filterMap_append,
        List.filterMap_cons, List.filter_cons]
      rw [ih, meshStep_amb, meshStep_dif, meshStep_spec]
      simp [matSetOf]
    · simp only [drawMeshWalk, hv, Bool.false_eq_true, if_false, List.filter_cons]
      exact ih s

theorem drawMeshWalk_noRestore (cfg : Config) (sqrtq : ℚ → ℚ) (sh : SFlags)
    (um : Bool) :
    ∀ (chain : List MeshData) (s : RState),
      (drawMeshWalk cfg sqrtq sh um s chain).2.filter isMatRestore = [] := by
  intro chain
  induction chain with
  | nil => intro s; rfl
  | cons m rest ih =>
    intro s
    by_cases hv : m.vertice.isSome
    · simp only [drawMeshWalk, hv, if_true, ite_true, List.filter_append,
        List.filter_cons]
      rw [ih]
      cases um <;> simp [isMatRestore]
    · simp only [drawMeshWalk, hv, ite_false]
      exact ih s

theorem drawMeshWalk_draws (cfg : Config) (sqrtq : ℚ → ℚ) (sh : SFlags) (um : Bool) :
    ∀ (chain : List MeshData) (s : RState),
      (drawMeshWalk cfg sqrtq sh um s chain).2.filterMap drawOf =
        (chain.filter (fun m => m.vertice.isSome)).map (fun m => (effShader sh m, m)) := by
  intro chain
  induction chain with
  | nil => intro s; rfl
  | cons m rest ih =>
    intro s
    by_cases hv : m.vertice.isSome
    · simp only [drawMeshWalk, hv, if_true, ite_true, List.filterMap_append,
        List.filterMap_cons, List.filter_cons]
      rw [ih]
      cases um <;> simp [drawOf]
    · simp only [drawMeshWalk, hv, Bool.false_eq_true, if_false, List.filter_cons]
      exact ih s

theorem drawMeshWalk_noMat (cfg : Config) (sqrtq : ℚ → ℚ) (sh : SFlags) :
    ∀ (chain : List MeshData) (s : RState),
      (drawMeshWalk cfg sqrtq sh false s chain).2.filterMap matSetOf = [] := by
  intro chain
  induction chain with
  | nil => intro s; rfl
  | cons m rest ih =>
    intro s
    by_cases hv : m.vertice.isSome
    · simp only [drawMeshWalk, hv, if_true, ite_true, List.filterMap_append,
        List.filterMap_cons]
      rw [ih]
      simp [matSetOf]
    · simp only [drawMeshWalk, hv, ite_false]
      exact ih s

/-- C5: with use_mesh_material, the cached material state is overwritten
per processed mesh with exactly that mesh's override (light colors
scaled by the mesh strengths and the mesh color, in chain order), the
material restore event occurs exactly once, after the entire chain (the
walk itself contains no restore), and the state after the call carries
exactly the caller's material products: light colors scaled by the
caller's strengths and the caller's object color. -/
theorem C5_material_restore (cfg : Config) (sqrtq : ℚ → ℚ) (s : RState) (sh : SFlags)
    (chain : List MeshData) (dc : Bool)
    (h1 : imageBad s = false) (h2 : zbufferBad cfg s = false) :
    (drawMesh cfg sqrtq s sh chain true dc).1 = 0 ∧
    (drawMesh cfg sqrtq s sh chain true dc).2.2 =
      (drawMeshWalk cfg sqrtq sh true s (if dc then chain else chain.take 1)).2 ++
        [MEvent.matRestore (s.ambiantColor.smul s.ambiantStrength)
          (s.diffuseColor.smul s.diffuseStrength)
          (s.specularColor.smul s.specularStrength) s.color] ∧
    ((drawMeshWalk cfg sqrtq sh true s (if dc then chain else chain.take 1)).2.filter
      isMatRestore = []) ∧
    ((drawMeshWalk cfg sqrtq sh true s (if dc then chain else chain.take 1)).2.filterMap
        matSetOf =
      ((if dc then chain else chain.take 1).filter (fun m => m.vertice.isSome)).map
        (fun m => (s.ambiantColor.smul m.ambiant_strength,
                   s.diffuseColor.smul m.diffuse_strength,
                   s.specularColor.smul m.specular_strength, m.color))) ∧
    (drawMesh cfg sqrtq s sh chain true dc).2.1.r_ambiantColor =
      s.ambiantColor.smul s.ambiantStrength ∧
    (drawMesh cfg sqrtq s sh chain true dc).2.1.r_diffuseColor =
      s.diffuseColor.smul s.diffuseStrength ∧
    (drawMesh cfg sqrtq s sh chain true dc).2.1.r_specularColor =
      s.specularColor.smul s.specularStrength ∧
    (drawMesh cfg sqrtq s sh chain true dc).2.1.r_objectColor = s.color := by
  have hw := fixedPart_drawMeshWalk cfg sqrtq sh true
    (if dc then chain else chain.take 1) s
  obtain ⟨ha, hd, hsp, hc, has, hds, hss⟩ := matBase_of_fixedPart hw
  unfold drawMesh
  rw [h1, h2]
  simp only [Bool.false_eq_true, if_false, ite_true]
  refine ⟨?_, ?_, ?_, ?_, ?_, ?_, ?_, ?_⟩ <;>
    first
      | exact drawMeshWalk_noRestore cfg sqrtq sh true _ s
      | exact drawMeshWalk_matSets cfg sqrtq sh _ s
      | simp [ha, hd, hsp, hc, has, hds, hss]

/-- C6: the shading downgrade is local to each mesh: the meshes drawn by
a drawMesh call are exactly the chain meshes with a vertex array, in
order, and each is drawn with exactly effShader applied to that mesh
alone: gouraud is disabled for a mesh exactly when that mesh's normal
array is null, texturing exactly when that mesh's texcoord array or
texture image is null, with no influence from any sibling. -/
theorem C6_downgrade_local (cfg : Config) (sqrtq : ℚ → ℚ) (s : RState) (sh : SFlags)
    (chain : List MeshData) (um dc : Bool)
    (h1 : imageBad s = false) (h2 : zbufferBad cfg s = false) :
    (drawMesh cfg sqrtq s sh chain um dc).2.2.filterMap drawOf =
      ((if dc then chain else chain.take 1).filter (fun m => m.vertice.isSome)).map
        (fun m => (effShader sh m, m)) := by
  have hd := drawMeshWalk_draws cfg sqrtq sh um (if dc then chain else chain.take 1) s
  unfold drawMesh
  rw [h1, h2]
  simp only [Bool.false_eq_true, if_false]
  split
  · dsimp only
    rw [List.filterMap_append, hd]
    simp [drawOf]
  · exact hd

/-- A mesh whose normals are missing, for the downgrade witness. -/
def meshN : MeshData where
  vertice := some [⟨0, 0, 0⟩]
  normal := some [⟨0, 0, 1⟩]
  texcoord := none
  face := []
  bounding_box := ⟨0, 0, 0, 0, 0, 0⟩
  color := ⟨1, 1, 1⟩
  ambiant_strength := 1
  diffuse_strength := 1
  specular_strength := 1
  specular_exponent := 0
  texture := none

/-- The same mesh without its normal array. -/
def meshNoN : MeshData := { meshN with normal := none }

/-- A mesh with a null vertex array. -/
def meshNoV : MeshData := { meshN with vertice := none }

/-- Witness for C6: in a 3-mesh chain whose middle mesh lacks normals,
only the middle mesh is drawn flat-shaded; its siblings keep gouraud
shading. -/
theorem C6_witness :
    (drawMesh cfgNZ sq1 sIm ⟨true, false⟩ [meshN, meshNoN, meshN] false true).2.2.filterMap
        drawOf =
      [(⟨true, false⟩, meshN), (⟨false, false⟩, meshNoN), (⟨true, false⟩, meshN)] := by
  rw [C6_downgrade_local cfgNZ sq1 sIm ⟨true, false⟩ [meshN, meshNoN, meshN] false true
    rfl rfl]
  rfl

/-- C10: drawMesh returns 0 even when one or every mesh of the chain has
a null vertex array; such meshes are silently skipped (they are not
drawn and receive no material substitution) while traversal continues,
so the drawn meshes are exactly the chain meshes with vertices. -/
theorem C10_null_vertices_skipped (cfg : Config) (sqrtq : ℚ → ℚ) (s : RState)
    (sh : SFlags) (chain : List MeshData) (um dc : Bool)
    (h1 : imageBad s = false) (h2 : zbufferBad cfg s = false) :
    (drawMesh cfg sqrtq s sh chain um dc).1 = 0 ∧
    ((drawMesh cfg sqrtq s sh chain um dc).2.2.filterMap drawOf).map Prod.snd =
      (if dc then chain else chain.take 1).filter (fun m => m.vertice.isSome) ∧
    ((drawMesh cfg sqrtq s sh chain um dc).2.2.filterMap matSetOf).length =
      (if um then
        (((if dc then chain else chain.take 1).filter (fun m => m.vertice.isSome)).map
          (fun m => (s.ambiantColor.smul m.ambiant_strength,
                     s.diffuseColor.smul m.diffuse_strength,
                     s.specularColor.smul m.specular_strength, m.color))).length
       else 0) := by
  refine ⟨?_, ?_, ?_⟩
  · unfold drawMesh
    rw [h1, h2]
    simp only [Bool.false_eq_true, if_false]
    split <;> rfl
  · rw [C6_downgrade_local cfg sqrtq s sh chain um dc h1 h2, List.map_map]
    exact List.map_id _
  · unfold drawMesh
    rw [h1, h2]
    simp only [Bool.false_eq_true, if_false]
    cases um with
    | true =>
      simp only [ite_true, List.filterMap_append, drawMeshWalk_matSets]
      simp [matSetOf]
    | false =>
      simp only [Bool.false_eq_true, if_false]
      rw [drawMeshWalk_noMat]
      rfl

/-- Witness for C10: a chain in which every mesh has a null vertex array
still returns 0, draws nothing and substitutes no material. -/
theorem C10_witness :
    (drawMesh cfgNZ sq1 sIm ⟨false, false⟩ [meshNoV, meshNoV] true true).1 = 0 ∧
    ((drawMesh cfgNZ sq1 sIm ⟨false, false⟩ [meshNoV, meshNoV] true
        true).2.2.filterMap drawOf).map Prod.snd = [] ∧
    ((drawMesh cfgNZ sq1 sIm ⟨false, false⟩ [meshNoV, meshNoV] true
        true).2.2.filterMap matSetOf).length = 0 := by
  obtain ⟨w1, w2, w3⟩ := C10_null_vertices_skipped cfgNZ sq1 sIm ⟨false, false⟩
    [meshNoV, meshNoV] true true rfl rfl
  exact ⟨w1, by rw [w2]; rfl, by rw [w3]; rfl⟩

/-- Witness for C5: a one-mesh chain drawn with the mesh material on a
state with a valid image and no depth testing. -/
theorem C5_witness :
    (drawMesh cfgNZ sq1 sIm ⟨false, false⟩ [meshN] true true).1 = 0 ∧
    (drawMesh cfgNZ sq1 sIm ⟨false, false⟩ [meshN] true true).2.1.r_objectColor =
      sIm.color ∧
    (drawMeshWalk cfgNZ sq1 ⟨false, false⟩ true sIm
      (if true then [meshN] else [meshN].take 1)).2.filter isMatRestore = [] :=
  ⟨(C5_material_restore cfgNZ sq1 sIm ⟨false, false⟩ [meshN] true rfl rfl).1,
   (C5_material_restore cfgNZ sq1 sIm ⟨false, false⟩ [meshN] true rfl rfl).2.2.2.2.2.2.2,
   (C5_material_restore cfgNZ sq1 sIm ⟨false, false⟩ [meshN] true rfl rfl).2.2.1⟩

/-! Claim C7: the specular power table and its linear-interpolation
evaluator. -/

theorem truncQ_of_nonneg {q : ℚ} (h : 0 ≤ q) : truncQ q = ⌊q⌋ := if_pos h

theorem specTabEntry_base_pos (e : Int) (he : 0 < e) (k : Nat) (hk : k ≤ 15) :
    0 < 1 - ((if (e : ℚ) < 8 then (e : ℚ) else 8) * (k : ℚ)) / ((e : ℚ) * 16) := by
  have he' : (0 : ℚ) < (e : ℚ) := by exact_mod_cast he
  have hk' : (k : ℚ) ≤ 15 := by exact_mod_cast hk
  have hkn : (0 : ℚ) ≤ (k : ℚ) := Nat.cast_nonneg k
  have hb : ((if (e : ℚ) < 8 then (e : ℚ) else 8) * (k : ℚ)) / ((e : ℚ) * 16) < 1 := by
    rw [div_lt_one (by positivity)]
    split_ifs with h8
    · nlinarith
    · push_neg at h8
      nlinarith
  linarith

theorem specTabEntry_nonneg (e : Int) (he : 0 < e) (k : Nat) (hk : k ≤ 15) :
    0 ≤ specTabEntry e k := by
  unfold specTabEntry
  exact le_of_lt (pow_pos (specTabEntry_base_pos e he k hk) _)

theorem specTabEntry_anti (e : Int) (he : 0 < e) {j k : Nat} (hjk : j ≤ k) (hk : k ≤ 15) :
    specTabEntry e k ≤ specTabEntry e j := by
  have he' : (0 : ℚ) < (e : ℚ) := by exact_mod_cast he
  have hjk' : (j : ℚ) ≤ (k : ℚ) := by exact_mod_cast hjk
  have hbb : 0 ≤ (if (e : ℚ) < 8 then (e : ℚ) else 8) := by
    split_ifs <;> linarith
  unfold specTabEntry
  dsimp only
  apply pow_le_pow_left (le_of_lt (specTabEntry_base_pos e he k hk))
  have : ((if (e : ℚ) < 8 then (e : ℚ) else 8) * (j : ℚ)) / ((e : ℚ) * 16) ≤
      ((if (e : ℚ) < 8 then (e : ℚ) else 8) * (k : ℚ)) / ((e : ℚ) * 16) := by
    gcongr
  linarith

theorem interp_le_left (t : Int → ℚ)
    (hm : ∀ i j : Int, 0 ≤ i → i ≤ j → j ≤ 15 → t j ≤ t i)
    {q : ℚ} (hq : 0 ≤ q) (hlt : ⌊q⌋ < 15) :
    t ⌊q⌋ + (q - ((⌊q⌋ : ℤ) : ℚ)) * (t (⌊q⌋ + 1) - t ⌊q⌋) ≤ t ⌊q⌋ := by
  have h1 : (0 : ℚ) ≤ q - ((⌊q⌋ : ℤ) : ℚ) := by
    have := Int.floor_le q
    linarith
  have h2 : t (⌊q⌋ + 1) - t ⌊q⌋ ≤ 0 := by
    have := hm ⌊q⌋ (⌊q⌋ + 1) (Int.floor_nonneg.mpr hq) (by omega) (by omega)
    linarith
  nlinarith

theorem interp_ge_right (t : Int → ℚ)
    (hm : ∀ i j : Int, 0 ≤ i → i ≤ j → j ≤ 15 → t j ≤ t i)
    {q : ℚ} (hq : 0 ≤ q) (hlt : ⌊q⌋ < 15) :
    t (⌊q⌋ + 1) ≤ t ⌊q⌋ + (q - ((⌊q⌋ : ℤ) : ℚ)) * (t (⌊q⌋ + 1) - t ⌊q⌋) := by
  have h1 : q - ((⌊q⌋ : ℤ) : ℚ) < 1 := by
    have := Int.lt_floor_add_one q
    push_cast at this ⊢
    linarith
  have h1' : (0 : ℚ) ≤ q - ((⌊q⌋ : ℤ) : ℚ) := by
    have := Int.floor_le q
    linarith
  have h2 : t (⌊q⌋ + 1) ≤ t ⌊q⌋ :=
    hm ⌊q⌋ (⌊q⌋ + 1) (Int.floor_nonneg.mpr hq) (by omega) (by omega)
  nlinarith

theorem interpF_anti (t : Int → ℚ) (h0 : ∀ i, 0 ≤ t i)
    (hm : ∀ i j : Int, 0 ≤ i → i ≤ j → j ≤ 15 → t j ≤ t i)
    {a b : ℚ} (ha : 0 ≤ a) (hab : a ≤ b) :
    (if 15 ≤ ⌊b⌋ then (0 : ℚ)
     else t ⌊b⌋ + (b - ((⌊b⌋ : ℤ) : ℚ)) * (t (⌊b⌋ + 1) - t ⌊b⌋)) ≤
    (if 15 ≤ ⌊a⌋ then (0 : ℚ)
     else t ⌊a⌋ + (a - ((⌊a⌋ : ℤ) : ℚ)) * (t (⌊a⌋ + 1) - t ⌊a⌋)) := by
  have hfa : 0 ≤ ⌊a⌋ := Int.floor_nonneg.mpr ha
  have hb0 : 0 ≤ b := le_trans ha hab
  have hfab : ⌊a⌋ ≤ ⌊b⌋ := Int.floor_le_floor hab
  split_ifs with hb15 ha15
  · exact le_refl 0
  · exact le_trans (h0 (⌊a⌋ + 1))
      (interp_ge_right t hm ha (by omega))
  · omega
  · rcases eq_or_lt_of_le hfab with heq | hltab
    · rw [← heq]
      have h2 : t (⌊a⌋ + 1) - t ⌊a⌋ ≤ 0 := by
        have := hm ⌊a⌋ (⌊a⌋ + 1) hfa (by omega) (by omega)
        linarith
      nlinarith
    · calc t ⌊b⌋ + (b - ((⌊b⌋ : ℤ) : ℚ)) * (t (⌊b⌋ + 1) - t ⌊b⌋)
          ≤ t ⌊b⌋ := interp_le_left t hm hb0 (by omega)
        _ ≤ t (⌊a⌋ + 1) := hm (⌊a⌋ + 1) ⌊b⌋ (by omega) (by omega) (by omega)
        _ ≤ t ⌊a⌋ + (a - ((⌊a⌋ : ℤ) : ℚ)) * (t (⌊a⌋ + 1) - t ⌊a⌋) :=
          interp_ge_right t hm ha (by omega)

/-- C7: the specular evaluator at input 1 returns the first table entry;
after a rebuild for a positive exponent the evaluator is monotonically
non-increasing as its input decreases from 1 toward 0; a rebuild for
exponent 0 yields an all-zero table and an identically zero evaluator on
the unit interval; and the table is rebuilt only when the requested
exponent differs from the one last built. -/
theorem C7_specular_table :
    (∀ s : RState, _powSpecular s 1 = s.fastpowtab 0) ∧
    (∀ (s : RState) (e : Int), s.currentpow ≠ e → 0 < e → ∀ x y : ℚ,
      0 ≤ x → x ≤ y → y ≤ 1 →
      _powSpecular (_precomputeSpecularTable s e) x ≤
        _powSpecular (_precomputeSpecularTable s e) y) ∧
    (∀ s : RState, s.currentpow ≠ 0 →
      (∀ k, (_precomputeSpecularTable s 0).fastpowtab k = 0) ∧
      (∀ x : ℚ, 0 ≤ x → x ≤ 1 → _powSpecular (_precomputeSpecularTable s 0) x = 0)) ∧
    (∀ (s : RState) (e : Int), s.currentpow = e → _precomputeSpecularTable s e = s) := by
  refine ⟨?_, ?_, ?_, ?_⟩
  · intro s
    show _powSpecular s 1 = s.fastpowtab 0
    unfold _powSpecular truncQ tabAt POWTABSIZE
    norm_num
  · intro s e hne he x y hx hxy hy1
    have he' : (0 : ℚ) < (e : ℚ) := by exact_mod_cast he
    have hbb : (0 : ℚ) < (if (e : ℚ) < 8 then (e : ℚ) else 8) := by
      split_ifs <;> linarith
    have hpf : 0 ≤ (e : ℚ) * 16 / (if (e : ℚ) < 8 then (e : ℚ) else 8) := by
      positivity
    unfold _precomputeSpecularTable
    rw [if_neg hne, if_pos he]
    unfold _powSpecular POWTABSIZE
    dsimp only
    have ha : 0 ≤ (1 - y) * ((e : ℚ) * 16 / (if (e : ℚ) < 8 then (e : ℚ) else 8)) :=
      mul_nonneg (by linarith) hpf
    have hab : (1 - y) * ((e : ℚ) * 16 / (if (e : ℚ) < 8 then (e : ℚ) else 8)) ≤
        (1 - x) * ((e : ℚ) * 16 / (if (e : ℚ) < 8 then (e : ℚ) else 8)) :=
      mul_le_mul_of_nonneg_right (by linarith) hpf
    rw [truncQ_of_nonneg ha, truncQ_of_nonneg (le_trans ha hab)]
    have h0 : ∀ i : Int, 0 ≤ tabAt (fun k => specTabEntry e (k : Nat)) i := by
      intro i
      unfold tabAt
      split
      · rename_i hi
        exact specTabEntry_nonneg e he _ (by omega)
      · exact le_refl 0
    have hmono : ∀ i j : Int, 0 ≤ i → i ≤ j → j ≤ 15 →
        tabAt (fun k => specTabEntry e (k : Nat)) j ≤
          tabAt (fun k => specTabEntry e (k : Nat)) i := by
      intro i j hi hij hj
      unfold tabAt
      rw [dif_pos (by omega : 0 ≤ i ∧ i < 16), dif_pos (by omega : 0 ≤ j ∧ j < 16)]
      show specTabEntry e j.toNat ≤ specTabEntry e i.toNat
      exact specTabEntry_anti e he (by omega) (by omega)
    have hge : ∀ c : ℚ, ((16 : ℤ) - 1 ≤ ⌊c⌋) = (15 ≤ ⌊c⌋) := by
      intro c
      norm_num
    simp only [ge_iff_le, hge]
    exact interpF_anti (tabAt (fun k => specTabEntry e (k : Nat))) h0 hmono ha hab
  · intro s hne
    constructor
    · intro k
      unfold _precomputeSpecularTable
      rw [if_neg hne]
      norm_num
    · intro x hx hx1
      unfold _precomputeSpecularTable
      rw [if_neg hne]
      unfold _powSpecular truncQ tabAt POWTABSIZE
      norm_num
  · intro s e h
    unfold _precomputeSpecularTable
    rw [if_pos h]

/-- Witness for C7: the evaluator built for exponent 2 on the freshly
constructed state is monotone between 0 and 1; rebuilding for exponent 0
zeroes the table; and rebuilding for the current exponent is the
identity. -/
theorem C7_witness :
    (_powSpecular (_precomputeSpecularTable initBase 2) 0 ≤
      _powSpecular (_precomputeSpecularTable initBase 2) 1) ∧
    (∀ k, (_precomputeSpecularTable initBase 0).fastpowtab k = 0) ∧
    _precomputeSpecularTable { initBase with currentpow := 5 } 5 =
      { initBase with currentpow := 5 } := by
  refine ⟨?_, ?_, ?_⟩
  · exact C7_specular_table.2.1 initBase 2 (by norm_num [initBase]) (by norm_num)
      0 1 (le_refl 0) (by norm_num) (le_refl 1)
  · exact (C7_specular_table.2.2.1 initBase (by norm_num [initBase])).1
  · exact C7_specular_table.2.2.2 { initBase with currentpow := 5 } 5 rfl

/-! Claims C2 and C3: geometry of the conservative clip tests.  The key
fact is convexity: when all 8 corners of a bounding box pass the closed
safe-region test _clip2, every point of the box passes the strict
per-vertex test, because each clip condition is a linear inequality
after clearing the positive denominator w. -/

/-- Membership of a point in an axis-aligned box. -/
def inBox (bb : Box3) (v : fVec3) : Prop :=
  bb.xmin ≤ v.x ∧ v.x ≤ bb.xmax ∧ bb.ymin ≤ v.y ∧ v.y ≤ bb.ymax ∧
    bb.zmin ≤ v.z ∧ v.z ≤ bb.zmax

instance (bb : Box3) (v : fVec3) : Decidable (inBox bb v) :=
  inferInstanceAs (Decidable (_ ∧ _))

/-- The 8 corners of a bounding box, in the order the source tests
them. -/
def corners (bb : Box3) : List fVec3 :=
  [⟨bb.xmin, bb.ymin, bb.zmin⟩, ⟨bb.xmin, bb.ymin, bb.zmax⟩,
   ⟨bb.xmin, bb.ymax, bb.zmin⟩, ⟨bb.xmin, bb.ymax, bb.zmax⟩,
   ⟨bb.xmax, bb.ymin, bb.zmin⟩, ⟨bb.xmax, bb.ymin, bb.zmax⟩,
   ⟨bb.xmax, bb.ymax, bb.zmin⟩, ⟨bb.xmax, bb.ymax, bb.zmax⟩]

/-- An affine functional on model space. -/
def aff (a b c d : ℚ) (p : fVec3) : ℚ := a * p.x + b * p.y + c * p.z + d

theorem aff_le_corner (a b c d : ℚ) (bb : Box3) (p : fVec3) (hp : inBox bb p) :
    ∃ q ∈ corners bb, aff a b c d p ≤ aff a b c d q := by
  obtain ⟨h1, h2, h3, h4, h5, h6⟩ := hp
  refine ⟨⟨if 0 ≤ a then bb.xmax else bb.xmin, if 0 ≤ b then bb.ymax else bb.ymin,
           if 0 ≤ c then bb.zmax else bb.zmin⟩, ?_, ?_⟩
  · unfold corners
    split_ifs <;> simp
  · unfold aff
    have hx : a * p.x ≤ a * (if 0 ≤ a then bb.xmax else bb.xmin) := by
      split_ifs with h
      · exact mul_le_mul_of_nonneg_left h2 h
      · push_neg at h
        exact mul_le_mul_of_nonpos_left h1 (le_of_lt h)
    have hy : b * p.y ≤ b * (if 0 ≤ b then bb.ymax else bb.ymin) := by
      split_ifs with h
      · exact mul_le_mul_of_nonneg_left h4 h
      · push_neg at h
        exact mul_le_mul_of_nonpos_left h3 (le_of_lt h)
    have hz : c * p.z ≤ c * (if 0 ≤ c then bb.zmax else bb.zmin) := by
      split_ifs with h
      · exact mul_le_mul_of_nonneg_left h6 h
      · push_neg at h
        exact mul_le_mul_of_nonpos_left h5 (le_of_lt h)
    dsimp only
    linarith

theorem aff_neg_on_box {a b c d : ℚ} {bb : Box3}
    (hc : ∀ q ∈ corners bb, aff a b c d q < 0) {p : fVec3} (hp : inBox bb p) :
    aff a b c d p < 0 := by
  obtain ⟨q, hq, hle⟩ := aff_le_corner a b c d bb p hp
  exact lt_of_le_of_lt hle (hc q hq)

theorem aff_rows (α β γ δ : ℚ) (M : fMat4) (p : fVec3) :
    aff (α * M.m00 + β * M.m10 + γ * M.m20 + δ * M.m30)
        (α * M.m01 + β * M.m11 + γ * M.m21 + δ * M.m31)
        (α * M.m02 + β * M.m12 + γ * M.m22 + δ * M.m32)
        (α * M.m03 + β * M.m13 + γ * M.m23 + δ * M.m33) p =
      α * (M.mult1 p).x + β * (M.mult1 p).y + γ * (M.mult1 p).z + δ * (M.mult1 p).w := by
  unfold aff fMat4.mult1 fMat4.mulVec
  dsimp only
  ring

theorem mult1_mul (A B : fMat4) (p : fVec3) :
    (A.mul B).mult1 p = A.mulVec (B.mult1 p) := by
  unfold fMat4.mul fMat4.mult1 fMat4.mulVec
  dsimp only
  rw [fVec4.mk.injEq]
  refine ⟨by ring, by ring, by ring, by ring⟩

theorem clip2_false_elim {cb : ℚ} {q : fVec3} {M : fMat4}
    (h : _clip2 false cb q M = false) :
    0 < (M.mult1 q).w ∧
    -cb * (M.mult1 q).w < (M.mult1 q).x ∧ (M.mult1 q).x < cb * (M.mult1 q).w ∧
    -cb * (M.mult1 q).w < (M.mult1 q).y ∧ (M.mult1 q).y < cb * (M.mult1 q).w ∧
    -(M.mult1 q).w < (M.mult1 q).z ∧ (M.mult1 q).z < (M.mult1 q).w := by
  unfold _clip2 at h
  simp only [Bool.false_eq_true, if_false] at h
  by_cases hw : ((M.mult1 q).zdivide).w ≤ 0
  · exfalso
    rw [if_pos hw] at h
    simp only [fVec4.zdivide] at h
    norm_num at h
  · rw [if_neg hw] at h
    have hw' : 0 < (M.mult1 q).w := by
      simp only [fVec4.zdivide] at hw
      exact lt_of_not_le hw
    simp only [fVec4.zdivide, Bool.or_eq_false_iff, decide_eq_false_iff_not, not_le,
      not_lt, ge_iff_le] at h
    obtain ⟨⟨⟨⟨⟨hx1, hx2⟩, hy1⟩, hy2⟩, hz1⟩, hz2⟩ := h
    refine ⟨hw', ?_, ?_, ?_, ?_, ?_, ?_⟩
    · have := (lt_div_iff hw').mp hx1
      linarith
    · have := (div_lt_iff hw').mp hx2
      linarith
    · have := (lt_div_iff hw').mp hy1
      linarith
    · have := (div_lt_iff hw').mp hy2
      linarith
    · have := (lt_div_iff hw').mp hz1
      linarith
    · have := (div_lt_iff hw').mp hz2
      linarith

theorem clip2_box {cb : ℚ} {bb : Box3} {M : fMat4}
    (hc : ∀ q ∈ corners bb, _clip2 false cb q M = false)
    {p : fVec3} (hp : inBox bb p) :
    0 < (M.mult1 p).w ∧
    -cb * (M.mult1 p).w < (M.mult1 p).x ∧ (M.mult1 p).x < cb * (M.mult1 p).w ∧
    -cb * (M.mult1 p).w < (M.mult1 p).y ∧ (M.mult1 p).y < cb * (M.mult1 p).w ∧
    -(M.mult1 p).w < (M.mult1 p).z ∧ (M.mult1 p).z < (M.mult1 p).w := by
  have key : ∀ α β γ δ : ℚ,
      (∀ q, 0 < (M.mult1 q).w →
        -cb * (M.mult1 q).w < (M.mult1 q).x → (M.mult1 q).x < cb * (M.mult1 q).w →
        -cb * (M.mult1 q).w < (M.mult1 q).y → (M.mult1 q).y < cb * (M.mult1 q).w →
        -(M.mult1 q).w < (M.mult1 q).z → (M.mult1 q).z < (M.mult1 q).w →
        α * (M.mult1 q).x + β * (M.mult1 q).y + γ * (M.mult1 q).z +
          δ * (M.mult1 q).w < 0) →
      α * (M.mult1 p).x + β * (M.mult1 p).y + γ * (M.mult1 p).z +
        δ * (M.mult1 p).w < 0 := by
    intro α β γ δ hall
    have hcor : ∀ q ∈ corners bb,
        aff (α * M.m00 + β * M.m10 + γ * M.m20 + δ * M.m30)
            (α * M.m01 + β * M.m11 + γ * M.m21 + δ * M.m31)
            (α * M.m02 + β * M.m12 + γ * M.m22 + δ * M.m32)
            (α * M.m03 + β * M.m13 + γ * M.m23 + δ * M.m33) q < 0 := by
      intro q hq
      rw [aff_rows]
      obtain ⟨e1, e2, e3, e4, e5, e6, e7⟩ := clip2_false_elim (hc q hq)
      exact hall q e1 e2 e3 e4 e5 e6 e7
    have := aff_neg_on_box hcor hp
    rw [aff_rows] at this
    exact this
  refine ⟨?_, ?_, ?_, ?_, ?_, ?_, ?_⟩
  · have := key 0 0 0 (-1) (by intro q e1 e2 e3 e4 e5 e6 e7; nlinarith)
    nlinarith
  · have := key (-1) 0 0 (-cb) (by intro q e1 e2 e3 e4 e5 e6 e7; nlinarith)
    nlinarith
  · have := key 1 0 0 (-cb) (by intro q e1 e2 e3 e4 e5 e6 e7; nlinarith)
    nlinarith
  · have := key 0 (-1) 0 (-cb) (by intro q e1 e2 e3 e4 e5 e6 e7; nlinarith)
    nlinarith
  · have := key 0 1 0 (-cb) (by intro q e1 e2 e3 e4 e5 e6 e7; nlinarith)
    nlinarith
  · have := key 0 0 (-1) (-1) (by intro q e1 e2 e3 e4 e5 e6 e7; nlinarith)
    nlinarith
  · have := key 0 0 1 (-1) (by intro q e1 e2 e3 e4 e5 e6 e7; nlinarith)
    nlinarith

theorem clipTestNeeded_corners {o : Bool} {cb : ℚ} {bb : Box3} {M : fMat4}
    (h : _clipTestNeeded o cb bb M = false) :
    ∀ q ∈ corners bb, _clip2 o cb q M = false := by
  unfold _clipTestNeeded at h
  simp only [Bool.or_eq_false_iff] at h
  intro q hq
  unfold corners at hq
  simp only [List.mem_cons, List.not_mem_nil, or_false] at hq
  rcases hq with rfl | rfl | rfl | rfl | rfl | rfl | rfl | rfl <;> tauto

theorem vertClip_false_of_box {cfg : Config} {projM mv : fMat4} {bb : Box3}
    (ho : cfg.ortho = false)
    (hrow : projM.m30 = 0 ∧ projM.m31 = 0 ∧ projM.m32 = -1 ∧ projM.m33 = 0)
    (hc : ∀ q ∈ corners bb, _clip2 false (clipboundXY cfg) q (projM.mul mv) = false)
    {p : fVec3} (hp : inBox bb p) :
    vertNeedsClip cfg.ortho projM (clipboundXY cfg) (mv.mult1 p) = false ∧
    (mv.mult1 p).z < 0 := by
  obtain ⟨hw0, hx1, hx2, hy1, hy2, hz1, hz2⟩ := clip2_box hc hp
  rw [mult1_mul] at hw0 hx1 hx2 hy1 hy2 hz1 hz2
  have hwz : (projM.mulVec (mv.mult1 p)).w = -(mv.mult1 p).z := by
    unfold fMat4.mulVec
    dsimp only
    rw [hrow.1, hrow.2.1, hrow.2.2.1, hrow.2.2.2]
    ring
  have hz0 : (mv.mult1 p).z < 0 := by
    rw [hwz] at hw0
    linarith
  refine ⟨?_, hz0⟩
  rw [ho]
  unfold vertNeedsClip projectVert
  simp only [Bool.false_eq_true, if_false, fVec4.zdivide, Bool.or_eq_false_iff,
    decide_eq_false_iff_not, not_le, not_lt, ge_iff_le, gt_iff_lt]
  have hwp : 0 < (projM.mulVec (mv.mult1 p)).w := by
    rw [hwz]
    linarith
  refine ⟨⟨⟨⟨⟨⟨by linarith, ?_⟩, ?_⟩, ?_⟩, ?_⟩, ?_⟩, ?_⟩
  · rw [le_div_iff hwp]
    linarith
  · rw [div_le_iff hwp]
    linarith
  · rw [le_div_iff hwp]
    linarith
  · rw [div_le_iff hwp]
    linarith
  · rw [le_div_iff hwp]
    linarith
  · rw [div_le_iff hwp]
    linarith

/-! Invariants of the slot bank of the mesh walker: the three pointers
stay a permutation of the three physical slots, and once the header has
run every slot holds the view-space image of some mesh vertex. -/

theorem Slots.p_set (sl : Slots) (k : Fin 3) (v : ExtV) :
    (sl.set k v).p0 = sl.p0 ∧ (sl.set k v).p1 = sl.p1 ∧ (sl.set k v).p2 = sl.p2 := by
  rcases k with ⟨(_ | _ | _ | k), hk⟩
  · exact ⟨rfl, rfl, rfl⟩
  · exact ⟨rfl, rfl, rfl⟩
  · exact ⟨rfl, rfl, rfl⟩
  · omega

theorem Slots.p0_set (sl : Slots) (k : Fin 3) (v : ExtV) : (sl.set k v).p0 = sl.p0 :=
  (Slots.p_set sl k v).1

theorem Slots.p1_set (sl : Slots) (k : Fin 3) (v : ExtV) : (sl.set k v).p1 = sl.p1 :=
  (Slots.p_set sl k v).2.1

theorem Slots.p2_set (sl : Slots) (k : Fin 3) (v : ExtV) : (sl.set k v).p2 = sl.p2 :=
  (Slots.p_set sl k v).2.2

theorem Slots.get_set (sl : Slots) (k : Fin 3) (v : ExtV) (i : Fin 3) :
    (sl.set k v).get i = if i = k then v else sl.get i := by
  rcases k with ⟨(_ | _ | _ | k), hk⟩ <;> rcases i with ⟨(_ | _ | _ | i), hi⟩ <;>
    first
      | omega
      | simp [Slots.set, Slots.get, Fin.ext_iff]

theorem Slots.get_swap (sl : Slots) (t : Bool) (i : Fin 3) :
    (sl.swapWith2 t).get i = sl.get i := by
  unfold Slots.swapWith2
  split_ifs <;> rcases i with ⟨(_ | _ | _ | i), hi⟩ <;> first | rfl | omega

/-- The three pointers address pairwise distinct physical slots. -/
def PermOK (sl : Slots) : Prop := sl.p0 ≠ sl.p1 ∧ sl.p0 ≠ sl.p2 ∧ sl.p1 ≠ sl.p2

/-- Every physical slot holds the model-view image of some mesh
vertex. -/
def SlotsInv (mv : fMat4) (verts : List fVec3) (sl : Slots) : Prop :=
  ∀ i : Fin 3, ∃ j : Nat, (sl.get i).P = mv.mult1 (vAt verts j)

theorem fin3_cover (i : Fin 3) {q0 q1 q2 : Fin 3}
    (h01 : q0 ≠ q1) (h02 : q0 ≠ q2) (h12 : q1 ≠ q2) :
    i = q0 ∨ i = q1 ∨ i = q2 := by
  rcases q0 with ⟨a, ha⟩
  rcases q1 with ⟨b, hb⟩
  rcases q2 with ⟨c, hc⟩
  rcases i with ⟨d, hd⟩
  simp only [ne_eq, Fin.mk.injEq] at h01 h02 h12 ⊢
  omega

theorem PermOK_swap {sl : Slots} (t : Bool) (h : PermOK sl) : PermOK (sl.swapWith2 t) := by
  obtain ⟨h1, h2, h3⟩ := h
  unfold Slots.swapWith2
  split_ifs
  · exact ⟨Ne.symm h3, Ne.symm h2, Ne.symm h1⟩
  · exact ⟨h2, h1, Ne.symm h3⟩

theorem PermOK_set {sl : Slots} (k : Fin 3) (v : ExtV) (h : PermOK sl) :
    PermOK (sl.set k v) := by
  obtain ⟨h1, h2, h3⟩ := h
  obtain ⟨hp0, hp1, hp2⟩ := Slots.p_set sl k v
  exact ⟨by rw [hp0, hp1]; exact h1, by rw [hp0, hp2]; exact h2, by rw [hp1, hp2]; exact h3⟩

theorem permInitSlots : PermOK initSlots := by
  refine ⟨?_, ?_, ?_⟩ <;> decide

/-- Writing through the three pointers changes no pointer and, when the
written records keep the pointed-to view-space positions, no position
either. -/
theorem tripleWrite_P (sl : Slots) (a b c : ExtV)
    (ha : a.P = sl.pc0.P) (hb : b.P = sl.pc1.P) (hc : c.P = sl.pc2.P) :
    (∀ i : Fin 3, ((((sl.setPc0 a).setPc1 b).setPc2 c).get i).P = (sl.get i).P) ∧
    (((sl.setPc0 a).setPc1 b).setPc2 c).p0 = sl.p0 ∧
    (((sl.setPc0 a).setPc1 b).setPc2 c).p1 = sl.p1 ∧
    (((sl.setPc0 a).setPc1 b).setPc2 c).p2 = sl.p2 := by
  refine ⟨fun i => ?_, ?_, ?_, ?_⟩
  · simp only [Slots.setPc0, Slots.setPc1, Slots.setPc2, Slots.p0_set, Slots.p1_set,
      Slots.p2_set, Slots.get_set]
    split_ifs with g1 g2 g3
    · rw [hc, g1]
      exact rfl
    · rw [hb, g2]
      exact rfl
    · rw [ha, g3]
      exact rfl
    · rfl
  · simp only [Slots.setPc0, Slots.setPc1, Slots.setPc2, Slots.p0_set, Slots.p1_set,
      Slots.p2_set]
  · simp only [Slots.setPc0, Slots.setPc1, Slots.setPc2, Slots.p0_set, Slots.p1_set,
      Slots.p2_set]
  · simp only [Slots.setPc0, Slots.setPc1, Slots.setPc2, Slots.p0_set, Slots.p1_set,
      Slots.p2_set]

set_option maxHeartbeats 3200000 in
/-- The per-triangle walker step never moves the pointers and never
changes the view-space position held in any physical slot. -/
theorem meshTriangle_P (cfg : Config) (sqrtq : ℚ → ℚ) (rt : SFlags) (ct : Bool)
    (tn : List fVec3) (tt : List fVec2) (s : RState) (fc : RGBf) (sl : Slots) :
    (∀ i : Fin 3,
      (((_meshTriangle cfg sqrtq rt ct tn tt s fc sl).2.1).get i).P = (sl.get i).P) ∧
    ((_meshTriangle cfg sqrtq rt ct tn tt s fc sl).2.1).p0 = sl.p0 ∧
    ((_meshTriangle cfg sqrtq rt ct tn tt s fc sl).2.1).p1 = sl.p1 ∧
    ((_meshTriangle cfg sqrtq rt ct tn tt s fc sl).2.1).p2 = sl.p2 := by
  unfold _meshTriangle
  dsimp only
  split
  · split
    · exact ⟨fun i => rfl, rfl, rfl, rfl⟩
    · split
      · exact tripleWrite_P sl _ _ _ (by simp only [apply_ite ExtV.P, ite_self])
          (by simp only [apply_ite ExtV.P, ite_self]) rfl
      · exact tripleWrite_P sl _ _ _ (by simp only [apply_ite ExtV.P, ite_self])
          (by simp only [apply_ite ExtV.P, ite_self])
          (by simp only [apply_ite ExtV.P, ite_self])
  · split
    · exact ⟨fun i => rfl, rfl, rfl, rfl⟩
    · split
      · exact tripleWrite_P sl _ _ _ (by simp only [apply_ite ExtV.P, ite_self])
          (by simp only [apply_ite ExtV.P, ite_self]) rfl
      · exact tripleWrite_P sl _ _ _ (by simp only [apply_ite ExtV.P, ite_self])
          (by simp only [apply_ite ExtV.P, ite_self])
          (by simp only [apply_ite ExtV.P, ite_self])

theorem meshTriangle_inv {mv : fMat4} {verts : List fVec3} (cfg : Config) (sqrtq : ℚ → ℚ)
    (rt : SFlags) (ct : Bool) (tn : List fVec3) (tt : List fVec2) (s : RState) (fc : RGBf)
    {sl : Slots} (hperm : PermOK sl) (hinv : SlotsInv mv verts sl) :
    PermOK ((_meshTriangle cfg sqrtq rt ct tn tt s fc sl).2.1) ∧
    SlotsInv mv verts ((_meshTriangle cfg sqrtq rt ct tn tt s fc sl).2.1) := by
  obtain ⟨hP, h0, h1, h2⟩ := meshTriangle_P cfg sqrtq rt ct tn tt s fc sl
  refine ⟨⟨?_, ?_, ?_⟩, ?_⟩
  · rw [h0, h1]
    exact hperm.1
  · rw [h0, h2]
    exact hperm.2.1
  · rw [h1, h2]
    exact hperm.2.2
  · intro i
    obtain ⟨j, hj⟩ := hinv i
    exact ⟨j, by rw [hP i, hj]⟩

theorem meshChainStep_inv (rt : SFlags) (hT hN : Bool) (mv : fMat4) (verts : List fVec3)
    {sl : Slots} (face : List Nat) (hperm : PermOK sl) (hinv : SlotsInv mv verts sl) :
    PermOK ((_meshChainStep rt hT hN mv verts sl face).1) ∧
    SlotsInv mv verts ((_meshChainStep rt hT hN mv verts sl face).1) := by
  unfold _meshChainStep
  dsimp only
  constructor
  · exact PermOK_set _ _ (PermOK_swap _ hperm)
  · intro i
    rw [Slots.setPc2, Slots.get_set]
    by_cases hi : i = (sl.swapWith2 (decide ((face.headD 0 &&& 32768) ≠ 0))).p2
    · rw [if_pos hi]
      exact ⟨face.headD 0 &&& 32767, rfl⟩
    · rw [if_neg hi, Slots.get_swap]
      exact hinv i

theorem meshHeader_inv (rt : SFlags) (hT hN : Bool) (mv : fMat4) (verts : List fVec3)
    {sl : Slots} (face : List Nat) (hperm : PermOK sl) :
    PermOK ((_meshHeader rt hT hN mv verts sl face).1) ∧
    SlotsInv mv verts ((_meshHeader rt hT hN mv verts sl face).1) := by
  unfold _meshHeader
  dsimp only
  constructor
  · exact PermOK_set _ _ (PermOK_set _ _ (PermOK_set _ _ hperm))
  · intro i
    simp only [Slots.setPc0, Slots.setPc1, Slots.setPc2, Slots.pc0, Slots.pc1, Slots.pc2,
      Slots.p0_set, Slots.p1_set, Slots.p2_set, Slots.get_set]
    rcases fin3_cover i hperm.1 hperm.2.1 hperm.2.2 with hi | hi | hi
    · rw [if_neg (by rw [hi]; exact hperm.2.1), if_neg (by rw [hi]; exact hperm.1),
        if_pos hi]
      exact ⟨_, rfl⟩
    · rw [if_neg (by rw [hi]; exact hperm.2.2), if_pos hi]
      exact ⟨_, rfl⟩
    · rw [if_pos hi]
      exact ⟨_, rfl⟩

theorem meshChain_inv (cfg : Config) (sqrtq : ℚ → ℚ) (rt : SFlags) (ct : Bool)
    (hT hN : Bool) (verts tn : List fVec3) (tt : List fVec2) (s : RState) :
    ∀ (n : Nat) (fc : RGBf) (sl : Slots) (face : List Nat), PermOK sl →
      SlotsInv s.r_modelViewM verts sl →
      PermOK ((_meshChain cfg sqrtq rt ct hT hN verts tn tt s fc sl face n).2.1) ∧
      SlotsInv s.r_modelViewM verts
        ((_meshChain cfg sqrtq rt ct hT hN verts tn tt s fc sl face n).2.1) := by
  intro n
  induction n with
  | zero => exact fun fc sl face hperm hinv => ⟨hperm, hinv⟩
  | succ n ih =>
    intro fc sl face hperm hinv
    cases n with
    | zero => exact meshTriangle_inv cfg sqrtq rt ct tn tt s fc hperm hinv
    | succ m =>
      have hmt := meshTriangle_inv cfg sqrtq rt ct tn tt s fc hperm hinv
      have hcs := meshChainStep_inv rt hT hN s.r_modelViewM verts face hmt.1 hmt.2
      exact ih _ _ _ hcs.1 hcs.2

/-! Equivalence of the clip-test-skipping walk with the always-testing
walk when the whole bounding box projects inside the safe region. -/

theorem triNeedsClip_false {cfg : Config} {s : RState} {verts : List fVec3} {sl : Slots}
    (hinv : SlotsInv s.r_modelViewM verts sl)
    (HC : ∀ j : Nat, vertNeedsClip cfg.ortho s.projM (clipboundXY cfg)
            (s.r_modelViewM.mult1 (vAt verts j)) = false) :
    triNeedsClip cfg s.projM sl = false := by
  unfold triNeedsClip
  obtain ⟨j0, h0⟩ := hinv sl.p0
  obtain ⟨j1, h1⟩ := hinv sl.p1
  obtain ⟨j2, h2⟩ := hinv sl.p2
  simp only [Slots.pc0, Slots.pc1, Slots.pc2]
  rw [h0, h1, h2, HC j0, HC j1, HC j2]
  simp

/-- When the current triangle does not need clipping, running the
per-triangle step with the clip test enabled or disabled makes no
difference. -/
theorem meshTriangle_ct {cfg : Config} {s : RState} {sl : Slots} (sqrtq : ℚ → ℚ)
    (rt : SFlags) (tn : List fVec3) (tt : List fVec2) (fc : RGBf)
    (h : triNeedsClip cfg s.projM sl = false) (ct : Bool) :
    _meshTriangle cfg sqrtq rt ct tn tt s fc sl =
      _meshTriangle cfg sqrtq rt true tn tt s fc sl := by
  unfold _meshTriangle
  rw [h]
  simp only [Bool.and_false]

theorem meshChain_ct {cfg : Config} {s : RState} (sqrtq : ℚ → ℚ) (rt : SFlags)
    (hT hN : Bool) (verts tn : List fVec3) (tt : List fVec2)
    (HC : ∀ j : Nat, vertNeedsClip cfg.ortho s.projM (clipboundXY cfg)
            (s.r_modelViewM.mult1 (vAt verts j)) = false) :
    ∀ (n : Nat) (fc : RGBf) (sl : Slots) (face : List Nat), PermOK sl →
      SlotsInv s.r_modelViewM verts sl →
      _meshChain cfg sqrtq rt false hT hN verts tn tt s fc sl face n =
        _meshChain cfg sqrtq rt true hT hN verts tn tt s fc sl face n := by
  intro n
  induction n with
  | zero => exact fun fc sl face _ _ => rfl
  | succ n ih =>
    intro fc sl face hperm hinv
    cases n with
    | zero =>
      unfold _meshChain
      rw [meshTriangle_ct sqrtq rt tn tt fc (triNeedsClip_false hinv HC) false]
    | succ m =>
      unfold _meshChain
      dsimp only
      rw [meshTriangle_ct sqrtq rt tn tt fc (triNeedsClip_false hinv HC) false]
      have hmt := meshTriangle_inv cfg sqrtq rt true tn tt s fc hperm hinv
      have hcs := meshChainStep_inv rt hT hN s.r_modelViewM verts face hmt.1 hmt.2
      rw [ih _ _ _ hcs.1 hcs.2]

theorem meshLoop_ct {cfg : Config} {s : RState} (sqrtq : ℚ → ℚ) (rt : SFlags)
    (hT hN : Bool) (verts tn : List fVec3) (tt : List fVec2)
    (HC : ∀ j : Nat, vertNeedsClip cfg.ortho s.projM (clipboundXY cfg)
            (s.r_modelViewM.mult1 (vAt verts j)) = false) :
    ∀ (fuel : Nat) (fc : RGBf) (sl : Slots) (face : List Nat), PermOK sl →
      _meshLoop cfg sqrtq rt false hT hN verts tn tt s fuel fc sl face =
        _meshLoop cfg sqrtq rt true hT hN verts tn tt s fuel fc sl face := by
  intro fuel
  induction fuel with
  | zero => exact fun fc sl face _ => rfl
  | succ fuel ih =>
    intro fc sl face hperm
    unfold _meshLoop
    dsimp only
    by_cases hn : face.headD 0 = 0
    · rw [if_pos hn]
      rw [if_pos hn]
    · rw [if_neg hn, if_neg hn]
      have hh := meshHeader_inv rt hT hN s.r_modelViewM verts face.tail hperm
      rw [meshChain_ct sqrtq rt hT hN verts tn tt HC _ _ _ _ hh.1 hh.2]
      have hch := meshChain_inv cfg sqrtq rt true hT hN verts tn tt s
        (face.headD 0) fc (_meshHeader rt hT hN s.r_modelViewM verts sl face.tail).1
        (_meshHeader rt hT hN s.r_modelViewM verts sl face.tail).2 hh.1 hh.2
      rw [ih _ _ _ hch.1]

/-- Every mesh vertex index yields a point of the bounding box, since
out-of-range indices read the default origin, which the box also
contains in the counterexample-free regime. -/
theorem vAt_inBox {bb : Box3} {l : List fVec3} (hverts : ∀ v ∈ l, inBox bb v)
    (hzero : inBox bb ⟨0, 0, 0⟩) (j : Nat) : inBox bb (vAt l j) := by
  unfold vAt
  by_cases hj : j < l.length
  · rw [List.getD_eq_getElem l _ hj]
    exact hverts _ (List.getElem_mem hj)
  · rw [List.getD_eq_default l _ (Nat.le_of_not_lt hj)]
    exact hzero

/-- When the 8-corner test says no clipping is needed, a perspective
projection whose fourth row is (0 0 -1 0) clips no vertex of the
bounding box, so the walk body behaves as if the per-triangle clip test
were always run. -/
theorem drawMeshBody_ct {cfg : Config} (sqrtq : ℚ → ℚ) (rt : SFlags) {s : RState}
    {m : MeshData} (ho : cfg.ortho = false)
    (hrow : s.projM.m30 = 0 ∧ s.projM.m31 = 0 ∧ s.projM.m32 = -1 ∧ s.projM.m33 = 0)
    (hverts : ∀ v ∈ m.vertice.getD [], inBox m.bounding_box v)
    (hzero : inBox m.bounding_box ⟨0, 0, 0⟩)
    (hctn : _clipTestNeeded cfg.ortho (clipboundXY cfg) m.bounding_box
              (s.projM.mul s.r_modelViewM) = false) (ct : Bool) :
    _drawMeshBody cfg sqrtq rt ct s m = _drawMeshBody cfg sqrtq rt true s m := by
  have HC : ∀ j : Nat, vertNeedsClip cfg.ortho s.projM (clipboundXY cfg)
      (s.r_modelViewM.mult1 (vAt (m.vertice.getD []) j)) = false := by
    intro j
    rw [ho] at hctn
    have hcor := clipTestNeeded_corners hctn
    exact (vertClip_false_of_box ho hrow hcor (vAt_inBox hverts hzero j)).1
  have HC1 : ∀ j : Nat, vertNeedsClip cfg.ortho ({ s with uni_tex := m.texture } : RState).projM
      (clipboundXY cfg)
      (({ s with uni_tex := m.texture } : RState).r_modelViewM.mult1
        (vAt (m.vertice.getD []) j)) = false := HC
  cases ct
  · unfold _drawMeshBody
    dsimp only
    rw [meshLoop_ct sqrtq rt m.texcoord.isSome m.normal.isSome (m.vertice.getD [])
      (m.normal.getD []) (m.texcoord.getD []) HC1 _ _ _ _ permInitSlots]
  · rfl

/-- For a perspective projection with fourth row (0 0 -1 0) and a mesh
whose vertices all lie in its bounding box (a box that also contains the
origin, covering out-of-range face indices), skipping the per-triangle
clip test after a negative 8-corner test is observationally identical to
always testing. -/
theorem drawMesh_alwaysClip_eq {cfg : Config} (sqrtq : ℚ → ℚ) (rt : SFlags) {s : RState}
    {m : MeshData} (ho : cfg.ortho = false)
    (hrow : s.projM.m30 = 0 ∧ s.projM.m31 = 0 ∧ s.projM.m32 = -1 ∧ s.projM.m33 = 0)
    (hverts : ∀ v ∈ m.vertice.getD [], inBox m.bounding_box v)
    (hzero : inBox m.bounding_box ⟨0, 0, 0⟩) :
    _drawMesh cfg sqrtq rt s m = _drawMeshAlwaysClip cfg sqrtq rt s m := by
  unfold _drawMesh _drawMeshAlwaysClip
  dsimp only
  by_cases hd : _discard cfg s m.bounding_box (s.projM.mul s.r_modelViewM) = true
  · rw [if_pos hd]
    rw [if_pos hd]
  · rw [if_neg hd, if_neg hd]
    cases hct : _clipTestNeeded cfg.ortho (clipboundXY cfg) m.bounding_box
        (s.projM.mul s.r_modelViewM)
    · exact drawMeshBody_ct sqrtq rt ho hrow hverts hzero hct false
    · rfl

/-- Perspective projection of the clip counterexamples and witnesses:
identity on x and y, depth row (0 0 1 4), fourth row (0 0 -1 0). -/
def cexProj : fMat4 := ⟨1, 0, 0, 0, 0, 1, 0, 0, 0, 0, 1, 4, 0, 0, -1, 0⟩

/-- Model-view matrix of the clip counterexamples: translate z by -5. -/
def cexMV : fMat4 := ⟨1, 0, 0, 0, 0, 1, 0, 0, 0, 0, 1, -5, 0, 0, 0, 1⟩

/-- Renderer state of the clip counterexamples: valid image, culling
disabled, the matrices above in the caches the mesh walker reads. -/
def cexState : RState :=
  { initBase with im := some imTest, projM := cexProj, r_modelViewM := cexMV,
                  culling_dir := 0 }

/-- A mesh whose bounding box is all zeros (the "not computed" marker)
while its real vertices sit at view-space z = +1, behind the eye. -/
def cexMesh : MeshData where
  vertice := some [⟨0, 0, 6⟩, ⟨1, 0, 6⟩, ⟨0, 1, 6⟩]
  normal := none
  texcoord := none
  face := [1, 0, 1, 2, 0]
  bounding_box := ⟨0, 0, 0, 0, 0, 0⟩
  color := ⟨1, 1, 1⟩
  ambiant_strength := 1
  diffuse_strength := 1
  specular_strength := 1
  specular_exponent := 8
  texture := none

/-- A mesh with an honest bounding box: the same face stream over
vertices that all lie inside the declared box. -/
def wMesh : MeshData :=
  { cexMesh with vertice := some [⟨0, 0, 0⟩, ⟨1, 0, 0⟩, ⟨0, 1, 0⟩],
                 bounding_box := ⟨0, 1, 0, 1, 0, 0⟩ }

/-! Claim C2: no triangle whose three vertices all sit at view-space
z at least 0 is ever handed to the rasterizer. -/

/-- All three vertex records of a submission have nonnegative view-space
z: the whole triangle is behind the eye. -/
def subBehind (sub : Submission) : Prop :=
  0 ≤ sub.a.P.z ∧ 0 ≤ sub.b.P.z ∧ 0 ≤ sub.c.P.z

instance (sub : Submission) : Decidable (subBehind sub) :=
  inferInstanceAs (Decidable (_ ∧ _))

/-- A vertex that passes the per-vertex clip test has negative
view-space z. -/
theorem vertNeedsClip_z {o : Bool} {M : fMat4} {cb : ℚ} {P : fVec4}
    (h : vertNeedsClip o M cb P = false) : P.z < 0 := by
  unfold vertNeedsClip at h
  simp only [Bool.or_eq_false_iff, decide_eq_false_iff_not, ge_iff_le, not_le] at h
  exact h.1.1.1.1.1.1

theorem drawTriangle_notBehind (cfg : Config) (sqrtq : ℚ → ℚ) (s : RState) (rt : SFlags)
    (P0 P1 P2 : fVec3) (N0 N1 N2 : Option fVec3) (T0 T1 T2 : Option fVec2) :
    ∀ sub ∈ (_drawTriangle cfg sqrtq s rt P0 P1 P2 N0 N1 N2 T0 T1 T2).2,
      ¬ subBehind sub := by
  intro sub hsub hb
  unfold _drawTriangle at hsub
  dsimp only at hsub
  by_cases hcull : cullDiscard cfg.ortho s.r_modelViewM s.culling_dir P0 P1 P2
  · rw [if_pos hcull] at hsub
    simp at hsub
  · rw [if_neg hcull] at hsub
    by_cases hclip : (vertNeedsClip cfg.ortho s.projM (clipboundXY cfg)
          (s.r_modelViewM.mult1 P0) ||
        vertNeedsClip cfg.ortho s.projM (clipboundXY cfg) (s.r_modelViewM.mult1 P1) ||
        vertNeedsClip cfg.ortho s.projM (clipboundXY cfg) (s.r_modelViewM.mult1 P2)) = true
    · rw [if_pos hclip] at hsub
      simp at hsub
    · rw [if_neg hclip] at hsub
      simp only [Bool.or_eq_true, not_or, Bool.not_eq_true] at hclip
      have hz0 := vertNeedsClip_z hclip.1.1
      by_cases hg : rt.gouraud = true
      · rw [if_pos hg] at hsub
        dsimp only at hsub
        simp only [List.mem_singleton] at hsub
        subst hsub
        exact absurd hb.1 (not_le.mpr hz0)
      · rw [if_neg hg] at hsub
        dsimp only at hsub
        simp only [List.mem_singleton] at hsub
        subst hsub
        exact absurd hb.1 (not_le.mpr hz0)

theorem drawQuad_notBehind (cfg : Config) (sqrtq : ℚ → ℚ) (s : RState) (rt : SFlags)
    (P0 P1 P2 P3 : fVec3) (N0 N1 N2 N3 : Option fVec3) (T0 T1 T2 T3 : Option fVec2) :
    ∀ sub ∈ (_drawQuad cfg sqrtq s rt P0 P1 P2 P3 N0 N1 N2 N3 T0 T1 T2 T3).2,
      ¬ subBehind sub := by
  intro sub hsub hb
  unfold _drawQuad at hsub
  dsimp only at hsub
  by_cases hcull : cullDiscard cfg.ortho s.r_modelViewM s.culling_dir P0 P1 P2
  · rw [if_pos hcull] at hsub
    simp at hsub
  · rw [if_neg hcull] at hsub
    by_cases hclip : (vertNeedsClip cfg.ortho s.projM (clipboundXY cfg)
          (s.r_modelViewM.mult1 P0) ||
        vertNeedsClip cfg.ortho s.projM (clipboundXY cfg) (s.r_modelViewM.mult1 P1) ||
        vertNeedsClip cfg.ortho s.projM (clipboundXY cfg) (s.r_modelViewM.mult1 P2) ||
        vertNeedsClip cfg.ortho s.projM (clipboundXY cfg) (s.r_modelViewM.mult1 P3)) = true
    · rw [if_pos hclip] at hsub
      simp at hsub
    · rw [if_neg hclip] at hsub
      simp only [Bool.or_eq_true, not_or, Bool.not_eq_true] at hclip
      have hz0 := vertNeedsClip_z hclip.1.1.1
      by_cases hg : rt.gouraud = true
      · rw [if_pos hg] at hsub
        dsimp only at hsub
        simp only [List.mem_cons, List.mem_singleton, List.not_mem_nil, or_false] at hsub
        rcases hsub with rfl | rfl
        · exact absurd hb.1 (not_le.mpr hz0)
        · exact absurd hb.1 (not_le.mpr hz0)
      · rw [if_neg hg] at hsub
        dsimp only at hsub
        simp only [List.mem_cons, List.mem_singleton, List.not_mem_nil, or_false] at hsub
        rcases hsub with rfl | rfl
        · exact absurd hb.1 (not_le.mpr hz0)
        · exact absurd hb.1 (not_le.mpr hz0)

theorem drawFold_notBehind (f : RState → Nat → RState × List Submission)
    (hf : ∀ (st : RState) (j : Nat) (sub : Submission), sub ∈ (f st j).2 → ¬ subBehind sub) :
    ∀ (l : List Nat) (s : RState) (sub : Submission),
      sub ∈ (drawFold f s l).2 → ¬ subBehind sub := by
  intro l
  induction l with
  | nil =>
    intro s sub hsub
    simp [drawFold] at hsub
  | cons j rest ih =>
    intro s sub hsub
    unfold drawFold at hsub
    dsimp only at hsub
    rw [List.mem_append] at hsub
    rcases hsub with h | h
    · exact hf s j sub h
    · exact ih _ sub h

theorem Slots.get_cases (sl : Slots) (i : Fin 3) :
    sl.get i = sl.A ∨ sl.get i = sl.B ∨ sl.get i = sl.C := by
  rcases i with ⟨(_ | _ | _ | i), hi⟩
  · exact Or.inl rfl
  · exact Or.inr (Or.inl rfl)
  · exact Or.inr (Or.inr rfl)
  · omega

/-- A mesh-walker submission whose triangle lies behind the eye puts
every physical slot at nonnegative view-space z. -/
theorem submissionOf_behind {rt : SFlags} {s : RState} {fc : RGBf} {sl : Slots}
    (hb : subBehind (submissionOf rt s fc sl)) (i : Fin 3) :
    0 ≤ (sl.get i).P.z := by
  rcases Slots.get_cases sl i with h | h | h <;> rw [h]
  · exact hb.1
  · exact hb.2.1
  · exact hb.2.2

theorem triNeedsClip_pc2 {cfg : Config} {M : fMat4} {sl : Slots}
    (h : triNeedsClip cfg M sl = false) :
    vertNeedsClip cfg.ortho M (clipboundXY cfg) sl.pc2.P = false := by
  unfold triNeedsClip at h
  simp only [Bool.or_eq_false_iff] at h
  exact h.1.1

/-- The per-triangle step submits nothing or exactly one call built from
its own result slots and face color. -/
theorem meshTriangle_subs_shape (cfg : Config) (sqrtq : ℚ → ℚ) (rt : SFlags) (ct : Bool)
    (tn : List fVec3) (tt : List fVec2) (s : RState) (fc : RGBf) (sl : Slots) :
    (_meshTriangle cfg sqrtq rt ct tn tt s fc sl).2.2 = [] ∨
    (_meshTriangle cfg sqrtq rt ct tn tt s fc sl).2.2 =
      [submissionOf rt s (_meshTriangle cfg sqrtq rt ct tn tt s fc sl).1
         (_meshTriangle cfg sqrtq rt ct tn tt s fc sl).2.1] := by
  unfold _meshTriangle
  dsimp only
  split
  · split
    · exact Or.inl rfl
    · split
      · exact Or.inl rfl
      · exact Or.inr rfl
  · split
    · exact Or.inl rfl
    · split
      · exact Or.inl rfl
      · exact Or.inr rfl

/-- With the clip test enabled, a triangle that needs clipping is never
submitted. -/
theorem meshTriangle_subs_clip (cfg : Config) (sqrtq : ℚ → ℚ) (rt : SFlags)
    (tn : List fVec3) (tt : List fVec2) (s : RState) (fc : RGBf) (sl : Slots)
    (hc : triNeedsClip cfg s.projM sl = true) :
    (_meshTriangle cfg sqrtq rt true tn tt s fc sl).2.2 = [] := by
  unfold _meshTriangle
  dsimp only
  rw [hc]
  split
  · split
    · rfl
    · split
      · rfl
      · next h => simp at h
  · split
    · rfl
    · split
      · rfl
      · next h => simp at h

theorem meshTriangle_notBehind (cfg : Config) (sqrtq : ℚ → ℚ) (rt : SFlags)
    (tn : List fVec3) (tt : List fVec2) (s : RState) (fc : RGBf) (sl : Slots) :
    ∀ sub ∈ (_meshTriangle cfg sqrtq rt true tn tt s fc sl).2.2, ¬ subBehind sub := by
  intro sub hsub hb
  by_cases hc : triNeedsClip cfg s.projM sl = true
  · rw [meshTriangle_subs_clip cfg sqrtq rt tn tt s fc sl hc] at hsub
    simp at hsub
  · rw [Bool.not_eq_true] at hc
    rcases meshTriangle_subs_shape cfg sqrtq rt true tn tt s fc sl with he | he
    · rw [he] at hsub
      simp at hsub
    · rw [he] at hsub
      simp only [List.mem_singleton] at hsub
      subst hsub
      have hz := submissionOf_behind hb sl.p2
      rw [(meshTriangle_P cfg sqrtq rt true tn tt s fc sl).1 sl.p2] at hz
      exact absurd hz (not_le.mpr (vertNeedsClip_z (triNeedsClip_pc2 hc)))

theorem meshChain_notBehind (cfg : Config) (sqrtq : ℚ → ℚ) (rt : SFlags)
    (hT hN : Bool) (verts tn : List fVec3) (tt : List fVec2) (s : RState) :
    ∀ (n : Nat) (fc : RGBf) (sl : Slots) (face : List Nat) (sub : Submission),
      sub ∈ (_meshChain cfg sqrtq rt true hT hN verts tn tt s fc sl face n).2.2.2 →
      ¬ subBehind sub := by
  intro n
  induction n with
  | zero =>
    intro fc sl face sub hsub
    simp [_meshChain] at hsub
  | succ n ih =>
    intro fc sl face sub hsub
    cases n with
    | zero =>
      unfold _meshChain at hsub
      dsimp only at hsub
      exact meshTriangle_notBehind cfg sqrtq rt tn tt s fc sl sub hsub
    | succ m =>
      unfold _meshChain at hsub
      dsimp only at hsub
      rw [List.mem_append] at hsub
      rcases hsub with h | h
      · exact meshTriangle_notBehind cfg sqrtq rt tn tt s fc sl sub h
      · exact ih _ _ _ sub h

theorem meshLoop_notBehind (cfg : Config) (sqrtq : ℚ → ℚ) (rt : SFlags)
    (hT hN : Bool) (verts tn : List fVec3) (tt : List fVec2) (s : RState) :
    ∀ (fuel : Nat) (fc : RGBf) (sl : Slots) (face : List Nat) (sub : Submission),
      sub ∈ (_meshLoop cfg sqrtq rt true hT hN verts tn tt s fuel fc sl face).2 →
      ¬ subBehind sub := by
  intro fuel
  induction fuel with
  | zero =>
    intro fc sl face sub hsub
    simp [_meshLoop] at hsub
  | succ fuel ih =>
    intro fc sl face sub hsub
    unfold _meshLoop at hsub
    dsimp only at hsub
    by_cases hn : face.headD 0 = 0
    · rw [if_pos hn] at hsub
      simp at hsub
    · rw [if_neg hn] at hsub
      dsimp only at hsub
      rw [List.mem_append] at hsub
      rcases hsub with h | h
      · exact meshChain_notBehind cfg sqrtq rt hT hN verts tn tt s _ _ _ _ sub h
      · exact ih _ _ _ sub h

/-- The always-testing mesh walk never submits a behind-the-eye
triangle, unconditionally. -/
theorem drawMeshAlwaysClip_notBehind (cfg : Config) (sqrtq : ℚ → ℚ) (rt : SFlags)
    (s : RState) (m : MeshData) :
    ∀ sub ∈ (_drawMeshAlwaysClip cfg sqrtq rt s m).2, ¬ subBehind sub := by
  intro sub hsub
  unfold _drawMeshAlwaysClip at hsub
  dsimp only at hsub
  split at hsub
  · simp at hsub
  · unfold _drawMeshBody at hsub
    dsimp only at hsub
    exact meshLoop_notBehind cfg sqrtq rt m.texcoord.isSome m.normal.isSome
      (m.vertice.getD []) (m.normal.getD []) (m.texcoord.getD []) _ _ _ _ _ sub hsub

/-- Under the C3 equivalence hypotheses the real mesh renderer inherits
the property from the always-testing reference. -/
theorem drawMesh_notBehind {cfg : Config} (sqrtq : ℚ → ℚ) (rt : SFlags) {s : RState}
    {m : MeshData} (ho : cfg.ortho = false)
    (hrow : s.projM.m30 = 0 ∧ s.projM.m31 = 0 ∧ s.projM.m32 = -1 ∧ s.projM.m33 = 0)
    (hverts : ∀ v ∈ m.vertice.getD [], inBox m.bounding_box v)
    (hzero : inBox m.bounding_box ⟨0, 0, 0⟩) :
    ∀ sub ∈ (_drawMesh cfg sqrtq rt s m).2, ¬ subBehind sub := by
  rw [drawMesh_alwaysClip_eq sqrtq rt ho hrow hverts hzero]
  exact drawMeshAlwaysClip_notBehind cfg sqrtq rt s m

theorem eventsSubs_append (a b : List MEvent) :
    eventsSubs (a ++ b) = eventsSubs a ++ eventsSubs b := by
  unfold eventsSubs
  rw [List.map_append, List.flatten_append]

theorem eventsSubs_cons (e : MEvent) (l : List MEvent) :
    eventsSubs (e :: l) = e.subsOf ++ eventsSubs l := by
  unfold eventsSubs
  rw [List.map_cons, List.flatten_cons]

theorem projM_of_fixedPart {s t : RState} (h : fixedPart s = fixedPart t) :
    s.projM = t.projM := by
  simp only [fixedPart, Prod.mk.injEq] at h
  exact h.2.2.2.1

theorem projM_precompute (s : RState) (e : Int) :
    (_precomputeSpecularTable s e).projM = s.projM :=
  projM_of_fixedPart (fixedPart_precompute s e)

theorem projM_matSub (s : RState) (um : Bool) (m : MeshData) :
    ((if um = true then
        { s with r_ambiantColor := s.ambiantColor.smul m.ambiant_strength,
                 r_diffuseColor := s.diffuseColor.smul m.diffuse_strength,
                 r_specularColor := s.specularColor.smul m.specular_strength,
                 r_objectColor := m.color }
      else s) : RState).projM = s.projM := by
  cases um
  · rfl
  · rfl

theorem drawMeshWalk_notBehind {cfg : Config} (sqrtq : ℚ → ℚ) (sh : SFlags) (um : Bool)
    (ho : cfg.ortho = false) :
    ∀ (chain : List MeshData) (s : RState),
      (s.projM.m30 = 0 ∧ s.projM.m31 = 0 ∧ s.projM.m32 = -1 ∧ s.projM.m33 = 0) →
      (∀ m ∈ chain, (∀ v ∈ m.vertice.getD [], inBox m.bounding_box v) ∧
         inBox m.bounding_box ⟨0, 0, 0⟩) →
      ∀ sub ∈ eventsSubs (drawMeshWalk cfg sqrtq sh um s chain).2, ¬ subBehind sub := by
  intro chain
  induction chain with
  | nil =>
    intro s hrow hbox sub hsub
    simp [drawMeshWalk, eventsSubs] at hsub
  | cons m rest ih =>
    intro s hrow hbox sub hsub
    by_cases hv : m.vertice.isSome
    · simp only [drawMeshWalk, hv, if_true, ite_true] at hsub
      rw [eventsSubs_append] at hsub
      rw [List.mem_append] at hsub
      rcases hsub with h1 | h23
      · cases um <;> simp [eventsSubs, MEvent.subsOf] at h1
      · rw [eventsSubs_cons] at h23
        dsimp only [MEvent.subsOf] at h23
        rw [List.mem_append] at h23
        rcases h23 with h2 | h3
        · refine drawMesh_notBehind sqrtq (effShader sh m) ho ?_
            (hbox m (List.mem_cons_self m rest)).1
            (hbox m (List.mem_cons_self m rest)).2 sub h2
          rw [projM_precompute, projM_matSub]
          exact hrow
        · refine ih _ ?_ (fun m2 hm2 => hbox m2 (List.mem_cons_of_mem m hm2)) sub h3
          rw [projM_of_fixedPart (fixedPart_drawMesh _ _ _ _ _), projM_precompute,
            projM_matSub]
          exact hrow
    · simp only [drawMeshWalk, hv, Bool.false_eq_true, if_false] at hsub
      exact ih s hrow (fun m2 hm2 => hbox m2 (List.mem_cons_of_mem m hm2)) sub hsub

theorem drawMeshEntry_notBehind {cfg : Config} (sqrtq : ℚ → ℚ) {s : RState}
    (shader : SFlags) (chain : List MeshData) (um dc : Bool) (ho : cfg.ortho = false)
    (hrow : s.projM.m30 = 0 ∧ s.projM.m31 = 0 ∧ s.projM.m32 = -1 ∧ s.projM.m33 = 0)
    (hbox : ∀ m ∈ chain, (∀ v ∈ m.vertice.getD [], inBox m.bounding_box v) ∧
              inBox m.bounding_box ⟨0, 0, 0⟩) :
    ∀ sub ∈ eventsSubs (drawMesh cfg sqrtq s shader chain um dc).2.2, ¬ subBehind sub := by
  intro sub hsub
  unfold drawMesh at hsub
  dsimp only at hsub
  by_cases h1 : imageBad s = true
  · rw [if_pos h1] at hsub
    simp [eventsSubs] at hsub
  · rw [if_neg h1] at hsub
    by_cases h2 : zbufferBad cfg s = true
    · rw [if_pos h2] at hsub
      simp [eventsSubs] at hsub
    · rw [if_neg h2] at hsub
      have hbox2 : ∀ m2 ∈ (if dc = true then chain else chain.take 1),
          (∀ v ∈ m2.vertice.getD [], inBox m2.bounding_box v) ∧
          inBox m2.bounding_box ⟨0, 0, 0⟩ := by
        intro m2 hm2
        refine hbox m2 ?_
        by_cases hdc : dc = true
        · rw [if_pos hdc] at hm2
          exact hm2
        · rw [if_neg hdc] at hm2
          exact List.take_subset _ _ hm2
      by_cases h3 : um = true
      · rw [if_pos h3] at hsub
        dsimp only at hsub
        rw [eventsSubs_append, List.mem_append] at hsub
        rcases hsub with h | h
        · exact drawMeshWalk_notBehind sqrtq shader um ho _ s hrow hbox2 sub h
        · simp [eventsSubs, MEvent.subsOf] at h
      · rw [if_neg h3] at hsub
        dsimp only at hsub
        exact drawMeshWalk_notBehind sqrtq shader um ho _ s hrow hbox2 sub hsub

theorem drawTriangle1_notBehind (cfg : Config) (sqrtq : ℚ → ℚ) (s : RState)
    (P1 P2 P3 : fVec3) :
    ∀ sub ∈ (drawTriangle1 cfg sqrtq s P1 P2 P3).2.2, ¬ subBehind sub := by
  intro sub hsub
  unfold drawTriangle1 at hsub
  dsimp only at hsub
  split_ifs at hsub <;>
    first
      | exact drawTriangle_notBehind cfg sqrtq _ _ _ _ _ _ _ _ _ _ _ sub hsub
      | simp at hsub

theorem drawTriangle2_notBehind (cfg : Config) (sqrtq : ℚ → ℚ) (s : RState) (sh : SFlags)
    (P1 P2 P3 N1 N2 N3 : fVec3) :
    ∀ sub ∈ (drawTriangle2 cfg sqrtq s sh P1 P2 P3 N1 N2 N3).2.2, ¬ subBehind sub := by
  intro sub hsub
  unfold drawTriangle2 at hsub
  dsimp only at hsub
  split_ifs at hsub <;>
    first
      | exact drawTriangle_notBehind cfg sqrtq _ _ _ _ _ _ _ _ _ _ _ sub hsub
      | simp at hsub

theorem drawTriangle3_notBehind (cfg : Config) (sqrtq : ℚ → ℚ) (s : RState) (sh : SFlags)
    (P1 P2 P3 : fVec3) (T1 T2 T3 : fVec2) (tex : Option Nat) :
    ∀ sub ∈ (drawTriangle3 cfg sqrtq s sh P1 P2 P3 T1 T2 T3 tex).2.2, ¬ subBehind sub := by
  intro sub hsub
  unfold drawTriangle3 at hsub
  dsimp only at hsub
  split_ifs at hsub <;>
    first
      | exact drawTriangle_notBehind cfg sqrtq _ _ _ _ _ _ _ _ _ _ _ sub hsub
      | simp at hsub

theorem drawTriangle4_notBehind (cfg : Config) (sqrtq : ℚ → ℚ) (s : RState) (sh : SFlags)
    (P1 P2 P3 N1 N2 N3 : fVec3) (T1 T2 T3 : fVec2) (tex : Option Nat) :
    ∀ sub ∈ (drawTriangle4 cfg sqrtq s sh P1 P2 P3 N1 N2 N3 T1 T2 T3 tex).2.2,
      ¬ subBehind sub := by
  intro sub hsub
  unfold drawTriangle4 at hsub
  dsimp only at hsub
  split_ifs at hsub <;>
    first
      | exact drawTriangle_notBehind cfg sqrtq _ _ _ _ _ _ _ _ _ _ _ sub hsub
      | simp at hsub

theorem drawQuad1_notBehind (cfg : Config) (sqrtq : ℚ → ℚ) (s : RState)
    (P1 P2 P3 P4 : fVec3) :
    ∀ sub ∈ (drawQuad1 cfg sqrtq s P1 P2 P3 P4).2.2, ¬ subBehind sub := by
  intro sub hsub
  unfold drawQuad1 at hsub
  dsimp only at hsub
  split_ifs at hsub <;>
    first
      | exact drawQuad_notBehind cfg sqrtq _ _ _ _ _ _ _ _ _ _ _ _ _ _ sub hsub
      | simp at hsub

theorem drawQuad2_notBehind (cfg : Config) (sqrtq : ℚ → ℚ) (s : RState) (sh : SFlags)
    (P1 P2 P3 P4 N1 N2 N3 N4 : fVec3) :
    ∀ sub ∈ (drawQuad2 cfg sqrtq s sh P1 P2 P3 P4 N1 N2 N3 N4).2.2, ¬ subBehind sub := by
  intro sub hsub
  unfold drawQuad2 at hsub
  dsimp only at hsub
  split_ifs at hsub <;>
    first
      | exact drawQuad_notBehind cfg sqrtq _ _ _ _ _ _ _ _ _ _ _ _ _ _ sub hsub
      | simp at hsub

theorem drawQuad3_notBehind (cfg : Config) (sqrtq : ℚ → ℚ) (s : RState) (sh : SFlags)
    (P1 P2 P3 P4 : fVec3) (T1 T2 T3 T4 : fVec2) (tex : Option Nat) :
    ∀ sub ∈ (drawQuad3 cfg sqrtq s sh P1 P2 P3 P4 T1 T2 T3 T4 tex).2.2,
      ¬ subBehind sub := by
  intro sub hsub
  unfold drawQuad3 at hsub
  dsimp only at hsub
  split_ifs at hsub <;>
    first
      | exact drawQuad_notBehind cfg sqrtq _ _ _ _ _ _ _ _ _ _ _ _ _ _ sub hsub
      | simp at hsub

theorem drawQuad4_notBehind (cfg : Config) (sqrtq : ℚ → ℚ) (s : RState) (sh : SFlags)
    (P1 P2 P3 P4 N1 N2 N3 N4 : fVec3) (T1 T2 T3 T4 : fVec2) (tex : Option Nat) :
    ∀ sub ∈ (drawQuad4 cfg sqrtq s sh P1 P2 P3 P4 N1 N2 N3 N4 T1 T2 T3 T4 tex).2.2,
      ¬ subBehind sub := by
  intro sub hsub
  unfold drawQuad4 at hsub
  dsimp only at hsub
  split_ifs at hsub <;>
    first
      | exact drawQuad_notBehind cfg sqrtq _ _ _ _ _ _ _ _ _ _ _ _ _ _ sub hsub
      | simp at hsub

theorem drawTriangles_notBehind (cfg : Config) (sqrtq : ℚ → ℚ) (s : RState) (sh : SFlags)
    (nb : Int) (iv : Option (List Nat)) (vs : Option (List fVec3))
    (inl : Option (List Nat)) (nl : Option (List fVec3))
    (itl : Option (List Nat)) (tl : Option (List fVec2)) (tim : Option Nat) :
    ∀ sub ∈ (drawTriangles cfg sqrtq s sh nb iv vs inl nl itl tl tim).2.2,
      ¬ subBehind sub := by
  intro sub hsub
  unfold drawTriangles at hsub
  dsimp only at hsub
  split_ifs at hsub <;>
    first
      | exact drawFold_notBehind _
          (fun st j sub' h =>
            drawTriangle_notBehind cfg sqrtq st _ _ _ _ _ _ _ _ _ _ sub' h)
          _ _ sub hsub
      | simp at hsub

theorem drawQuads_notBehind (cfg : Config) (sqrtq : ℚ → ℚ) (s : RState) (sh : SFlags)
    (nb : Int) (iv : Option (List Nat)) (vs : Option (List fVec3))
    (inl : Option (List Nat)) (nl : Option (List fVec3))
    (itl : Option (List Nat)) (tl : Option (List fVec2)) (tim : Option Nat) :
    ∀ sub ∈ (drawQuads cfg sqrtq s sh nb iv vs inl nl itl tl tim).2.2,
      ¬ subBehind sub := by
  intro sub hsub
  unfold drawQuads at hsub
  dsimp only at hsub
  split_ifs at hsub <;>
    first
      | exact drawFold_notBehind _
          (fun st j sub' h =>
            drawQuad_notBehind cfg sqrtq st _ _ _ _ _ _ _ _ _ _ _ _ _ sub' h)
          _ _ sub hsub
      | simp at hsub

/-- C3 (amended): for a perspective projection whose fourth row is
(0 0 -1 0) and a mesh whose vertex array lies inside its bounding box
(with the origin also inside, covering out-of-range face indices),
skipping the per-triangle clip test when the 8-corner test reports no
corner can leave the safe region produces exactly the same submission
sequence, the same vertex records and the same final state as always
running the per-triangle clip test.  The all-zero "not computed" box of
the original claim is not covered: C3_counterexample refutes it. -/
theorem C3_clipskip_equivalence (cfg : Config) (sqrtq : ℚ → ℚ) (rt : SFlags) (s : RState)
    (m : MeshData) (ho : cfg.ortho = false)
    (hrow : s.projM.m30 = 0 ∧ s.projM.m31 = 0 ∧ s.projM.m32 = -1 ∧ s.projM.m33 = 0)
    (hverts : ∀ v ∈ m.vertice.getD [], inBox m.bounding_box v)
    (hzero : inBox m.bounding_box ⟨0, 0, 0⟩) :
    (_drawMesh cfg sqrtq rt s m).2 = (_drawMeshAlwaysClip cfg sqrtq rt s m).2 ∧
    (_drawMesh cfg sqrtq rt s m).1 = (_drawMeshAlwaysClip cfg sqrtq rt s m).1 :=
  ⟨congrArg Prod.snd (drawMesh_alwaysClip_eq sqrtq rt ho hrow hverts hzero),
   congrArg Prod.fst (drawMesh_alwaysClip_eq sqrtq rt ho hrow hverts hzero)⟩

/-- C3 counterexample: a mesh whose bounding box is all zeros passes
the 8-corner test (only the origin is tested, and it projects safely)
although its actual vertices are behind the eye; the clip-skipping walk
then submits a triangle that the always-testing walk rejects, so the
two runs differ. -/
theorem C3_counterexample :
    _discard cfgNZ cexState cexMesh.bounding_box
        (cexState.projM.mul cexState.r_modelViewM) = false ∧
    _clipTestNeeded cfgNZ.ortho (clipboundXY cfgNZ) cexMesh.bounding_box
        (cexState.projM.mul cexState.r_modelViewM) = false ∧
    cexMesh.bounding_box = ⟨0, 0, 0, 0, 0, 0⟩ ∧
    (_drawMesh cfgNZ sq1 ⟨false, false⟩ cexState cexMesh).2 ≠
      (_drawMeshAlwaysClip cfgNZ sq1 ⟨false, false⟩ cexState cexMesh).2 := by
  refine ⟨?_, ?_, rfl, ?_⟩
  · with_unfolding_all decide
  · with_unfolding_all decide
  · with_unfolding_all decide

/-- Witness for C3: a mesh with an honest bounding box under the
counterexample state satisfies every hypothesis, and the equivalence
holds there. -/
theorem C3_witness :
    (cfgNZ.ortho = false ∧
     cexState.projM.m30 = 0 ∧ cexState.projM.m31 = 0 ∧ cexState.projM.m32 = -1 ∧
       cexState.projM.m33 = 0 ∧
     (∀ v ∈ wMesh.vertice.getD [], inBox wMesh.bounding_box v) ∧
     inBox wMesh.bounding_box ⟨0, 0, 0⟩) ∧
    (_drawMesh cfgNZ sq1 ⟨false, false⟩ cexState wMesh).2 =
      (_drawMeshAlwaysClip cfgNZ sq1 ⟨false, false⟩ cexState wMesh).2 := by
  refine ⟨⟨rfl, rfl, rfl, rfl, rfl, by with_unfolding_all decide,
    by with_unfolding_all decide⟩, ?_⟩
  exact (C3_clipskip_equivalence cfgNZ sq1 ⟨false, false⟩ cexState wMesh rfl
    ⟨rfl, rfl, rfl, rfl⟩ (by with_unfolding_all decide) (by with_unfolding_all decide)).1

/-- C2 (amended): a triangle whose three vertices all have view-space z
at least 0 after the model-view transform is never submitted to the
rasterizer, for every single-triangle, single-quad and batch draw call
under every parameter combination; for mesh chains the same holds for a
perspective projection with fourth row (0 0 -1 0) whenever every mesh's
vertices lie inside its bounding box (the box also containing the
origin).  The unrestricted mesh statement of the original claim fails
for all-zero "not computed" bounding boxes: see C2_counterexample. -/
theorem C2_behind_eye_never_rasterized (cfg : Config) (sqrtq : ℚ → ℚ) (s : RState) :
    (∀ (P1 P2 P3 : fVec3) (sub : Submission),
       sub ∈ (drawTriangle1 cfg sqrtq s P1 P2 P3).2.2 → ¬ subBehind sub) ∧
    (∀ (sh : SFlags) (P1 P2 P3 N1 N2 N3 : fVec3) (sub : Submission),
       sub ∈ (drawTriangle2 cfg sqrtq s sh P1 P2 P3 N1 N2 N3).2.2 → ¬ subBehind sub) ∧
    (∀ (sh : SFlags) (P1 P2 P3 : fVec3) (T1 T2 T3 : fVec2) (tex : Option Nat)
       (sub : Submission),
       sub ∈ (drawTriangle3 cfg sqrtq s sh P1 P2 P3 T1 T2 T3 tex).2.2 → ¬ subBehind sub) ∧
    (∀ (sh : SFlags) (P1 P2 P3 N1 N2 N3 : fVec3) (T1 T2 T3 : fVec2) (tex : Option Nat)
       (sub : Submission),
       sub ∈ (drawTriangle4 cfg sqrtq s sh P1 P2 P3 N1 N2 N3 T1 T2 T3 tex).2.2 →
       ¬ subBehind sub) ∧
    (∀ (P1 P2 P3 P4 : fVec3) (sub : Submission),
       sub ∈ (drawQuad1 cfg sqrtq s P1 P2 P3 P4).2.2 → ¬ subBehind sub) ∧
    (∀ (sh : SFlags) (P1 P2 P3 P4 N1 N2 N3 N4 : fVec3) (sub : Submission),
       sub ∈ (drawQuad2 cfg sqrtq s sh P1 P2 P3 P4 N1 N2 N3 N4).2.2 → ¬ subBehind sub) ∧
    (∀ (sh : SFlags) (P1 P2 P3 P4 : fVec3) (T1 T2 T3 T4 : fVec2) (tex : Option Nat)
       (sub : Submission),
       sub ∈ (drawQuad3 cfg sqrtq s sh P1 P2 P3 P4 T1 T2 T3 T4 tex).2.2 →
       ¬ subBehind sub) ∧
    (∀ (sh : SFlags) (P1 P2 P3 P4 N1 N2 N3 N4 : fVec3) (T1 T2 T3 T4 : fVec2)
       (tex : Option Nat) (sub : Submission),
       sub ∈ (drawQuad4 cfg sqrtq s sh P1 P2 P3 P4 N1 N2 N3 N4 T1 T2 T3 T4 tex).2.2 →
       ¬ subBehind sub) ∧
    (∀ (sh : SFlags) (nb : Int) (iv : Option (List Nat)) (vs : Option (List fVec3))
       (inl : Option (List Nat)) (nl : Option (List fVec3)) (itl : Option (List Nat))
       (tl : Option (List fVec2)) (tim : Option Nat) (sub : Submission),
       sub ∈ (drawTriangles cfg sqrtq s sh nb iv vs inl nl itl tl tim).2.2 →
       ¬ subBehind sub) ∧
    (∀ (sh : SFlags) (nb : Int) (iv : Option (List Nat)) (vs : Option (List fVec3))
       (inl : Option (List Nat)) (nl : Option (List fVec3)) (itl : Option (List Nat))
       (tl : Option (List fVec2)) (tim : Option Nat) (sub : Submission),
       sub ∈ (drawQuads cfg sqrtq s sh nb iv vs inl nl itl tl tim).2.2 →
       ¬ subBehind sub) ∧
    (cfg.ortho = false →
     s.projM.m30 = 0 ∧ s.projM.m31 = 0 ∧ s.projM.m32 = -1 ∧ s.projM.m33 = 0 →
     ∀ (shader : SFlags) (chain : List MeshData) (um dc : Bool),
       (∀ m ∈ chain, (∀ v ∈ m.vertice.getD [], inBox m.bounding_box v) ∧
          inBox m.bounding_box ⟨0, 0, 0⟩) →
       ∀ sub ∈ eventsSubs (drawMesh cfg sqrtq s shader chain um dc).2.2,
         ¬ subBehind sub) := by
  refine ⟨?_, ?_, ?_, ?_, ?_, ?_, ?_, ?_, ?_, ?_, ?_⟩
  · exact fun P1 P2 P3 sub h => drawTriangle1_notBehind cfg sqrtq s P1 P2 P3 sub h
  · exact fun sh P1 P2 P3 N1 N2 N3 sub h =>
      drawTriangle2_notBehind cfg sqrtq s sh P1 P2 P3 N1 N2 N3 sub h
  · exact fun sh P1 P2 P3 T1 T2 T3 tex sub h =>
      drawTriangle3_notBehind cfg sqrtq s sh P1 P2 P3 T1 T2 T3 tex sub h
  · exact fun sh P1 P2 P3 N1 N2 N3 T1 T2 T3 tex sub h =>
      drawTriangle4_notBehind cfg sqrtq s sh P1 P2 P3 N1 N2 N3 T1 T2 T3 tex sub h
  · exact fun P1 P2 P3 P4 sub h => drawQuad1_notBehind cfg sqrtq s P1 P2 P3 P4 sub h
  · exact fun sh P1 P2 P3 P4 N1 N2 N3 N4 sub h =>
      drawQuad2_notBehind cfg sqrtq s sh P1 P2 P3 P4 N1 N2 N3 N4 sub h
  · exact fun sh P1 P2 P3 P4 T1 T2 T3 T4 tex sub h =>
      drawQuad3_notBehind cfg sqrtq s sh P1 P2 P3 P4 T1 T2 T3 T4 tex sub h
  · exact fun sh P1 P2 P3 P4 N1 N2 N3 N4 T1 T2 T3 T4 tex sub h =>
      drawQuad4_notBehind cfg sqrtq s sh P1 P2 P3 P4 N1 N2 N3 N4 T1 T2 T3 T4 tex sub h
  · exact fun sh nb iv vs inl nl itl tl tim sub h =>
      drawTriangles_notBehind cfg sqrtq s sh nb iv vs inl nl itl tl tim sub h
  · exact fun sh nb iv vs inl nl itl tl tim sub h =>
      drawQuads_notBehind cfg sqrtq s sh nb iv vs inl nl itl tl tim sub h
  · exact fun ho hrow shader chain um dc hbox sub h =>
      drawMeshEntry_notBehind sqrtq shader chain um dc ho hrow hbox sub h

/-- C2 counterexample: through the public drawMesh entry point, a mesh
whose bounding box is all zeros while its vertices sit at view-space
z = +1 has a triangle with every vertex behind the eye submitted to the
rasterizer, because the negative 8-corner test suppressed the
per-triangle clip test. -/
theorem C2_counterexample :
    ∃ sub ∈ eventsSubs
        (drawMesh cfgNZ sq1 cexState ⟨false, false⟩ [cexMesh] false true).2.2,
      subBehind sub := by
  with_unfolding_all decide

/-- Witness for C2: the mesh-chain conjunct of the theorem applies to
the honest-box mesh under the counterexample state, whose hypotheses all
hold there. -/
theorem C2_witness :
    (cfgNZ.ortho = false ∧
     cexState.projM.m30 = 0 ∧ cexState.projM.m31 = 0 ∧ cexState.projM.m32 = -1 ∧
       cexState.projM.m33 = 0 ∧
     (∀ m ∈ [wMesh], (∀ v ∈ m.vertice.getD [], inBox m.bounding_box v) ∧
        inBox m.bounding_box ⟨0, 0, 0⟩)) ∧
    (∀ sub ∈ eventsSubs
        (drawMesh cfgNZ sq1 cexState ⟨false, false⟩ [wMesh] false true).2.2,
      ¬ subBehind sub) := by
  have hbox : ∀ m ∈ [wMesh], (∀ v ∈ m.vertice.getD [], inBox m.bounding_box v) ∧
      inBox m.bounding_box ⟨0, 0, 0⟩ := by
    intro m hm
    rw [List.mem_singleton] at hm
    subst hm
    exact ⟨by with_unfolding_all decide, by with_unfolding_all decide⟩
  refine ⟨⟨rfl, rfl, rfl, rfl, rfl, hbox⟩, ?_⟩
  intro sub hsub
  exact (C2_behind_eye_never_rasterized cfgNZ sq1 cexState).2.2.2.2.2.2.2.2.2.2 rfl
    ⟨rfl, rfl, rfl, rfl⟩ ⟨false, false⟩ [wMesh] false true hbox sub hsub
